import Mathlib

/-!
# ByteBasket dietary matching engine

A shallow embedding of `src/db/services/DietaryMatchingService.js` and the
properties of its classification logic.

JavaScript strings are embedded as `String`; the text algorithms work on the
character lists. Every keyword of the pattern table is ASCII, so matching on
characters and matching on UTF-16 code units agree.
-/

namespace DietaryMatching

/-! ## JavaScript values used by the service -/

/-- A thrown JavaScript error: the constructor name and the message. -/
structure JsError where
  name : String
  message : String
deriving DecidableEq, Repr

deriving instance DecidableEq for Except

/-! ### `String.prototype.toLowerCase`

The method applies the locale-independent lowercase conversion of the Unicode
standard: the simple lowercase mapping of the character database, the
two-character form of U+0130 and the final sigma rule. -/

/-- The simple lowercase mapping of the Unicode character database above U+007F,
as runs `(first, last, step, image)`: the code points `first`, `first + step`,
..., `last` have the lowercase forms `image`, `image + step`, ...; a code point
above U+007F in no run is its own lowercase form. -/
def lowercaseRuns : List (Nat × Nat × Nat × Nat) :=
  [(192, 214, 1, 224), (216, 222, 1, 248), (256, 302, 2, 257), (306, 310, 2, 307),
    (313, 327, 2, 314), (330, 374, 2, 331), (376, 376, 1, 255), (377, 381, 2, 378),
    (385, 385, 1, 595), (386, 388, 2, 387), (390, 390, 1, 596), (391, 391, 1, 392),
    (393, 394, 1, 598), (395, 395, 1, 396), (398, 398, 1, 477), (399, 399, 1, 601),
    (400, 400, 1, 603), (401, 401, 1, 402), (403, 403, 1, 608), (404, 404, 1, 611),
    (406, 406, 1, 617), (407, 407, 1, 616), (408, 408, 1, 409), (412, 412, 1, 623),
    (413, 413, 1, 626), (415, 415, 1, 629), (416, 420, 2, 417), (422, 422, 1, 640),
    (423, 423, 1, 424), (425, 425, 1, 643), (428, 428, 1, 429), (430, 430, 1, 648),
    (431, 431, 1, 432), (433, 434, 1, 650), (435, 437, 2, 436), (439, 439, 1, 658),
    (440, 440, 1, 441), (444, 444, 1, 445), (452, 452, 1, 454), (453, 453, 1, 454),
    (455, 455, 1, 457), (456, 456, 1, 457), (458, 458, 1, 460), (459, 475, 2, 460),
    (478, 494, 2, 479), (497, 497, 1, 499), (498, 500, 2, 499), (502, 502, 1, 405),
    (503, 503, 1, 447), (504, 542, 2, 505), (544, 544, 1, 414), (546, 562, 2, 547),
    (570, 570, 1, 11365), (571, 571, 1, 572), (573, 573, 1, 410), (574, 574, 1, 11366),
    (577, 577, 1, 578), (579, 579, 1, 384), (580, 580, 1, 649), (581, 581, 1, 652)]
  ++ [(582, 590, 2, 583), (880, 882, 2, 881), (886, 886, 1, 887), (895, 895, 1, 1011),
    (902, 902, 1, 940), (904, 906, 1, 941), (908, 908, 1, 972), (910, 911, 1, 973),
    (913, 929, 1, 945), (931, 939, 1, 963), (975, 975, 1, 983), (984, 1006, 2, 985),
    (1012, 1012, 1, 952), (1015, 1015, 1, 1016), (1017, 1017, 1, 1010), (1018, 1018, 1, 1019),
    (1021, 1023, 1, 891), (1024, 1039, 1, 1104), (1040, 1071, 1, 1072), (1120, 1152, 2, 1121),
    (1162, 1214, 2, 1163), (1216, 1216, 1, 1231), (1217, 1229, 2, 1218), (1232, 1326, 2, 1233),
    (1329, 1366, 1, 1377), (4256, 4293, 1, 11520), (4295, 4295, 1, 11559), (4301, 4301, 1, 11565),
    (5024, 5103, 1, 43888), (5104, 5109, 1, 5112), (7312, 7354, 1, 4304), (7357, 7359, 1, 4349),
    (7680, 7828, 2, 7681), (7838, 7838, 1, 223), (7840, 7934, 2, 7841), (7944, 7951, 1, 7936),
    (7960, 7965, 1, 7952), (7976, 7983, 1, 7968), (7992, 7999, 1, 7984), (8008, 8013, 1, 8000),
    (8025, 8031, 2, 8017), (8040, 8047, 1, 8032), (8072, 8079, 1, 8064), (8088, 8095, 1, 8080),
    (8104, 8111, 1, 8096), (8120, 8121, 1, 8112), (8122, 8123, 1, 8048), (8124, 8124, 1, 8115),
    (8136, 8139, 1, 8050), (8140, 8140, 1, 8131), (8152, 8153, 1, 8144), (8154, 8155, 1, 8054),
    (8168, 8169, 1, 8160), (8170, 8171, 1, 8058), (8172, 8172, 1, 8165), (8184, 8185, 1, 8056),
    (8186, 8187, 1, 8060), (8188, 8188, 1, 8179), (8486, 8486, 1, 969), (8490, 8490, 1, 107)]
  ++ [(8491, 8491, 1, 229), (8498, 8498, 1, 8526), (8544, 8559, 1, 8560), (8579, 8579, 1, 8580),
    (9398, 9423, 1, 9424), (11264, 11311, 1, 11312), (11360, 11360, 1, 11361), (11362, 11362, 1, 619),
    (11363, 11363, 1, 7549), (11364, 11364, 1, 637), (11367, 11371, 2, 11368), (11373, 11373, 1, 593),
    (11374, 11374, 1, 625), (11375, 11375, 1, 592), (11376, 11376, 1, 594), (11378, 11378, 1, 11379),
    (11381, 11381, 1, 11382), (11390, 11391, 1, 575), (11392, 11490, 2, 11393), (11499, 11501, 2, 11500),
    (11506, 11506, 1, 11507), (42560, 42604, 2, 42561), (42624, 42650, 2, 42625), (42786, 42798, 2, 42787),
    (42802, 42862, 2, 42803), (42873, 42875, 2, 42874), (42877, 42877, 1, 7545), (42878, 42886, 2, 42879),
    (42891, 42891, 1, 42892), (42893, 42893, 1, 613), (42896, 42898, 2, 42897), (42902, 42920, 2, 42903),
    (42922, 42922, 1, 614), (42923, 42923, 1, 604), (42924, 42924, 1, 609), (42925, 42925, 1, 620),
    (42926, 42926, 1, 618), (42928, 42928, 1, 670), (42929, 42929, 1, 647), (42930, 42930, 1, 669),
    (42931, 42931, 1, 43859), (42932, 42946, 2, 42933), (42948, 42948, 1, 42900), (42949, 42949, 1, 642),
    (42950, 42950, 1, 7566), (42951, 42953, 2, 42952), (42960, 42960, 1, 42961), (42966, 42968, 2, 42967),
    (42997, 42997, 1, 42998), (65313, 65338, 1, 65345), (66560, 66599, 1, 66600), (66736, 66771, 1, 66776),
    (66928, 66964, 2, 66967), (66929, 66937, 2, 66968), (66941, 66953, 2, 66980), (66957, 66961, 2, 66996),
    (66965, 66965, 1, 67004), (68736, 68786, 1, 68800), (71840, 71871, 1, 71872), (93760, 93791, 1, 93792)]
  ++ [(125184, 125217, 1, 125218)]

/-- The code points with the property Case_Ignorable, as ranges `(first, last)`. -/
def caseIgnorableRanges : List (Nat × Nat) :=
  [(39, 39), (46, 46), (58, 58), (94, 94), (96, 96), (168, 168),
    (173, 173), (175, 175), (180, 180), (183, 184), (688, 879), (884, 885),
    (890, 890), (900, 901), (903, 903), (1155, 1161), (1369, 1369), (1375, 1375),
    (1425, 1469), (1471, 1471), (1473, 1474), (1476, 1477), (1479, 1479), (1524, 1524),
    (1536, 1541), (1552, 1562), (1564, 1564), (1600, 1600), (1611, 1631), (1648, 1648),
    (1750, 1757), (1759, 1768), (1770, 1773), (1807, 1807), (1809, 1809), (1840, 1866),
    (1958, 1968), (2027, 2037), (2042, 2042), (2045, 2045), (2070, 2093), (2137, 2139),
    (2184, 2184), (2192, 2193), (2200, 2207), (2249, 2306), (2362, 2362), (2364, 2364),
    (2369, 2376), (2381, 2381), (2385, 2391), (2402, 2403), (2417, 2417), (2433, 2433),
    (2492, 2492), (2497, 2500), (2509, 2509), (2530, 2531), (2558, 2558), (2561, 2562),
    (2620, 2620), (2625, 2626), (2631, 2632), (2635, 2637), (2641, 2641), (2672, 2673),
    (2677, 2677), (2689, 2690), (2748, 2748), (2753, 2757), (2759, 2760), (2765, 2765)]
  ++ [(2786, 2787), (2810, 2815), (2817, 2817), (2876, 2876), (2879, 2879), (2881, 2884),
    (2893, 2893), (2901, 2902), (2914, 2915), (2946, 2946), (3008, 3008), (3021, 3021),
    (3072, 3072), (3076, 3076), (3132, 3132), (3134, 3136), (3142, 3144), (3146, 3149),
    (3157, 3158), (3170, 3171), (3201, 3201), (3260, 3260), (3263, 3263), (3270, 3270),
    (3276, 3277), (3298, 3299), (3328, 3329), (3387, 3388), (3393, 3396), (3405, 3405),
    (3426, 3427), (3457, 3457), (3530, 3530), (3538, 3540), (3542, 3542), (3633, 3633),
    (3636, 3642), (3654, 3662), (3761, 3761), (3764, 3772), (3782, 3782), (3784, 3789),
    (3864, 3865), (3893, 3893), (3895, 3895), (3897, 3897), (3953, 3966), (3968, 3972),
    (3974, 3975), (3981, 3991), (3993, 4028), (4038, 4038), (4141, 4144), (4146, 4151),
    (4153, 4154), (4157, 4158), (4184, 4185), (4190, 4192), (4209, 4212), (4226, 4226),
    (4229, 4230), (4237, 4237), (4253, 4253), (4348, 4348), (4957, 4959), (5906, 5908),
    (5938, 5939), (5970, 5971), (6002, 6003), (6068, 6069), (6071, 6077), (6086, 6086)]
  ++ [(6089, 6099), (6103, 6103), (6109, 6109), (6155, 6159), (6211, 6211), (6277, 6278),
    (6313, 6313), (6432, 6434), (6439, 6440), (6450, 6450), (6457, 6459), (6679, 6680),
    (6683, 6683), (6742, 6742), (6744, 6750), (6752, 6752), (6754, 6754), (6757, 6764),
    (6771, 6780), (6783, 6783), (6823, 6823), (6832, 6862), (6912, 6915), (6964, 6964),
    (6966, 6970), (6972, 6972), (6978, 6978), (7019, 7027), (7040, 7041), (7074, 7077),
    (7080, 7081), (7083, 7085), (7142, 7142), (7144, 7145), (7149, 7149), (7151, 7153),
    (7212, 7219), (7222, 7223), (7288, 7293), (7376, 7378), (7380, 7392), (7394, 7400),
    (7405, 7405), (7412, 7412), (7416, 7417), (7468, 7530), (7544, 7544), (7579, 7679),
    (8125, 8125), (8127, 8129), (8141, 8143), (8157, 8159), (8173, 8175), (8189, 8190),
    (8203, 8207), (8216, 8217), (8228, 8228), (8231, 8231), (8234, 8238), (8288, 8292),
    (8294, 8303), (8305, 8305), (8319, 8319), (8336, 8348), (8400, 8432), (11388, 11389),
    (11503, 11505), (11631, 11631), (11647, 11647), (11744, 11775), (11823, 11823), (12293, 12293)]
  ++ [(12330, 12333), (12337, 12341), (12347, 12347), (12441, 12446), (12540, 12542), (40981, 40981),
    (42232, 42237), (42508, 42508), (42607, 42610), (42612, 42621), (42623, 42623), (42652, 42655),
    (42736, 42737), (42752, 42785), (42864, 42864), (42888, 42890), (42994, 42996), (43000, 43001),
    (43010, 43010), (43014, 43014), (43019, 43019), (43045, 43046), (43052, 43052), (43204, 43205),
    (43232, 43249), (43263, 43263), (43302, 43309), (43335, 43345), (43392, 43394), (43443, 43443),
    (43446, 43449), (43452, 43453), (43471, 43471), (43493, 43494), (43561, 43566), (43569, 43570),
    (43573, 43574), (43587, 43587), (43596, 43596), (43632, 43632), (43644, 43644), (43696, 43696),
    (43698, 43700), (43703, 43704), (43710, 43711), (43713, 43713), (43741, 43741), (43756, 43757),
    (43763, 43764), (43766, 43766), (43867, 43871), (43881, 43883), (44005, 44005), (44008, 44008),
    (44013, 44013), (64286, 64286), (64434, 64450), (65024, 65039), (65043, 65043), (65056, 65071),
    (65106, 65106), (65109, 65109), (65279, 65279), (65287, 65287), (65294, 65294), (65306, 65306),
    (65342, 65342), (65344, 65344), (65392, 65392), (65438, 65439), (65507, 65507), (65529, 65531)]
  ++ [(66045, 66045), (66272, 66272), (66422, 66426), (67456, 67461), (67463, 67504), (67506, 67514),
    (68097, 68099), (68101, 68102), (68108, 68111), (68152, 68154), (68159, 68159), (68325, 68326),
    (68900, 68903), (69291, 69292), (69446, 69456), (69506, 69509), (69633, 69633), (69688, 69702),
    (69744, 69744), (69747, 69748), (69759, 69761), (69811, 69814), (69817, 69818), (69821, 69821),
    (69826, 69826), (69837, 69837), (69888, 69890), (69927, 69931), (69933, 69940), (70003, 70003),
    (70016, 70017), (70070, 70078), (70089, 70092), (70095, 70095), (70191, 70193), (70196, 70196),
    (70198, 70199), (70206, 70206), (70367, 70367), (70371, 70378), (70400, 70401), (70459, 70460),
    (70464, 70464), (70502, 70508), (70512, 70516), (70712, 70719), (70722, 70724), (70726, 70726),
    (70750, 70750), (70835, 70840), (70842, 70842), (70847, 70848), (70850, 70851), (71090, 71093),
    (71100, 71101), (71103, 71104), (71132, 71133), (71219, 71226), (71229, 71229), (71231, 71232),
    (71339, 71339), (71341, 71341), (71344, 71349), (71351, 71351), (71453, 71455), (71458, 71461),
    (71463, 71467), (71727, 71735), (71737, 71738), (71995, 71996), (71998, 71998), (72003, 72003)]
  ++ [(72148, 72151), (72154, 72155), (72160, 72160), (72193, 72202), (72243, 72248), (72251, 72254),
    (72263, 72263), (72273, 72278), (72281, 72283), (72330, 72342), (72344, 72345), (72752, 72758),
    (72760, 72765), (72767, 72767), (72850, 72871), (72874, 72880), (72882, 72883), (72885, 72886),
    (73009, 73014), (73018, 73018), (73020, 73021), (73023, 73029), (73031, 73031), (73104, 73105),
    (73109, 73109), (73111, 73111), (73459, 73460), (78896, 78904), (92912, 92916), (92976, 92982),
    (92992, 92995), (94031, 94031), (94095, 94111), (94176, 94177), (94179, 94180), (110576, 110579),
    (110581, 110587), (110589, 110590), (113821, 113822), (113824, 113827), (118528, 118573), (118576, 118598),
    (119143, 119145), (119155, 119170), (119173, 119179), (119210, 119213), (119362, 119364), (121344, 121398),
    (121403, 121452), (121461, 121461), (121476, 121476), (121499, 121503), (121505, 121519), (122880, 122886),
    (122888, 122904), (122907, 122913), (122915, 122916), (122918, 122922), (123184, 123197), (123566, 123566),
    (123628, 123631), (125136, 125142), (125252, 125259), (127995, 127999), (917505, 917505), (917536, 917631),
    (917760, 917999)]

/-- The code points with the property Cased that are not Case_Ignorable, as
ranges `(first, last)`. -/
def casedRanges : List (Nat × Nat) :=
  [(65, 90), (97, 122), (170, 170), (181, 181), (186, 186), (192, 214),
    (216, 246), (248, 442), (444, 447), (452, 659), (661, 687), (880, 883),
    (886, 887), (891, 893), (895, 895), (902, 902), (904, 906), (908, 908),
    (910, 929), (931, 1013), (1015, 1153), (1162, 1327), (1329, 1366), (1376, 1416),
    (4256, 4293), (4295, 4295), (4301, 4301), (4304, 4346), (4349, 4351), (5024, 5109),
    (5112, 5117), (7296, 7304), (7312, 7354), (7357, 7359), (7424, 7467), (7531, 7543),
    (7545, 7578), (7680, 7957), (7960, 7965), (7968, 8005), (8008, 8013), (8016, 8023),
    (8025, 8025), (8027, 8027), (8029, 8029), (8031, 8061), (8064, 8116), (8118, 8124),
    (8126, 8126), (8130, 8132), (8134, 8140), (8144, 8147), (8150, 8155), (8160, 8172),
    (8178, 8180), (8182, 8188), (8450, 8450), (8455, 8455), (8458, 8467), (8469, 8469),
    (8473, 8477), (8484, 8484), (8486, 8486), (8488, 8488), (8490, 8493), (8495, 8500),
    (8505, 8505), (8508, 8511), (8517, 8521), (8526, 8526), (8544, 8575), (8579, 8580)]
  ++ [(9398, 9449), (11264, 11387), (11390, 11492), (11499, 11502), (11506, 11507), (11520, 11557),
    (11559, 11559), (11565, 11565), (42560, 42605), (42624, 42651), (42786, 42863), (42865, 42887),
    (42891, 42894), (42896, 42954), (42960, 42961), (42963, 42963), (42965, 42969), (42997, 42998),
    (43002, 43002), (43824, 43866), (43872, 43880), (43888, 43967), (64256, 64262), (64275, 64279),
    (65313, 65338), (65345, 65370), (66560, 66639), (66736, 66771), (66776, 66811), (66928, 66938),
    (66940, 66954), (66956, 66962), (66964, 66965), (66967, 66977), (66979, 66993), (66995, 67001),
    (67003, 67004), (68736, 68786), (68800, 68850), (71840, 71903), (93760, 93823), (119808, 119892),
    (119894, 119964), (119966, 119967), (119970, 119970), (119973, 119974), (119977, 119980), (119982, 119993),
    (119995, 119995), (119997, 120003), (120005, 120069), (120071, 120074), (120077, 120084), (120086, 120092),
    (120094, 120121), (120123, 120126), (120128, 120132), (120134, 120134), (120138, 120144), (120146, 120485),
    (120488, 120512), (120514, 120538), (120540, 120570), (120572, 120596), (120598, 120628), (120630, 120654),
    (120656, 120686), (120688, 120712), (120714, 120744), (120746, 120770), (120772, 120779), (122624, 122633)]
  ++ [(122635, 122654), (125184, 125251), (127280, 127305), (127312, 127337), (127344, 127369)]

/-- The lowercase form of a code point under the simple mapping: ASCII capitals
by `Char.toLower`, other code points by the runs of `lowercaseRuns`. -/
def simpleLowercase (c : Char) : Char :=
  if c.toNat < 128 then c.toLower
  else
    match lowercaseRuns.find? fun run =>
      decide (run.1 ≤ c.toNat) && decide (c.toNat ≤ run.2.1) &&
        (c.toNat - run.1) % run.2.2.1 == 0 with
    | some run => Char.ofNat (run.2.2.2 + (c.toNat - run.1))
    | none => c

/-- Membership of a code point in a list of ranges. -/
def inRanges (ranges : List (Nat × Nat)) (c : Char) : Bool :=
  ranges.any fun range => decide (range.1 ≤ c.toNat) && decide (c.toNat ≤ range.2)

/-- The first character that is not case-ignorable is a cased letter. -/
def casedLetterNext (text : List Char) : Bool :=
  match text.dropWhile (inRanges caseIgnorableRanges) with
  | c :: _ => inRanges casedRanges c
  | [] => false

/-- The condition Final_Sigma of the Unicode special casing: the capital sigma
is preceded by a cased letter and then case-ignorable characters only, and no
cased letter follows it after case-ignorable characters. `before` holds the
preceding characters, the nearest first. -/
def finalSigma (before after : List Char) : Bool :=
  casedLetterNext before && !casedLetterNext after

/-- The lowercase form of one character of a text. U+0130 has the two-character
form `i` U+0307, the capital sigma U+03A3 becomes the final sigma U+03C2 under
the condition Final_Sigma and U+03C3 otherwise, every other character has its
simple lowercase form. -/
def lowerAt (before : List Char) (c : Char) (after : List Char) : List Char :=
  if c.toNat = 304 then ['i', Char.ofNat 775]
  else if c.toNat = 931 then
    if finalSigma before after then [Char.ofNat 962] else [Char.ofNat 963]
  else [simpleLowercase c]

/-- The lowercase forms of the characters of `text`, which stands after the
characters `before` (the nearest first). -/
def lowerFrom (before : List Char) : List Char → List Char
  | [] => []
  | c :: after => lowerAt before c after ++ lowerFrom (c :: before) after

/-- `String.prototype.toLowerCase`: the locale-independent Unicode lowercase
conversion of the text, character by character (`A`..`Z` go to `a`..`z`, the
Kelvin sign U+212A to `k`, U+0130 to `i` U+0307, and so on). -/
def toLowerCase (s : String) : String :=
  ⟨lowerFrom [] s.data⟩

/-- Substring search on character lists. -/
def includesChars (keyword : List Char) : List Char → Bool
  | [] => keyword.isPrefixOf []
  | c :: cs => keyword.isPrefixOf (c :: cs) || includesChars keyword cs

/-- `String.prototype.includes`. -/
def includes (text keyword : String) : Bool :=
  includesChars keyword.data text.data

/-- The regular expression class `\w` (without the `u` flag): `[A-Za-z0-9_]`. -/
def isWordChar (c : Char) : Bool :=
  c.isAlphanum || c == '_'

/-- Is the character next to a position (if there is one) a word character? -/
def isWordAt : Option Char → Bool
  | none => false
  | some c => isWordChar c

/-- The assertion `\b`: exactly one of the two neighbours of the position is a
word character. -/
def atWordBoundary (before after : Option Char) : Bool :=
  isWordAt before != isWordAt after

/-- Character comparison under the `i` flag (no `u` flag). For an ASCII pattern
character this is equality up to ASCII case, which is what the ECMAScript
canonicalisation gives: a character above U+007F never canonicalises to an
ASCII one. -/
def sameCharIgnoreCase (c k : Char) : Bool :=
  c.toUpper == k.toUpper

/-- Match the literal characters of the keyword at the head of the text; the
result is the last character consumed (or `prev` when nothing was consumed)
and the rest of the text. -/
def matchLiteral : List Char → Option Char → List Char → Option (Option Char × List Char)
  | [], prev, text => some (prev, text)
  | _ :: _, _, [] => none
  | k :: ks, _, c :: cs =>
    if sameCharIgnoreCase c k then matchLiteral ks (some c) cs else none

/-- One attempt of `/\bkeyword\b/i` at a fixed start position: `prev` is the
character before the position and `text` what follows it. -/
def matchAt (keyword : List Char) (prev : Option Char) (text : List Char) : Bool :=
  atWordBoundary prev text.head? &&
    match matchLiteral keyword prev text with
    | some (last, rest) => atWordBoundary last rest.head?
    | none => false

/-- The search of `regex.test(text)` for `/\bkeyword\b/i`: try every start
position from left to right. The keyword is taken literally, which is what the
`RegExp` constructor does for keywords without regular-expression
metacharacters (letters, digits, `-`), as all keywords of the table are. -/
def regexTest (keyword : List Char) : Option Char → List Char → Bool
  | prev, [] => matchAt keyword prev []
  | prev, c :: cs => matchAt keyword prev (c :: cs) || regexTest keyword (some c) cs

/-- The local function `containsKeyword` of `checkForConflict`. -/
def containsKeyword (text keyword : String) : Bool :=
  if includes keyword " " then
    includes text keyword
  else
    regexTest keyword.data none text.data

/-! ## The conflict pattern table -/

/-- An entry of `conflictPatterns`. -/
structure Pattern where
  conflicts : List String
  safe : List String
deriving DecidableEq, Repr

/-- The own properties of the object literal `conflictPatterns`. -/
def conflictPatterns (key : String) : Option Pattern :=
  if key = "gluten-free" then
    some {
      conflicts := ["wheat bread", "white bread", "whole wheat", "flour", "wheat cereal",
        "regular pasta", "cookies", "cake", "crackers"]
      safe := ["gluten-free", "gluten free", "gf-", "rice", "corn"] }
  else if key = "dairy-free" then
    some {
      conflicts := ["milk", "cheese", "butter", "yogurt", "cream", "dairy"]
      safe := ["dairy-free", "dairy free", "non-dairy", "plant-based", "almond milk",
        "soy milk"] }
  else if key = "nut-free" then
    some {
      conflicts := ["peanut", "almond", "walnut", "cashew", "pistachio", "hazelnut", "pecan",
        "tree nut"]
      safe := ["nut-free", "nut free"] }
  else if key = "vegan" then
    some {
      conflicts := ["meat", "chicken", "beef", "pork", "fish", "dairy", "egg", "honey",
        "gelatin"]
      safe := ["vegan", "plant-based", "vegetable", "fruit"] }
  else if key = "vegetarian" then
    some {
      conflicts := ["meat", "chicken", "beef", "pork", "fish"]
      safe := ["vegetarian", "veggie", "plant-based"] }
  else if key = "kosher" then
    some {
      conflicts := ["pork", "shellfish", "non-kosher"]
      safe := ["kosher", "kosher-certified"] }
  else if key = "halal" then
    some {
      conflicts := ["pork", "alcohol", "non-halal"]
      safe := ["halal", "halal-certified"] }
  else
    none

/-- The seven keys of the table. -/
def patternKeys : List String :=
  ["gluten-free", "dairy-free", "nut-free", "vegan", "vegetarian", "kosher", "halal"]

/-- The property names every object literal inherits from `Object.prototype`.
A lookup `conflictPatterns[key]` with one of these keys does not give
`undefined`: it finds the inherited function (or, for `__proto__`, the
prototype object), a truthy value that has no `safe` or `conflicts` property. -/
def objectPrototypeKeys : List String :=
  ["constructor", "__proto__", "hasOwnProperty", "isPrototypeOf", "propertyIsEnumerable",
    "toLocaleString", "toString", "valueOf", "__defineGetter__", "__defineSetter__",
    "__lookupGetter__", "__lookupSetter__"]

/-- The three outcomes of the property read `conflictPatterns[restrictionName]`. -/
inductive PropertyLookup where
  | own (pattern : Pattern)
  | inherited
  | undefined
deriving DecidableEq, Repr

/-- The property read `conflictPatterns[restrictionName]`, prototype chain
included. -/
def lookupPattern (key : String) : PropertyLookup :=
  match conflictPatterns key with
  | some pattern => .own pattern
  | none => if key ∈ objectPrototypeKeys then .inherited else .undefined

/-! ## Data model -/

/-- A value of a field the engine does not examine. `surrogate unit` is the
string of the single UTF-16 code unit `unit` of the surrogate range, which is
half of a character above U+FFFF and no text on its own. -/
inductive FieldValue where
  | null
  | bool (b : Bool)
  | num (n : Int)
  | str (s : String)
  | surrogate (unit : Nat)
deriving DecidableEq, Repr

/-- An inventory item as the engine consumes it: `item_name` and `category`
(`none` when the property is missing or null) and the remaining properties. -/
structure Item where
  item_name : Option String
  category : Option String
  fields : List (String × FieldValue) := []
deriving DecidableEq, Repr

/-- A populated dietary restriction (`select: 'name category isAllergen ...'`). -/
structure Restriction where
  name : String
  category : String
  isAllergen : Bool
deriving DecidableEq, Repr

/-- A user preference after `populate`: `restrictionId` is the restriction
document, or `none` when it did not resolve. -/
structure UserPreference where
  restrictionId : Option Restriction
  severity : String
deriving DecidableEq, Repr

/-- An element of `conflictingRestrictions`. -/
structure ConflictingRestriction where
  name : String
  severity : String
  type : String
deriving DecidableEq, Repr

/-- The result object of `checkItemCompatibility`. -/
structure MatchResult where
  isCompatible : Bool
  confidence : ℚ
  warnings : List String
  reason : Option String
  severity : Option String
  conflictingRestrictions : List ConflictingRestriction
deriving DecidableEq

/-! ## `checkForConflict` -/

/-- Lines 257-267: `isSafe` is computed and dropped, `hasConflict` is
returned. -/
def evalPattern (pattern : Pattern) (itemName itemCategory : String) : Bool :=
  let _isSafe := pattern.safe.any fun safeKeyword =>
    containsKeyword itemName safeKeyword || containsKeyword itemCategory safeKeyword
  let hasConflict := pattern.conflicts.any fun conflictKeyword =>
    containsKeyword itemName conflictKeyword || containsKeyword itemCategory conflictKeyword
  hasConflict

/-- The expression `x?.toLowerCase() || ''`. -/
def lowerOrEmpty : Option String → String
  | none => ""
  | some s => toLowerCase s

/-- The error of `pattern.safe.some(...)` when `pattern.safe` is undefined. -/
def safeUndefinedError : JsError :=
  ⟨"TypeError", "Cannot read properties of undefined (reading 'some')"⟩

/-- The method `checkForConflict(item, restriction)`. -/
def checkForConflict (item : Item) (restriction : Restriction) : Except JsError Bool :=
  let itemName := lowerOrEmpty item.item_name
  let itemCategory := lowerOrEmpty item.category
  let restrictionName := toLowerCase restriction.name
  match lookupPattern restrictionName with
  | .undefined => .ok false
  | .inherited => .error safeUndefinedError
  | .own pattern => .ok (evalPattern pattern itemName itemCategory)

/-! ## `checkItemCompatibility` -/

/-- The initial `result` object of `checkItemCompatibility`. -/
def initialResult : MatchResult where
  isCompatible := true
  confidence := 1.0
  warnings := []
  reason := none
  severity := none
  conflictingRestrictions := []

/-- The body of the `for` loop of `checkItemCompatibility`, run over the
remaining preferences with the current `result`. An exception of
`checkForConflict` leaves the loop; the strict allergen branch returns. -/
def checkItemCompatibilityLoop (item : Item) :
    List UserPreference → MatchResult → Except JsError MatchResult
  | [], result => .ok result
  | userPref :: rest, result =>
    match userPref.restrictionId with
    | none => checkItemCompatibilityLoop item rest result
    | some restriction =>
      let userSeverity := userPref.severity
      match checkForConflict item restriction with
      | .error e => .error e
      | .ok false => checkItemCompatibilityLoop item rest result
      | .ok true =>
        if restriction.isAllergen then
          let result := { result with
            isCompatible := false
            reason := some ("Contains allergen: " ++ restriction.name)
            severity := some userSeverity
            conflictingRestrictions := result.conflictingRestrictions ++
              [{ name := restriction.name, severity := userSeverity, type := "allergen" }] }
          if userSeverity = "strict" then
            .ok result
          else
            checkItemCompatibilityLoop item rest result
        else if userSeverity = "strict" then
          checkItemCompatibilityLoop item rest { result with
            isCompatible := false
            reason := some ("Violates " ++ restriction.category ++ " restriction: " ++
              restriction.name)
            severity := some userSeverity
            conflictingRestrictions := result.conflictingRestrictions ++
              [{ name := restriction.name, severity := userSeverity,
                 type := restriction.category }] }
        else
          checkItemCompatibilityLoop item rest { result with
            warnings := result.warnings ++
              ["May not align with " ++ restriction.name ++ " preference"]
            confidence := min result.confidence 0.7 }

/-- The method `checkItemCompatibility(item, userPreferences)`. -/
def checkItemCompatibility (item : Item) (userPreferences : List UserPreference) :
    Except JsError MatchResult :=
  checkItemCompatibilityLoop item userPreferences initialResult

/-! ## The mismatch log and `matchUserDietaryNeeds` -/

/-- An entry of `mismatchLog`. `itemId` is the value of `item._id`, `none` when
the item has no such property. -/
structure MismatchLogEntry where
  timestamp : Int
  userId : String
  itemId : Option FieldValue
  itemName : Option String
  reason : Option String
  severity : Option String
  conflictingRestrictions : List ConflictingRestriction
deriving DecidableEq

/-- A property read `item[key]` among the properties the engine does not
examine. -/
def Item.field (item : Item) (key : String) : Option FieldValue :=
  (item.fields.find? fun kv => kv.1 == key).map Prod.snd

/-- The method `logMismatch(userId, item, matchResult)`; `now` is the value of
`new Date()` and the result is the new `mismatchLog`. -/
def logMismatch (now : Int) (userId : String) (item : Item) (matchResult : MatchResult)
    (mismatchLog : List MismatchLogEntry) : List MismatchLogEntry :=
  let mismatchEntry : MismatchLogEntry := {
    timestamp := now
    userId := userId
    itemId := item.field "_id"
    itemName := item.item_name
    reason := matchResult.reason
    severity := matchResult.severity
    conflictingRestrictions := matchResult.conflictingRestrictions }
  let pushed := mismatchLog ++ [mismatchEntry]
  if pushed.length > 1000 then pushed.drop (pushed.length - 1000) else pushed

/-- An element of `compatibleItems`: the item's own properties (`...item`) and
the two properties set after the spread. On the fast path the input objects are
returned as they are and the two properties are not set (`none`). -/
structure CompatibleItem where
  item : Item
  matchConfidence : Option ℚ
  warnings : Option (List String)
deriving DecidableEq

/-- An element of `incompatibleItems`: the item's own properties (`...item`)
and the three properties set after the spread. -/
structure IncompatibleItem where
  item : Item
  exclusionReason : Option String
  severity : Option String
  conflictingRestrictions : List ConflictingRestriction
deriving DecidableEq

/-- The object returned by `matchUserDietaryNeeds`. The two counters are `none`
when the returned object has no such property. -/
structure BatchResult where
  compatibleItems : List CompatibleItem
  incompatibleItems : List IncompatibleItem
  warnings : List String
  matchingTime : Int
  totalProcessed : Nat
  strictExclusions : Option Nat
  mildExclusions : Option Nat
deriving DecidableEq

/-- The state of the `for` loop of `matchUserDietaryNeeds`: the `results`
object, the service's `mismatchLog` and the number of clock readings made so
far during the call. -/
structure LoopState where
  results : BatchResult
  mismatchLog : List MismatchLogEntry
  clockReads : Nat

/-- The `for` loop over `inventoryItems` (lines 45-77). `clock k` is the value
of the `k`-th reading of the clock during the call. An exception of
`checkItemCompatibility` leaves the loop with the log as it is then. -/
def processItems (clock : Nat → Int) (userId : String) (userPreferences : List UserPreference) :
    List Item → LoopState → Except JsError BatchResult × List MismatchLogEntry × Nat
  | [], st => (.ok st.results, st.mismatchLog, st.clockReads)
  | item :: rest, st =>
    match checkItemCompatibility item userPreferences with
    | .error e => (.error e, st.mismatchLog, st.clockReads)
    | .ok matchResult =>
      let results := st.results
      let st : LoopState :=
        if matchResult.isCompatible then
          { st with results := { results with
              compatibleItems := results.compatibleItems ++
                [{ item := item, matchConfidence := some matchResult.confidence,
                   warnings := some matchResult.warnings }] } }
        else
          let results : BatchResult := { results with
            incompatibleItems := results.incompatibleItems ++
              [{ item := item, exclusionReason := matchResult.reason,
                 severity := matchResult.severity,
                 conflictingRestrictions := matchResult.conflictingRestrictions }] }
          let results : BatchResult :=
            if matchResult.severity = some "strict" then
              { results with strictExclusions := results.strictExclusions.map (· + 1) }
            else
              { results with mildExclusions := results.mildExclusions.map (· + 1) }
          { results := results
            mismatchLog := logMismatch (clock st.clockReads) userId item matchResult st.mismatchLog
            clockReads := st.clockReads + 1 }
      let st : LoopState :=
        if matchResult.warnings.length > 0 then
          { st with results := { st.results with
              warnings := st.results.warnings ++ matchResult.warnings } }
        else st
      processItems clock userId userPreferences rest st

/-- The error thrown by the `catch` block of `matchUserDietaryNeeds`. -/
def processingError : JsError :=
  ⟨"Error", "Failed to process dietary matching"⟩

/-- The method `matchUserDietaryNeeds(userId, inventoryItems)` for a list of
items. `fetch` is the outcome of `getUserDietaryPreferences(userId)` (an error,
nothing, or the populated preferences), `clock` gives the successive readings
of the clock and `mismatchLog` is the log before the call; the result is the
outcome of the call and the log after it. -/
def matchUserDietaryNeeds (fetch : Except JsError (Option (List UserPreference)))
    (clock : Nat → Int) (userId : String) (inventoryItems : List Item)
    (mismatchLog : List MismatchLogEntry) :
    Except JsError BatchResult × List MismatchLogEntry :=
  let startTime := clock 0
  match fetch with
  | .error _ => (.error processingError, mismatchLog)
  | .ok none =>
    (.ok {
      compatibleItems := inventoryItems.map fun item => ⟨item, none, none⟩
      incompatibleItems := []
      warnings := []
      matchingTime := clock 1 - startTime
      totalProcessed := inventoryItems.length
      strictExclusions := none
      mildExclusions := none }, mismatchLog)
  | .ok (some userPreferences) =>
    if userPreferences.length = 0 then
      (.ok {
        compatibleItems := inventoryItems.map fun item => ⟨item, none, none⟩
        incompatibleItems := []
        warnings := []
        matchingTime := clock 1 - startTime
        totalProcessed := inventoryItems.length
        strictExclusions := none
        mildExclusions := none }, mismatchLog)
    else
      let results : BatchResult := {
        compatibleItems := []
        incompatibleItems := []
        warnings := []
        matchingTime := 0
        totalProcessed := inventoryItems.length
        strictExclusions := some 0
        mildExclusions := some 0 }
      let looped := processItems clock userId userPreferences inventoryItems
        ⟨results, mismatchLog, 1⟩
      match looped.1 with
      | .error _ => (.error processingError, looped.2.1)
      | .ok results =>
        (.ok { results with matchingTime := clock looped.2.2 - startTime }, looped.2.1)

/-! ## Concrete data of the scenarios -/

/-- The restriction `Nut-Free` of the catalogue (an allergen). -/
def nutFree : Restriction := ⟨"Nut-Free", "allergen", true⟩

/-- The restriction `Vegetarian` (lifestyle, not an allergen). -/
def vegetarian : Restriction := ⟨"Vegetarian", "lifestyle", false⟩

/-- The restriction `Vegan` (lifestyle, not an allergen). -/
def vegan : Restriction := ⟨"Vegan", "lifestyle", false⟩

/-- The restriction `Kosher` (religious, not an allergen). -/
def kosher : Restriction := ⟨"Kosher", "religious", false⟩

/-- A restriction an administrator named `constructor`. -/
def constructorRestriction : Restriction := ⟨"constructor", "lifestyle", false⟩

/-- The item `Peanut Butter` of scenario A. -/
def peanutButter : Item := { item_name := some "Peanut Butter", category := some "Spreads" }

/-- The item `White Rice` of scenario A. -/
def whiteRice : Item := { item_name := some "White Rice", category := some "Grains" }

/-- The item `Ground Beef` of scenario B. -/
def groundBeef : Item := { item_name := some "Ground Beef", category := some "Proteins" }

/-- The item `Pork Chops` of scenario C. -/
def porkChops : Item := { item_name := some "Pork Chops", category := some "Meat" }

/-- The item `Mixed Nuts` in the category `Snacks`. -/
def mixedNuts : Item := { item_name := some "Mixed Nuts", category := some "Snacks" }

/-- The item `Nutmeg Cookies` (no category given). -/
def nutmegCookies : Item := { item_name := some "Nutmeg Cookies", category := none }

/-! ## The keyword matching rule in the words of the specification -/

/-- Every keyword of the pattern table: the `conflicts` and `safe` lists of the
seven entries. -/
def tableKeywords : List String :=
  (patternKeys.map fun key =>
    match conflictPatterns key with
    | some pattern => pattern.conflicts ++ pattern.safe
    | none => []).flatten

/-- The keyword stands at the head of the text, the character before it is not
a letter, digit or underscore and neither is the character after it. -/
def wholeWordAt (keyword : List Char) (prev : Option Char) (text : List Char) : Bool :=
  keyword.isPrefixOf text && !isWordAt prev && !isWordAt (text.drop keyword.length).head?

/-- The keyword occurs somewhere in the text, not directly preceded and not
directly followed by a letter, digit or underscore; `prev` is the character
before the text. -/
def occursAsWholeWord (keyword : List Char) : Option Char → List Char → Bool
  | prev, [] => wholeWordAt keyword prev []
  | prev, c :: cs => wholeWordAt keyword prev (c :: cs) || occursAsWholeWord keyword (some c) cs

/-- The matching rule as the specification words it: a keyword with a space is
searched as a substring, a single-token keyword as a whole word. -/
def keywordRule (text keyword : String) : Bool :=
  if ' ' ∈ keyword.data then
    decide (keyword.data <:+: text.data)
  else
    occursAsWholeWord keyword.data none text.data

/-- The keyword stands at the head of the text, the character before it is not
a letter, digit or underscore and the character after it is one. -/
def beforeWordAt (keyword : List Char) (prev : Option Char) (text : List Char) : Bool :=
  keyword.isPrefixOf text && !isWordAt prev && isWordAt (text.drop keyword.length).head?

/-- The keyword occurs somewhere in the text, not directly preceded by a
letter, digit or underscore and directly followed by one. -/
def occursBeforeWord (keyword : List Char) : Option Char → List Char → Bool
  | prev, [] => beforeWordAt keyword prev []
  | prev, c :: cs => beforeWordAt keyword prev (c :: cs) || occursBeforeWord keyword (some c) cs

/-- The last character of `prev :: text`, as the matcher tracks it. -/
def lastOr : Option Char → List Char → Option Char
  | prev, [] => prev
  | _, c :: cs => lastOr (some c) cs

/-- A keyword that is not empty, has no ASCII capital and begins and ends with
a letter, digit or underscore. -/
def wordDelimited (keyword : List Char) : Bool :=
  !keyword.isEmpty && isWordAt keyword.head? && isWordAt (lastOr none keyword) &&
    keyword.all fun c => !c.isUpper

/-! ## The audit log: repeated logging and `getMismatchLogs` -/

/-- The expression `array.slice(-n)`: the last `n` elements, all of them when
the array is shorter. -/
def keepLast (n : Nat) (l : List α) : List α :=
  l.drop (l.length - n)

/-- The arguments of one call of `logMismatch` and the clock at that call. -/
structure LogCall where
  now : Int
  userId : String
  item : Item
  matchResult : MatchResult

/-- The object `mismatchEntry` that the call builds. -/
def LogCall.entry (c : LogCall) : MismatchLogEntry where
  timestamp := c.now
  userId := c.userId
  itemId := c.item.field "_id"
  itemName := c.item.item_name
  reason := c.matchResult.reason
  severity := c.matchResult.severity
  conflictingRestrictions := c.matchResult.conflictingRestrictions

/-- A sequence of calls of `logMismatch`, in order, from the log `mismatchLog`. -/
def logMismatchAll : List LogCall → List MismatchLogEntry → List MismatchLogEntry
  | [], mismatchLog => mismatchLog
  | c :: cs, mismatchLog =>
    logMismatchAll cs (logMismatch c.now c.userId c.item c.matchResult mismatchLog)

/-- The argument `filters` of `getMismatchLogs`: each property is `none` when it
is missing. The two dates are `Date` objects, given by their time value. -/
structure Filters where
  userId : Option String := none
  severity : Option String := none
  startDate : Option Int := none
  endDate : Option Int := none
deriving DecidableEq

/-- The test `if (filters.userId)` on a string property: a missing property
and the empty string are falsy. -/
def truthyString : Option String → Bool
  | none => false
  | some s => s != ""

/-- The order of `logs.sort((a, b) => b.timestamp - a.timestamp)`: `a` may stand
before `b` when `b` is not newer than `a`. -/
def newestFirst (a b : MismatchLogEntry) : Prop :=
  b.timestamp ≤ a.timestamp

instance : DecidableRel newestFirst :=
  fun a b => inferInstanceAs (Decidable (b.timestamp ≤ a.timestamp))

/-- The method `getMismatchLogs(filters)` on the log `mismatchLog`.
`Array.prototype.sort` is stable, so its result is the stable sort for the
comparator, which insertion from the right computes. -/
def getMismatchLogs (filters : Filters) (mismatchLog : List MismatchLogEntry) :
    List MismatchLogEntry :=
  let logs : List MismatchLogEntry := mismatchLog
  let logs : List MismatchLogEntry :=
    if truthyString filters.userId then
      logs.filter fun log => some log.userId == filters.userId
    else logs
  let logs : List MismatchLogEntry :=
    if truthyString filters.severity then
      logs.filter fun log => log.severity == filters.severity
    else logs
  let logs : List MismatchLogEntry :=
    match filters.startDate with
    | some startDate => logs.filter fun log => decide (log.timestamp ≥ startDate)
    | none => logs
  let logs : List MismatchLogEntry :=
    match filters.endDate with
    | some endDate => logs.filter fun log => decide (log.timestamp ≤ endDate)
    | none => logs
  logs.insertionSort newestFirst

/-- The filters in the words of the specification, read literally: an entry
satisfies every filter whose property is given, whatever its value. -/
def Filters.satisfiedAsGiven (filters : Filters) (entry : MismatchLogEntry) : Bool :=
  (match filters.userId with
    | some userId => entry.userId == userId
    | none => true) &&
  (match filters.severity with
    | some severity => entry.severity == some severity
    | none => true) &&
  (match filters.startDate with
    | some startDate => decide (entry.timestamp ≥ startDate)
    | none => true) &&
  (match filters.endDate with
    | some endDate => decide (entry.timestamp ≤ endDate)
    | none => true)

/-- The filters in the words of the specification, with an empty string for
`userId` or `severity` standing for no filter: an entry satisfies every filter
that is given with a value other than the empty string. -/
def Filters.satisfiedBy (filters : Filters) (entry : MismatchLogEntry) : Bool :=
  (match filters.userId with
    | some userId => userId == "" || entry.userId == userId
    | none => true) &&
  (match filters.severity with
    | some severity => severity == "" || entry.severity == some severity
    | none => true) &&
  (match filters.startDate with
    | some startDate => decide (entry.timestamp ≥ startDate)
    | none => true) &&
  (match filters.endDate with
    | some endDate => decide (entry.timestamp ≤ endDate)
    | none => true)

/-- A log entry for the item Peanut Butter, logged at the time `timestamp` for
the user `userId` with the severity `severity`. -/
def loggedAt (timestamp : Int) (userId severity : String) : MismatchLogEntry where
  timestamp := timestamp
  userId := userId
  itemId := none
  itemName := some "Peanut Butter"
  reason := some "Contains allergen: Nut-Free"
  severity := some severity
  conflictingRestrictions := [⟨"Nut-Free", severity, "allergen"⟩]

/-! ## The loop body of `matchUserDietaryNeeds` and the entries it logs -/

/-- The body of the `for` loop of `matchUserDietaryNeeds` (lines 48-76) for one
item whose `matchResult` is known. -/
def loopStep (clock : Nat → Int) (userId : String) (item : Item) (matchResult : MatchResult)
    (st : LoopState) : LoopState :=
  let results := st.results
  let st : LoopState :=
    if matchResult.isCompatible then
      { st with results := { results with
          compatibleItems := results.compatibleItems ++
            [{ item := item, matchConfidence := some matchResult.confidence,
               warnings := some matchResult.warnings }] } }
    else
      let results : BatchResult := { results with
        incompatibleItems := results.incompatibleItems ++
          [{ item := item, exclusionReason := matchResult.reason,
             severity := matchResult.severity,
             conflictingRestrictions := matchResult.conflictingRestrictions }] }
      let results : BatchResult :=
        if matchResult.severity = some "strict" then
          { results with strictExclusions := results.strictExclusions.map (· + 1) }
        else
          { results with mildExclusions := results.mildExclusions.map (· + 1) }
      { results := results
        mismatchLog := logMismatch (clock st.clockReads) userId item matchResult st.mismatchLog
        clockReads := st.clockReads + 1 }
  if matchResult.warnings.length > 0 then
    { st with results := { st.results with
        warnings := st.results.warnings ++ matchResult.warnings } }
  else st

/-- The log entry that belongs to an element of `incompatibleItems`, logged at
the time `now` for the caller `userId`. -/
def excludedEntry (now : Int) (userId : String) (excluded : IncompatibleItem) :
    MismatchLogEntry where
  timestamp := now
  userId := userId
  itemId := excluded.item.field "_id"
  itemName := excluded.item.item_name
  reason := excluded.exclusionReason
  severity := excluded.severity
  conflictingRestrictions := excluded.conflictingRestrictions

/-- One log entry per element of `incompatibleItems`, in order; the entry of
the first element carries the clock reading number `k`, the next one `k + 1`,
and so on. -/
def excludedEntries (clock : Nat → Int) (userId : String) :
    Nat → List IncompatibleItem → List MismatchLogEntry
  | _, [] => []
  | k, excluded :: rest =>
    excludedEntry (clock k) userId excluded :: excludedEntries clock userId (k + 1) rest

/-! ## `matchUserDietaryNeeds` with an argument that need not be a list -/

/-- The second argument of `matchUserDietaryNeeds` as a caller may pass it: a
missing argument, `null`, a string, a plain object (no `length`, not iterable)
or an array of items. -/
inductive ItemsArg where
  | undefined
  | null
  | str (s : String)
  | object
  | list (items : List Item)
deriving DecidableEq

/-- How a call of `matchUserDietaryNeeds` ends: it throws, it returns a result
built from a sequence of items, or (fast path, argument not an array) it returns
the object whose `compatibleItems` is the argument itself, with
`incompatibleItems` and `warnings` empty and `totalProcessed` the `length`
property of the argument (`none` for `undefined`). -/
inductive CallOutcome where
  | threw (error : JsError)
  | returned (result : BatchResult)
  | returnedArgument (compatibleItems : ItemsArg) (matchingTime : Int)
      (totalProcessed : Option Nat)
deriving DecidableEq

/-- The property `length` of a string: the number of UTF-16 code units. -/
def utf16Length (s : String) : Nat :=
  (s.data.map fun c => if c.toNat < 65536 then 1 else 2).sum

/-- An element that `for (const item of inventoryItems)` yields for a string
argument: the string of one character. It has no `item_name`, `category` or
`_id`, and its spread `{...item}` has one property per UTF-16 code unit: the
property `0` holding the character when it is at most U+FFFF, else the
properties `0` and `1` holding the high and the low surrogate. -/
def charItem (c : Char) : Item where
  item_name := none
  category := none
  fields :=
    if c.toNat < 65536 then [("0", .str (String.singleton c))]
    else
      [("0", .surrogate (55296 + (c.toNat - 65536) / 1024)),
       ("1", .surrogate (56320 + (c.toNat - 65536) % 1024))]

/-- The condition `!userPreferences || userPreferences.length === 0`. -/
def noPreferences : Option (List UserPreference) → Bool
  | none => true
  | some userPreferences => userPreferences.length == 0

/-- The method `matchUserDietaryNeeds(userId, inventoryItems)` for an arbitrary
second argument. Reading `inventoryItems.length` of `undefined` or `null`
throws a `TypeError`, `for ... of` over a plain object throws a `TypeError`,
and every exception is caught and replaced (lines 81-84). -/
def matchUserDietaryNeedsArg (fetch : Except JsError (Option (List UserPreference)))
    (clock : Nat → Int) (userId : String) (inventoryItems : ItemsArg)
    (mismatchLog : List MismatchLogEntry) : CallOutcome × List MismatchLogEntry :=
  let startTime := clock 0
  match fetch with
  | .error _ => (.threw processingError, mismatchLog)
  | .ok userPreferences =>
    match inventoryItems with
    | .undefined => (.threw processingError, mismatchLog)
    | .null => (.threw processingError, mismatchLog)
    | .object =>
      if noPreferences userPreferences then
        (.returnedArgument .object (clock 1 - startTime) none, mismatchLog)
      else
        (.threw processingError, mismatchLog)
    | .str s =>
      if noPreferences userPreferences then
        (.returnedArgument (.str s) (clock 1 - startTime) (some (utf16Length s)), mismatchLog)
      else
        let run := matchUserDietaryNeeds (.ok userPreferences) clock userId
          (s.data.map charItem) mismatchLog
        match run.1 with
        | .error e => (.threw e, run.2)
        | .ok result => (.returned { result with totalProcessed := utf16Length s }, run.2)
    | .list items =>
      let run := matchUserDietaryNeeds (.ok userPreferences) clock userId items mismatchLog
      match run.1 with
      | .error e => (.threw e, run.2)
      | .ok result => (.returned result, run.2)

/-! ## Property reads on items and on the emitted records -/

/-- A value that a property of an emitted record can hold. -/
inductive PropertyValue where
  | field (v : FieldValue)
  | text (s : String)
  | number (q : ℚ)
  | strings (l : List String)
  | nullable (s : Option String)
  | restrictions (l : List ConflictingRestriction)
deriving DecidableEq

/-- The property read `item[key]` on an input item; `none` is `undefined`. -/
def Item.get (item : Item) (key : String) : Option PropertyValue :=
  if key = "item_name" then item.item_name.map .text
  else if key = "category" then item.category.map .text
  else (item.field key).map .field

/-- The property read `record[key]` on an element of `compatibleItems`, that
is on `{ ...item, matchConfidence, warnings }`: the two properties set after
the spread win over properties of the item with the same name. -/
def CompatibleItem.get (record : CompatibleItem) (key : String) : Option PropertyValue :=
  if key = "matchConfidence" then
    match record.matchConfidence with
    | some q => some (.number q)
    | none => record.item.get key
  else if key = "warnings" then
    match record.warnings with
    | some l => some (.strings l)
    | none => record.item.get key
  else record.item.get key

/-- The property read `record[key]` on an element of `incompatibleItems`, that
is on `{ ...item, exclusionReason, severity, conflictingRestrictions }`. -/
def IncompatibleItem.get (record : IncompatibleItem) (key : String) : Option PropertyValue :=
  if key = "exclusionReason" then some (.nullable record.exclusionReason)
  else if key = "severity" then some (.nullable record.severity)
  else if key = "conflictingRestrictions" then
    some (.restrictions record.conflictingRestrictions)
  else record.item.get key

/-- An item whose only identifier is the property `id`, as in the documented
input shape `{id, item_name, category}`. -/
def peanutButterWithId : Item where
  item_name := some "Peanut Butter"
  category := some "Spreads"
  fields := [("id", .str "42")]

/-- An item that carries a property named `warnings` of its own. -/
def groundBeefWithWarnings : Item where
  item_name := some "Ground Beef"
  category := some "Proteins"
  fields := [("quantity", .num 3), ("warnings", .str "keep frozen")]

/-! ## The evaluator without the early return, and the classification rule -/

/-- The loop of `checkItemCompatibility` with the `return` of the strict
allergen branch (lines 146-149) removed: after a conflicting strict allergen the
loop continues over the remaining preferences. The repository has no such
function; it is the evaluator the specification compares the code with, and is
the source of the loop without that one statement. -/
def loopWithoutEarlyReturn (item : Item) :
    List UserPreference → MatchResult → Except JsError MatchResult
  | [], result => .ok result
  | userPref :: rest, result =>
    match userPref.restrictionId with
    | none => loopWithoutEarlyReturn item rest result
    | some restriction =>
      let userSeverity := userPref.severity
      match checkForConflict item restriction with
      | .error e => .error e
      | .ok false => loopWithoutEarlyReturn item rest result
      | .ok true =>
        if restriction.isAllergen then
          loopWithoutEarlyReturn item rest { result with
            isCompatible := false
            reason := some ("Contains allergen: " ++ restriction.name)
            severity := some userSeverity
            conflictingRestrictions := result.conflictingRestrictions ++
              [{ name := restriction.name, severity := userSeverity, type := "allergen" }] }
        else if userSeverity = "strict" then
          loopWithoutEarlyReturn item rest { result with
            isCompatible := false
            reason := some ("Violates " ++ restriction.category ++ " restriction: " ++
              restriction.name)
            severity := some userSeverity
            conflictingRestrictions := result.conflictingRestrictions ++
              [{ name := restriction.name, severity := userSeverity,
                 type := restriction.category }] }
        else
          loopWithoutEarlyReturn item rest { result with
            warnings := result.warnings ++
              ["May not align with " ++ restriction.name ++ " preference"]
            confidence := min result.confidence 0.7 }

/-- The evaluator `checkItemCompatibility` with the early return removed. -/
def checkItemCompatibilityWithoutEarlyReturn (item : Item)
    (userPreferences : List UserPreference) : Except JsError MatchResult :=
  loopWithoutEarlyReturn item userPreferences initialResult

/-- The preference list with every preference whose restriction did not resolve
removed. -/
def resolvedOnly (userPreferences : List UserPreference) : List UserPreference :=
  userPreferences.filter fun p => p.restrictionId.isSome

/-- The preference is resolved, `checkForConflict` returns true for its
restriction, and the restriction is an allergen or the severity is `strict`. -/
def isExcluding (item : Item) (p : UserPreference) : Bool :=
  match p.restrictionId with
  | none => false
  | some restriction =>
    checkForConflict item restriction == .ok true &&
      (restriction.isAllergen || p.severity == "strict")

/-- The reason that the type of an entry of `conflictingRestrictions` would
give: "Contains allergen: <name>" for the type `allergen`, otherwise
"Violates <type> restriction: <name>". -/
def reasonByType (entry : ConflictingRestriction) : String :=
  if entry.type = "allergen" then "Contains allergen: " ++ entry.name
  else "Violates " ++ entry.type ++ " restriction: " ++ entry.name

/-- An item that conflicts with Kosher (`pork`) and with Nut-Free (`peanut`). -/
def peanutPorkSkewers : Item :=
  { item_name := some "Peanut Pork Skewers", category := some "Meat" }

/-- The item `Whole Milk`. -/
def wholeMilk : Item := { item_name := some "Whole Milk", category := some "Dairy" }

/-- A restriction created with the category `allergen` and without the flag
`isAllergen`, which defaults to false. -/
def dairyFreeUnflagged : Restriction := ⟨"Dairy-Free", "allergen", false⟩

/-- The update of `result` in the allergen branch (lines 137-144). -/
def excludeAsAllergen (result : MatchResult) (restriction : Restriction)
    (userSeverity : String) : MatchResult :=
  { result with
    isCompatible := false
    reason := some ("Contains allergen: " ++ restriction.name)
    severity := some userSeverity
    conflictingRestrictions := result.conflictingRestrictions ++
      [{ name := restriction.name, severity := userSeverity, type := "allergen" }] }

/-- The update of `result` in the strict non-allergen branch (lines 153-160). -/
def excludeAsStrict (result : MatchResult) (restriction : Restriction)
    (userSeverity : String) : MatchResult :=
  { result with
    isCompatible := false
    reason := some ("Violates " ++ restriction.category ++ " restriction: " ++
      restriction.name)
    severity := some userSeverity
    conflictingRestrictions := result.conflictingRestrictions ++
      [{ name := restriction.name, severity := userSeverity,
         type := restriction.category }] }

/-- The update of `result` in the mild non-allergen branch (lines 163-164). -/
def warnAsMild (result : MatchResult) (restriction : Restriction) : MatchResult :=
  { result with
    warnings := result.warnings ++
      ["May not align with " ++ restriction.name ++ " preference"]
    confidence := min result.confidence 0.7 }

/-- The result for Pork Chops against Vegan/mild and Vegetarian/mild: two mild
conflicts. -/
def twoMildConflictsResult : MatchResult where
  isCompatible := true
  confidence := 0.7
  warnings := ["May not align with Vegan preference",
    "May not align with Vegetarian preference"]
  reason := none
  severity := none
  conflictingRestrictions := []

/-- The result of scenario C: Pork Chops against Kosher/strict and Vegan/mild. -/
def scenarioCResult : MatchResult where
  isCompatible := false
  confidence := 0.7
  warnings := ["May not align with Vegan preference"]
  reason := some "Violates religious restriction: Kosher"
  severity := some "strict"
  conflictingRestrictions := [⟨"Kosher", "strict", "religious"⟩]

/-- The result for Peanut Pork Skewers against Kosher/strict and the allergen
Nut-Free/mild. -/
def skewersResult : MatchResult where
  isCompatible := false
  confidence := 1.0
  warnings := []
  reason := some "Contains allergen: Nut-Free"
  severity := some "mild"
  conflictingRestrictions := [⟨"Kosher", "strict", "religious"⟩, ⟨"Nut-Free", "mild", "allergen"⟩]

/-- The result for Whole Milk against the unflagged Dairy-Free/strict. -/
def wholeMilkResult : MatchResult where
  isCompatible := false
  confidence := 1.0
  warnings := []
  reason := some "Violates allergen restriction: Dairy-Free"
  severity := some "strict"
  conflictingRestrictions := [⟨"Dairy-Free", "strict", "allergen"⟩]

/-! ## The batch result in terms of the match results of the items -/

/-- The record pushed to `compatibleItems` for an item and its match result. -/
def compatibleRecord (item : Item) (matchResult : MatchResult) : CompatibleItem where
  item := item
  matchConfidence := some matchResult.confidence
  warnings := some matchResult.warnings

/-- The record pushed to `incompatibleItems` for an item and its match
result. -/
def excludedRecord (item : Item) (matchResult : MatchResult) : IncompatibleItem where
  item := item
  exclusionReason := matchResult.reason
  severity := matchResult.severity
  conflictingRestrictions := matchResult.conflictingRestrictions

/-- The loop body applied in turn to items whose match results are known. -/
def loopSteps (clock : Nat → Int) (userId : String) :
    List (Item × MatchResult) → LoopState → LoopState
  | [], st => st
  | (item, matchResult) :: rest, st =>
    loopSteps clock userId rest (loopStep clock userId item matchResult st)

/-- The result of the batch `[Pork Chops, White Rice]` for the preferences
`[Kosher (strict), Vegan (mild)]` when the `k`-th clock reading is `k`. -/
def kosherVeganBatch : BatchResult where
  compatibleItems := [compatibleRecord whiteRice initialResult]
  incompatibleItems := [excludedRecord porkChops scenarioCResult]
  warnings := ["May not align with Vegan preference"]
  matchingTime := 2
  totalProcessed := 2
  strictExclusions := some 1
  mildExclusions := some 0

/-! ## The inventory document and its stock flag (`db/models/Inventory.js`) -/

/-- The fields of an inventory document that the stock hooks read and write.
The schema makes `quantity` a non-negative integer. -/
structure Inventory where
  quantity : Nat
  minimum_stock_level : Nat
  low_stock : Bool
deriving DecidableEq

/-- The hook `inventorySchema.pre('save', ...)` (lines 143-147): `this` is the
document. -/
def Inventory.preSave (doc : Inventory) : Inventory :=
  { doc with low_stock := decide (doc.quantity ≤ doc.minimum_stock_level) }

/-- The method `updateStock(newQuantity)` (lines 180-188): the quantity and the
flag are written, then `this.save()` runs the pre-save hook. -/
def Inventory.updateStock (doc : Inventory) (newQuantity : Nat) : Inventory :=
  Inventory.preSave { doc with
    quantity := newQuantity
    low_stock := decide (newQuantity ≤ doc.minimum_stock_level) }

/-- The update object of an `updateOne` / `findOneAndUpdate`: a property that is
not set is `none`. -/
structure InventoryUpdate where
  quantity : Option Nat := none
  minimum_stock_level : Option Nat := none
  low_stock : Option Bool := none
deriving DecidableEq

/-- The JavaScript `a || b` on values that are a number or undefined: `a` when
it is truthy, which for a number means other than 0, else `b`. -/
def jsOr (a b : Option Nat) : Option Nat :=
  match a with
  | some (n + 1) => some (n + 1)
  | _ => b

/-- The JavaScript `a <= b` on values that are a number or undefined: an
undefined operand converts to NaN and the comparison is false. -/
def jsLessEq (a b : Option Nat) : Bool :=
  match a, b with
  | some x, some y => decide (x ≤ y)
  | _, _ => false

/-- The hook `inventorySchema.pre(['updateOne', 'findOneAndUpdate'], ...)`
(lines 150-158) on the update object. `thisQuantity` and `thisMinimum` are the
values of `this.quantity` and `this.minimum_stock_level`; in query middleware
`this` is the query (the hook calls `this.getUpdate()`), which has neither
property, so both are `none` there. -/
def Inventory.preUpdate (thisQuantity thisMinimum : Option Nat) (update : InventoryUpdate) :
    InventoryUpdate :=
  if update.quantity ≠ none ∨ update.minimum_stock_level ≠ none then
    let quantity := jsOr update.quantity thisQuantity
    let minLevel := jsOr (jsOr update.minimum_stock_level thisMinimum) (some 10)
    { update with low_stock := some (jsLessEq quantity minLevel) }
  else update

/-- The stored document after the update object is applied: every property
that is set replaces the stored one. -/
def Inventory.apply (doc : Inventory) (update : InventoryUpdate) : Inventory where
  quantity := update.quantity.getD doc.quantity
  minimum_stock_level := update.minimum_stock_level.getD doc.minimum_stock_level
  low_stock := update.low_stock.getD doc.low_stock

/-- The operation `findOneAndUpdate(filter, update)` on the matched document:
the pre-update hook runs on the update object, then the update is applied. -/
def Inventory.findOneAndUpdate (thisQuantity thisMinimum : Option Nat) (doc : Inventory)
    (update : InventoryUpdate) : Inventory :=
  doc.apply (Inventory.preUpdate thisQuantity thisMinimum update)

/-- The invariant of the stock flag. -/
def Inventory.flagAgrees (doc : Inventory) : Prop :=
  doc.low_stock = decide (doc.quantity ≤ doc.minimum_stock_level)

instance (doc : Inventory) : Decidable doc.flagAgrees :=
  inferInstanceAs (Decidable (_ = _))

/-! ## The stored preferences and their replacement
(`controllers/dietaryPreferences.controller.js`, `UserDietaryPreference.model.js`) -/

/-- A stored document of the collection `UserDietaryPreference`. Identifiers are
strings; the timestamps are left out. -/
structure PreferenceDoc where
  userId : String
  restrictionId : String
  severity : String
  notes : String
  isActive : Bool
deriving DecidableEq

/-- An element of `req.body.preferences`: a property that is not set is
`none`. -/
structure SubmittedPreference where
  restrictionId : Option String := none
  severity : Option String := none
  notes : Option String := none
deriving DecidableEq

/-- The ways in which `insertMany` rejects. -/
inductive StoreError where
  | validationError
  | duplicateKey
deriving DecidableEq

/-- The response of `updateUserPreferences`: 200 with the active preferences
of the user, 400 when `preferences` is not an array, 500 from the `catch`. -/
inductive UpdateResponse where
  | success (data : List PreferenceDoc)
  | badRequest
  | serverError
deriving DecidableEq

/-- The call `updateMany({ userId }, { isActive: false })` (line 53): every
document of the user is kept and deactivated. -/
def deactivateAll (userId : String) (store : List PreferenceDoc) : List PreferenceDoc :=
  store.map fun doc => if doc.userId = userId then { doc with isActive := false } else doc

/-- The array `newPreferences` built by the loop of lines 56-70: an element
with a falsy `restrictionId` or `severity` is skipped, `notes` is
`pref.notes || ''`. -/
def newPreferences (userId : String) : List SubmittedPreference → List PreferenceDoc
  | [] => []
  | pref :: rest =>
    if !truthyString pref.restrictionId || !truthyString pref.severity then
      newPreferences userId rest
    else
      { userId := userId
        restrictionId := pref.restrictionId.getD ""
        severity := pref.severity.getD ""
        notes := if truthyString pref.notes then pref.notes.getD "" else ""
        isActive := true } :: newPreferences userId rest

/-- The schema validation of a document: `severity` is one of the enum values
and `notes` has at most 500 code units. -/
def validates (doc : PreferenceDoc) : Bool :=
  (doc.severity = "mild" ∨ doc.severity = "strict") ∧ utf16Length doc.notes ≤ 500

/-- The unique index `{ userId: 1, restrictionId: 1 }` (line 39) rejects a
document when a stored document, active or not, has the same pair. -/
def violatesUniqueIndex (store : List PreferenceDoc) (doc : PreferenceDoc) : Bool :=
  store.any fun stored => stored.userId = doc.userId ∧ stored.restrictionId = doc.restrictionId

/-- The ordered insertion of validated documents: they are inserted one after
the other and the first one that the unique index rejects ends the insertion. -/
def insertOrdered : List PreferenceDoc → List PreferenceDoc →
    Option StoreError × List PreferenceDoc
  | [], store => (none, store)
  | doc :: rest, store =>
    if violatesUniqueIndex store doc then (some StoreError.duplicateKey, store)
    else insertOrdered rest (store ++ [doc])

/-- The call `insertMany(docs)`: every document is validated before any is sent
to the store. -/
def insertMany (docs store : List PreferenceDoc) : Option StoreError × List PreferenceDoc :=
  if docs.all validates then insertOrdered docs store
  else (some StoreError.validationError, store)

/-- The query `find({ userId, isActive: true })` (lines 83-86). -/
def findActive (userId : String) (store : List PreferenceDoc) : List PreferenceDoc :=
  store.filter fun doc => doc.userId = userId ∧ doc.isActive

/-- The handler `updateUserPreferences` (lines 39-100) on the collection:
`preferences` is `none` when the body has no array under that name. The
result is the response and the collection after the request. The update of the
user's timestamp does not touch the collection. -/
def updateUserPreferences (userId : String) (preferences : Option (List SubmittedPreference))
    (store : List PreferenceDoc) : UpdateResponse × List PreferenceDoc :=
  match preferences with
  | none => (UpdateResponse.badRequest, store)
  | some preferences =>
    let store := deactivateAll userId store
    let docs := newPreferences userId preferences
    let inserted : Option StoreError × List PreferenceDoc :=
      if docs.length > 0 then insertMany docs store else (none, store)
    match inserted.1 with
    | some _ => (UpdateResponse.serverError, inserted.2)
    | none => (UpdateResponse.success (findActive userId inserted.2), inserted.2)

/-- The user's set of active `(restrictionId, severity, notes)` preferences in
the collection. -/
def activePreferences (userId : String) (store : List PreferenceDoc) :
    List (String × String × String) :=
  (findActive userId store).map fun doc => (doc.restrictionId, doc.severity, doc.notes)

/-- The `(restrictionId, severity, notes)` that a submitted preference asks
for, with absent notes read as the empty string. -/
def SubmittedPreference.asked (pref : SubmittedPreference) : String × String × String :=
  (pref.restrictionId.getD "", pref.severity.getD "",
    if truthyString pref.notes then pref.notes.getD "" else "")

/-- The result of the evaluator without the early return for Peanut Pork
Skewers against Nut-Free/strict and Kosher/strict: the loop goes on after the
strict allergen and the Kosher conflict is recorded last. -/
def skewersFullResult : MatchResult where
  isCompatible := false
  confidence := 1.0
  warnings := []
  reason := some "Violates religious restriction: Kosher"
  severity := some "strict"
  conflictingRestrictions := [⟨"Nut-Free", "strict", "allergen"⟩,
    ⟨"Kosher", "strict", "religious"⟩]

/-! ## Lemmas on the preference loop -/

/-- Preferences that are unresolved or do not conflict leave the result as it
is. -/
theorem loop_skip_nonconflicting (item : Item) (l rest : List UserPreference)
    (result : MatchResult)
    (h : ∀ q ∈ l, ∀ r, q.restrictionId = some r → checkForConflict item r = .ok false) :
    checkItemCompatibilityLoop item (l ++ rest) result =
      checkItemCompatibilityLoop item rest result := by
  induction l with
  | nil => rfl
  | cons q l ih =>
    have hq := h q (List.mem_cons_self q l)
    have hl : ∀ q' ∈ l, ∀ r, q'.restrictionId = some r → checkForConflict item r = .ok false :=
      fun q' hq' => h q' (List.mem_cons_of_mem q hq')
    rw [List.cons_append, checkItemCompatibilityLoop]
    cases hr : q.restrictionId with
    | none => simpa using ih hl
    | some r => simpa [hq r hr] using ih hl

/-- One step of the loop on a conflicting, non-allergen, mild preference. -/
theorem loop_mild_step (item : Item) (p : UserPreference) (r : Restriction)
    (rest : List UserPreference) (result : MatchResult)
    (hr : p.restrictionId = some r) (hc : checkForConflict item r = .ok true)
    (ha : r.isAllergen = false) (hs : p.severity ≠ "strict") :
    checkItemCompatibilityLoop item (p :: rest) result =
      checkItemCompatibilityLoop item rest { result with
        warnings := result.warnings ++ ["May not align with " ++ r.name ++ " preference"]
        confidence := min result.confidence 0.7 } := by
  rw [checkItemCompatibilityLoop]
  simp [hr, hc, ha, hs]

/-- The loop terminates with a result when no lookup of the preferences fails. -/
theorem loop_ok_of_lookups_ok (item : Item) (l : List UserPreference) (result : MatchResult)
    (hok : ∀ q ∈ l, ∀ r, q.restrictionId = some r → ∃ b, checkForConflict item r = .ok b) :
    ∃ final, checkItemCompatibilityLoop item l result = .ok final := by
  induction l generalizing result with
  | nil => exact ⟨result, rfl⟩
  | cons q l ih =>
    have hl : ∀ q' ∈ l, ∀ r, q'.restrictionId = some r →
        ∃ b, checkForConflict item r = .ok b :=
      fun q' hq' => hok q' (List.mem_cons_of_mem q hq')
    rw [checkItemCompatibilityLoop]
    cases hr : q.restrictionId with
    | none => simpa using ih result hl
    | some r =>
      obtain ⟨b, hb⟩ := hok q (List.mem_cons_self q l) r hr
      cases b with
      | false => simpa [hb] using ih result hl
      | true =>
        simp only [hb]
        split
        · split
          · exact ⟨_, rfl⟩
          · exact ih _ hl
        · split
          · exact ih _ hl
          · exact ih _ hl

/-- No step of the loop sets `isCompatible` back to true. -/
theorem loop_stays_incompatible (item : Item) (l : List UserPreference)
    (result final : MatchResult) (hres : result.isCompatible = false)
    (hfin : checkItemCompatibilityLoop item l result = .ok final) :
    final.isCompatible = false := by
  induction l generalizing result with
  | nil =>
    rw [checkItemCompatibilityLoop] at hfin
    cases hfin
    exact hres
  | cons q l ih =>
    rw [checkItemCompatibilityLoop] at hfin
    cases hr : q.restrictionId with
    | none =>
      rw [hr] at hfin
      exact ih result hres hfin
    | some r =>
      rw [hr] at hfin
      cases hc : checkForConflict item r with
      | error e => simp [hc] at hfin
      | ok b =>
        cases b with
        | false =>
          simp only [hc] at hfin
          exact ih result hres hfin
        | true =>
          simp only [hc] at hfin
          split at hfin
          · split at hfin
            · cases hfin
              rfl
            · exact ih _ rfl hfin
          · split at hfin
            · exact ih _ rfl hfin
            · exact ih _ (by simpa using hres) hfin

/-- Exclusion when every lookup succeeds: if no lookup of the preferences fails
and some resolved preference conflicts with the item and is on an allergen or
is strict, the loop ends with an incompatible result. -/
theorem loop_incompatible_of_excluding (item : Item) (l : List UserPreference)
    (result : MatchResult)
    (hok : ∀ q ∈ l, ∀ r, q.restrictionId = some r → ∃ b, checkForConflict item r = .ok b)
    (hex : ∃ p ∈ l, ∃ r, p.restrictionId = some r ∧ checkForConflict item r = .ok true ∧
      (r.isAllergen = true ∨ p.severity = "strict")) :
    ∃ final, checkItemCompatibilityLoop item l result = .ok final ∧
      final.isCompatible = false := by
  induction l generalizing result with
  | nil =>
    obtain ⟨p, hp, _⟩ := hex
    cases hp
  | cons q l ih =>
    have hl : ∀ q' ∈ l, ∀ r, q'.restrictionId = some r →
        ∃ b, checkForConflict item r = .ok b :=
      fun q' hq' => hok q' (List.mem_cons_of_mem q hq')
    have later : ∀ res : MatchResult, res.isCompatible = false →
        ∃ final, checkItemCompatibilityLoop item l res = .ok final ∧
          final.isCompatible = false := by
      intro res hres
      obtain ⟨final, hfinal⟩ := loop_ok_of_lookups_ok item l res hl
      exact ⟨final, hfinal, loop_stays_incompatible item l res final hres hfinal⟩
    have tail : (∃ p ∈ l, ∃ r, p.restrictionId = some r ∧
        checkForConflict item r = .ok true ∧
        (r.isAllergen = true ∨ p.severity = "strict")) →
        ∃ final, checkItemCompatibilityLoop item l result = .ok final ∧
          final.isCompatible = false := ih result hl
    obtain ⟨p, hp, r, hr, hc, hsev⟩ := hex
    rw [checkItemCompatibilityLoop]
    rcases List.mem_cons.mp hp with rfl | hpl
    · simp only [hr, hc]
      split
      · split
        · exact ⟨_, rfl, rfl⟩
        · exact later _ rfl
      · split
        · exact later _ rfl
        · rename_i hna hns
          rcases hsev with h | h
          · exact absurd h hna
          · exact absurd h hns
    · have htail := tail ⟨p, hpl, r, hr, hc, hsev⟩
      cases hq : q.restrictionId with
      | none => simpa using htail
      | some r' =>
        obtain ⟨b, hb⟩ := hok q (List.mem_cons_self q l) r' hq
        cases b with
        | false => simpa [hb] using htail
        | true =>
          simp only [hb]
          split
          · split
            · exact ⟨_, rfl, rfl⟩
            · exact later _ rfl
          · split
            · exact later _ rfl
            · exact ih _ hl ⟨p, hpl, r, hr, hc, hsev⟩

/-- The result of `checkItemCompatibility` on scenario C: Pork Chops against
Kosher (strict) then Vegan (mild). -/
theorem scenario_c_result :
    checkItemCompatibility porkChops [⟨some kosher, "strict"⟩, ⟨some vegan, "mild"⟩] = .ok {
      isCompatible := false
      confidence := 0.7
      warnings := ["May not align with Vegan preference"]
      reason := some "Violates religious restriction: Kosher"
      severity := some "strict"
      conflictingRestrictions := [⟨"Kosher", "strict", "religious"⟩] } := by
  have hk : checkForConflict porkChops kosher = .ok true := by decide
  have hv : checkForConflict porkChops vegan = .ok true := by decide
  have hmin : min (1.0 : ℚ) 0.7 = 0.7 := by norm_num
  simp [checkItemCompatibility, checkItemCompatibilityLoop, hk, hv, initialResult, hmin]
  simp [kosher, vegan]

/-! ## Lemmas on keyword matching -/

/-- The code point of `Char.ofNat m` below the surrogate range. -/
theorem toNat_ofNat_small (m : Nat) (h : m < 55296) : (Char.ofNat m).toNat = m := by
  rw [Char.ofNat, dif_pos (Or.inl h)]
  rfl

/-- Characters with the same code point are equal. -/
theorem char_eq_of_toNat_eq (c d : Char) (h : c.toNat = d.toNat) : c = d := by
  have := congrArg Char.ofNat h
  simpa using this

/-- The ASCII capitals by code point. -/
theorem isUpper_iff_toNat (c : Char) : c.isUpper = true ↔ 65 ≤ c.toNat ∧ c.toNat ≤ 90 := by
  simp [Char.isUpper, Char.toNat, UInt32.le_def, BitVec.le_def]
  rfl

/-- A lowercased character is no ASCII capital. -/
theorem isUpper_toLower (c : Char) : c.toLower.isUpper = false := by
  rw [Bool.eq_false_iff, Ne, isUpper_iff_toNat, Char.toLower]
  by_cases h : c.toNat ≥ 65 ∧ c.toNat ≤ 90
  · simp only [h, and_self, if_true]
    rw [toNat_ofNat_small _ (by omega)]
    omega
  · simp only [h, if_false]
    exact not_false

/-- The code point of `Char.ofNat m` is `m` or 0. -/
theorem toNat_ofNat_cases (m : Nat) : (Char.ofNat m).toNat = m ∨ (Char.ofNat m).toNat = 0 := by
  rw [Char.ofNat]
  split
  · exact Or.inl rfl
  · exact Or.inr rfl

/-- No run of the lowercase mapping has an image among the ASCII capitals. -/
theorem lowercaseRuns_image (run : Nat × Nat × Nat × Nat) (h : run ∈ lowercaseRuns) :
    91 ≤ run.2.2.2 := by
  have hall : lowercaseRuns.all (fun run => decide (91 ≤ run.2.2.2)) = true := by decide
  exact of_decide_eq_true (List.all_eq_true.mp hall run h)

/-- A simple lowercase form is no ASCII capital. -/
theorem isUpper_simpleLowercase (c : Char) : (simpleLowercase c).isUpper = false := by
  rw [simpleLowercase]
  split
  · exact isUpper_toLower c
  · rename_i hc
    rw [Bool.eq_false_iff, Ne, isUpper_iff_toNat]
    split
    · rename_i run hrun
      have hmem := List.mem_of_find?_eq_some hrun
      have himg := lowercaseRuns_image run hmem
      rcases toNat_ofNat_cases (run.2.2.2 + (c.toNat - run.1)) with h | h <;> rw [h] <;> omega
    · omega

/-- No lowercase form of a character of a text is an ASCII capital. -/
theorem lowerAt_no_capital (before : List Char) (c : Char) (after : List Char) :
    ∀ d ∈ lowerAt before c after, d.isUpper = false := by
  intro d hd
  rw [lowerAt] at hd
  split at hd
  · simp only [List.mem_cons, List.mem_singleton, List.not_mem_nil, or_false] at hd
    rcases hd with rfl | rfl <;> decide
  · split at hd
    · split at hd <;> simp only [List.mem_singleton] at hd <;> subst hd <;> decide
    · simp only [List.mem_singleton] at hd
      subst hd
      exact isUpper_simpleLowercase c

/-- No character of a lowercased text is an ASCII capital. -/
theorem lowerFrom_no_capital (before text : List Char) :
    ∀ c ∈ lowerFrom before text, c.isUpper = false := by
  induction text generalizing before with
  | nil =>
    intro c hc
    simp [lowerFrom] at hc
  | cons d rest ih =>
    intro c hc
    rw [lowerFrom, List.mem_append] at hc
    rcases hc with hc | hc
    · exact lowerAt_no_capital before d rest c hc
    · exact ih (d :: before) c hc

/-- A lowercased text has no ASCII capital. -/
theorem toLowerCase_no_capital (u : String) : ∀ c ∈ (toLowerCase u).data, c.isUpper = false := by
  intro c hc
  exact lowerFrom_no_capital [] u.data c hc

/-- Without ASCII capitals the comparison under the `i` flag is equality. -/
theorem sameCharIgnoreCase_iff (c k : Char) (hc : c.isUpper = false) (hk : k.isUpper = false) :
    sameCharIgnoreCase c k = true ↔ c = k := by
  rw [Bool.eq_false_iff, Ne, isUpper_iff_toNat] at hc hk
  rw [sameCharIgnoreCase, beq_iff_eq]
  constructor
  · intro h
    have h2 := congrArg Char.toNat h
    apply char_eq_of_toNat_eq
    simp only [Char.toUpper] at h2
    by_cases h3 : c.toNat ≥ 97 ∧ c.toNat ≤ 122 <;> by_cases h4 : k.toNat ≥ 97 ∧ k.toNat ≤ 122
    · simp only [h3, h4, and_self, if_true] at h2
      rw [toNat_ofNat_small _ (by omega), toNat_ofNat_small _ (by omega)] at h2
      omega
    · simp only [h3, h4, and_self, if_true, if_false] at h2
      rw [toNat_ofNat_small _ (by omega)] at h2
      omega
    · simp only [h3, h4, and_self, if_true, if_false] at h2
      rw [toNat_ofNat_small _ (by omega)] at h2
      omega
    · simp only [h3, h4, if_false] at h2
      exact h2
  · intro h
    rw [h]

/-- On text without ASCII capitals the literal match of the regular expression
is a prefix test. -/
theorem matchLiteral_eq (k : List Char) (prev : Option Char) (t : List Char)
    (hk : ∀ c ∈ k, c.isUpper = false) (ht : ∀ c ∈ t, c.isUpper = false) :
    matchLiteral k prev t =
      if k.isPrefixOf t then some (lastOr prev k, t.drop k.length) else none := by
  induction k generalizing prev t with
  | nil => simp [matchLiteral, lastOr]
  | cons kc ks ih =>
    cases t with
    | nil => simp [matchLiteral]
    | cons c cs =>
      have hks : ∀ c ∈ ks, c.isUpper = false := fun x hx => hk x (List.mem_cons_of_mem kc hx)
      have hcs : ∀ c ∈ cs, c.isUpper = false := fun x hx => ht x (List.mem_cons_of_mem c hx)
      have hsame := sameCharIgnoreCase_iff c kc (ht c (List.mem_cons_self c cs))
        (hk kc (List.mem_cons_self kc ks))
      rw [matchLiteral]
      by_cases hck : c = kc
      · subst hck
        rw [if_pos (hsame.mpr rfl), ih (some c) cs hks hcs]
        simp [List.isPrefixOf, lastOr]
      · have hne : sameCharIgnoreCase c kc = false := by
          rw [Bool.eq_false_iff]
          exact fun h => hck (hsame.mp h)
        have hkc : (kc == c) = false := by
          rw [beq_eq_false_iff_ne]
          exact fun h => hck h.symm
        simp [hne, List.isPrefixOf, hkc]

/-- The matcher's last character of a non-empty keyword does not depend on what
came before. -/
theorem lastOr_of_ne_nil (k : List Char) (prev : Option Char) (hk : k ≠ []) :
    lastOr prev k = lastOr none k := by
  cases k with
  | nil => exact absurd rfl hk
  | cons c cs => rfl

/-- The head of a text that starts with a non-empty keyword. -/
theorem head_of_isPrefixOf (k t : List Char) (hk : k ≠ []) (hp : k.isPrefixOf t = true) :
    t.head? = k.head? := by
  cases k with
  | nil => exact absurd rfl hk
  | cons kc ks =>
    cases t with
    | nil => simp at hp
    | cons c cs =>
      simp only [List.isPrefixOf, Bool.and_eq_true, beq_iff_eq] at hp
      simp [hp.1]

/-- One attempt of the regular expression, for a keyword delimited by word
characters on text without ASCII capitals. -/
theorem matchAt_eq_wholeWordAt (k : List Char) (prev : Option Char) (t : List Char)
    (hk : wordDelimited k = true) (ht : ∀ c ∈ t, c.isUpper = false) :
    matchAt k prev t = wholeWordAt k prev t := by
  simp only [wordDelimited, Bool.and_eq_true, Bool.not_eq_true', List.isEmpty_eq_false,
    List.all_eq_true] at hk
  obtain ⟨⟨⟨hne, hhead⟩, hlast⟩, hup⟩ := hk
  have hup' : ∀ c ∈ k, c.isUpper = false := fun c hc => by simpa using hup c hc
  rw [matchAt, wholeWordAt, matchLiteral_eq k prev t hup' ht]
  by_cases hp : k.isPrefixOf t = true
  · rw [if_pos hp, hp, head_of_isPrefixOf k t hne hp, lastOr_of_ne_nil k prev hne]
    simp [atWordBoundary, hhead, hlast]
  · simp [hp]

/-- One attempt of the regular expression, for a keyword that begins with a
word character and ends with another character. -/
theorem matchAt_eq_beforeWordAt (k : List Char) (prev : Option Char) (t : List Char)
    (hne : k ≠ []) (hhead : isWordAt k.head? = true) (hlast : isWordAt (lastOr none k) = false)
    (hup : ∀ c ∈ k, c.isUpper = false) (ht : ∀ c ∈ t, c.isUpper = false) :
    matchAt k prev t = beforeWordAt k prev t := by
  rw [matchAt, beforeWordAt, matchLiteral_eq k prev t hup ht]
  by_cases hp : k.isPrefixOf t = true
  · rw [if_pos hp, hp, head_of_isPrefixOf k t hne hp, lastOr_of_ne_nil k prev hne]
    simp [atWordBoundary, hhead, hlast]
  · simp [hp]

/-- The search of the regular expression, for a keyword delimited by word
characters on text without ASCII capitals. -/
theorem regexTest_eq_occursAsWholeWord (k : List Char) (prev : Option Char) (t : List Char)
    (hk : wordDelimited k = true) (ht : ∀ c ∈ t, c.isUpper = false) :
    regexTest k prev t = occursAsWholeWord k prev t := by
  induction t generalizing prev with
  | nil => rw [regexTest, occursAsWholeWord, matchAt_eq_wholeWordAt k prev [] hk ht]
  | cons c cs ih =>
    rw [regexTest, occursAsWholeWord, matchAt_eq_wholeWordAt k prev (c :: cs) hk ht,
      ih (some c) fun x hx => ht x (List.mem_cons_of_mem c hx)]

/-- The search of the regular expression, for a keyword that begins with a word
character and ends with another character. -/
theorem regexTest_eq_occursBeforeWord (k : List Char) (prev : Option Char) (t : List Char)
    (hne : k ≠ []) (hhead : isWordAt k.head? = true) (hlast : isWordAt (lastOr none k) = false)
    (hup : ∀ c ∈ k, c.isUpper = false) (ht : ∀ c ∈ t, c.isUpper = false) :
    regexTest k prev t = occursBeforeWord k prev t := by
  induction t generalizing prev with
  | nil =>
    rw [regexTest, occursBeforeWord, matchAt_eq_beforeWordAt k prev [] hne hhead hlast hup ht]
  | cons c cs ih =>
    rw [regexTest, occursBeforeWord,
      matchAt_eq_beforeWordAt k prev (c :: cs) hne hhead hlast hup ht,
      ih (some c) fun x hx => ht x (List.mem_cons_of_mem c hx)]

/-- The search `includes` finds exactly the contiguous sublists. -/
theorem includesChars_iff (k t : List Char) : includesChars k t = true ↔ k <:+: t := by
  induction t with
  | nil => cases k <;> simp [includesChars, List.isPrefixOf]
  | cons c cs ih =>
    rw [includesChars, Bool.or_eq_true, ih, List.infix_cons_iff]
    simp

/-- Searching for a single character is membership. -/
theorem includesChars_singleton (c : Char) (t : List Char) :
    includesChars [c] t = true ↔ c ∈ t := by
  induction t with
  | nil => simp [includesChars, List.isPrefixOf]
  | cons d ds ih =>
    rw [includesChars, Bool.or_eq_true, ih]
    simp [List.isPrefixOf]

/-- The two branches of `containsKeyword` on text without ASCII capitals, for a
keyword that either contains a space or is delimited by word characters. -/
theorem containsKeyword_eq_keywordRule (t k : String)
    (ht : ∀ c ∈ t.data, c.isUpper = false)
    (hk : ' ' ∈ k.data ∨ wordDelimited k.data = true) :
    containsKeyword t k = keywordRule t k := by
  have hspace : includes k " " = true ↔ ' ' ∈ k.data := includesChars_singleton ' ' k.data
  unfold containsKeyword keywordRule
  by_cases hs : ' ' ∈ k.data
  · rw [if_pos (hspace.mpr hs), if_pos hs, includes, Bool.eq_iff_iff, includesChars_iff]
    simp
  · have hs' : ¬ includes k " " = true := fun h => hs (hspace.mp h)
    rw [if_neg hs', if_neg hs]
    exact regexTest_eq_occursAsWholeWord k.data none t.data (hk.resolve_left hs) ht

/-- The matcher's last character is the last element of the list read. -/
theorem lastOr_none_eq_getLast? (l : List Char) : lastOr none l = l.getLast? := by
  have h : ∀ (l : List Char) (prev : Option Char),
      lastOr prev l = match l.getLast? with
        | some c => some c
        | none => prev := by
    intro l
    induction l with
    | nil => intro prev; rfl
    | cons c cs ih =>
      intro prev
      rw [lastOr, ih (some c)]
      cases cs with
      | nil => rfl
      | cons d ds =>
        rw [List.getLast?_cons_cons]
        cases hh : (d :: ds).getLast? with
        | none => simp at hh
        | some x => rfl
  rw [h l none]
  cases l.getLast? <;> rfl

/-- The whole-word test at the head of the text, as a decomposition. -/
theorem wholeWordAt_iff (k : List Char) (prev : Option Char) (t : List Char) :
    wholeWordAt k prev t = true ↔
      ∃ post, t = k ++ post ∧ isWordAt prev = false ∧ isWordAt post.head? = false := by
  simp only [wholeWordAt, Bool.and_eq_true, Bool.not_eq_true', List.isPrefixOf_iff_prefix]
  constructor
  · rintro ⟨⟨⟨post, rfl⟩, hprev⟩, hpost⟩
    exact ⟨post, rfl, hprev, by simpa using hpost⟩
  · rintro ⟨post, rfl, hprev, hpost⟩
    exact ⟨⟨⟨post, rfl⟩, hprev⟩, by simpa using hpost⟩

/-- The whole-word rule as a decomposition of the text: the keyword occurs
between a part `pre` that does not end with a word character (nor does `prev`
when `pre` is empty) and a part `post` that does not begin with one. -/
theorem occursAsWholeWord_iff (k : List Char) (prev : Option Char) (t : List Char) :
    occursAsWholeWord k prev t = true ↔
      ∃ pre post, t = pre ++ k ++ post ∧ isWordAt (lastOr prev pre) = false ∧
        isWordAt post.head? = false := by
  induction t generalizing prev with
  | nil =>
    rw [occursAsWholeWord, wholeWordAt_iff]
    constructor
    · rintro ⟨post, h, hprev, hpost⟩
      exact ⟨[], post, by simpa using h, hprev, hpost⟩
    · rintro ⟨pre, post, h, hprev, hpost⟩
      have hpre : pre = [] := by
        cases pre with
        | nil => rfl
        | cons a as => simp at h
      subst hpre
      exact ⟨post, by simpa using h, hprev, hpost⟩
  | cons c cs ih =>
    rw [occursAsWholeWord, Bool.or_eq_true, wholeWordAt_iff, ih (some c)]
    constructor
    · rintro (⟨post, h, hprev, hpost⟩ | ⟨pre, post, h, hprev, hpost⟩)
      · exact ⟨[], post, by simpa using h, hprev, hpost⟩
      · exact ⟨c :: pre, post, by simp [h], hprev, hpost⟩
    · rintro ⟨pre, post, h, hprev, hpost⟩
      cases pre with
      | nil => exact Or.inl ⟨post, by simpa using h, hprev, hpost⟩
      | cons a as =>
        simp only [List.cons_append, List.cons.injEq] at h
        obtain ⟨rfl, h⟩ := h
        exact Or.inr ⟨as, post, h, hprev, hpost⟩

/-- A name that is neither a key of the table nor a property inherited from
`Object.prototype` gives no conflict. -/
theorem checkForConflict_of_unknown_name (item : Item) (restriction : Restriction)
    (hkey : toLowerCase restriction.name ∉ patternKeys)
    (hproto : toLowerCase restriction.name ∉ objectPrototypeKeys) :
    checkForConflict item restriction = .ok false := by
  have hnone : conflictPatterns (toLowerCase restriction.name) = none := by
    simp only [patternKeys, List.mem_cons, List.mem_singleton, not_or, List.not_mem_nil,
      or_false] at hkey
    obtain ⟨h1, h2, h3, h4, h5, h6, h7⟩ := hkey
    simp [conflictPatterns, h1, h2, h3, h4, h5, h6, h7]
  simp only [checkForConflict, lookupPattern, hnone, if_neg hproto]

/-- A name that is a property inherited from `Object.prototype` makes the call
fail, whatever the item. -/
theorem checkForConflict_of_inherited_name (item : Item) (restriction : Restriction)
    (hkey : toLowerCase restriction.name ∉ patternKeys)
    (hproto : toLowerCase restriction.name ∈ objectPrototypeKeys) :
    checkForConflict item restriction = .error safeUndefinedError := by
  have hnone : conflictPatterns (toLowerCase restriction.name) = none := by
    simp only [patternKeys, List.mem_cons, List.mem_singleton, not_or, List.not_mem_nil,
      or_false] at hkey
    obtain ⟨h1, h2, h3, h4, h5, h6, h7⟩ := hkey
    simp [conflictPatterns, h1, h2, h3, h4, h5, h6, h7]
  simp only [checkForConflict, lookupPattern, hnone, if_pos hproto]

/-! ## Lemmas on the audit log -/

/-- The length of `slice(-n)`. -/
theorem keepLast_length (n : Nat) (l : List α) : (keepLast n l).length = min l.length n := by
  simp only [keepLast, List.length_drop]
  omega

/-- A list of at most `n` elements is its own `slice(-n)`. -/
theorem keepLast_of_length_le (n : Nat) (l : List α) (h : l.length ≤ n) : keepLast n l = l := by
  simp [keepLast, Nat.sub_eq_zero_of_le h]

/-- Truncating, appending and truncating again is appending and truncating
once. -/
theorem keepLast_append_keepLast (n : Nat) (l r : List α) :
    keepLast n (keepLast n l ++ r) = keepLast n (l ++ r) := by
  by_cases h : l.length ≤ n
  · rw [keepLast_of_length_le n l h]
  · have hk : l.length - n ≤ l.length := Nat.sub_le _ _
    simp only [keepLast, List.length_append, List.length_drop]
    have h1 : l.length - (l.length - n) + r.length - n = r.length := by omega
    have h2 : l.length + r.length - n = (l.length - n) + r.length := by omega
    rw [h1, h2, ← List.drop_drop, List.drop_append_of_le_length hk]

/-- One call of `logMismatch` pushes the entry and keeps the last 1000. -/
theorem logMismatch_eq (now : Int) (userId : String) (item : Item) (matchResult : MatchResult)
    (mismatchLog : List MismatchLogEntry) :
    logMismatch now userId item matchResult mismatchLog =
      keepLast 1000 (mismatchLog ++ [LogCall.entry ⟨now, userId, item, matchResult⟩]) := by
  simp only [logMismatch, LogCall.entry]
  split
  · rfl
  · rename_i h
    rw [keepLast_of_length_le]
    exact Nat.le_of_not_lt h

/-- After a call of `logMismatch` the log has at most 1000 entries. -/
theorem logMismatch_length_le (now : Int) (userId : String) (item : Item)
    (matchResult : MatchResult) (mismatchLog : List MismatchLogEntry) :
    (logMismatch now userId item matchResult mismatchLog).length ≤ 1000 := by
  rw [logMismatch_eq, keepLast_length]
  exact Nat.min_le_right _ _

/-- A sequence of calls from a log of at most 1000 entries keeps the last 1000
of everything logged. -/
theorem logMismatchAll_of_length_le (calls : List LogCall)
    (mismatchLog : List MismatchLogEntry) (h : mismatchLog.length ≤ 1000) :
    logMismatchAll calls mismatchLog =
      keepLast 1000 (mismatchLog ++ calls.map LogCall.entry) := by
  induction calls generalizing mismatchLog with
  | nil => simp [logMismatchAll, keepLast_of_length_le 1000 mismatchLog h]
  | cons c cs ih =>
    rw [logMismatchAll, ih _ (logMismatch_length_le _ _ _ _ _), logMismatch_eq,
      keepLast_append_keepLast, List.map_cons, List.append_assoc, List.singleton_append]

/-- The four filter steps of `getMismatchLogs` keep the entries that satisfy
every provided filter, in their order in the log. -/
theorem getMismatchLogs_eq (filters : Filters) (mismatchLog : List MismatchLogEntry) :
    getMismatchLogs filters mismatchLog =
      (mismatchLog.filter filters.satisfiedBy).insertionSort newestFirst := by
  have hif : ∀ (c : Bool) (p : MismatchLogEntry → Bool) (l : List MismatchLogEntry),
      (if c = true then l.filter p else l) = l.filter fun x => !c || p x := by
    intro c p l
    cases c <;> simp
  have hdate : ∀ (d : Option Int) (p : Int → MismatchLogEntry → Bool)
      (l : List MismatchLogEntry),
      (match d with
        | some date => l.filter (p date)
        | none => l) = l.filter fun x => match d with
          | some date => p date x
          | none => true := by
    intro d p l
    cases d <;> simp
  unfold getMismatchLogs
  simp only [hif]
  rw [hdate filters.startDate (fun date log => decide (log.timestamp ≥ date)),
    hdate filters.endDate (fun date log => decide (log.timestamp ≤ date))]
  simp only [List.filter_filter]
  apply congrArg (List.insertionSort newestFirst)
  apply List.filter_congr
  intro x _
  obtain ⟨userId, severity, startDate, endDate⟩ := filters
  have hu : (!truthyString userId || some x.userId == userId) =
      (match userId with
        | some userId => userId == "" || x.userId == userId
        | none => true) := by
    cases userId with
    | none => rfl
    | some u => by_cases h : u = "" <;> simp [truthyString, h, bne]
  have hs : (!truthyString severity || x.severity == severity) =
      (match severity with
        | some severity => severity == "" || x.severity == some severity
        | none => true) := by
    cases severity with
    | none => rfl
    | some v => by_cases h : v = "" <;> simp [truthyString, h, bne]
  simp only [Filters.satisfiedBy, ← hu, ← hs]
  cases (!truthyString userId || some x.userId == userId) <;>
    cases (!truthyString severity || x.severity == severity) <;>
    cases startDate <;> cases endDate <;> simp [Bool.and_comm]

/-! ## Lemmas on the item loop -/

/-- The loop on a first item whose check returns a result. -/
theorem processItems_cons_ok (clock : Nat → Int) (userId : String)
    (userPreferences : List UserPreference) (item : Item) (rest : List Item) (st : LoopState)
    (matchResult : MatchResult)
    (h : checkItemCompatibility item userPreferences = .ok matchResult) :
    processItems clock userId userPreferences (item :: rest) st =
      processItems clock userId userPreferences rest
        (loopStep clock userId item matchResult st) := by
  rw [processItems, h]
  rfl

/-- The loop on a first item whose check throws. -/
theorem processItems_cons_error (clock : Nat → Int) (userId : String)
    (userPreferences : List UserPreference) (item : Item) (rest : List Item) (st : LoopState)
    (e : JsError) (h : checkItemCompatibility item userPreferences = .error e) :
    processItems clock userId userPreferences (item :: rest) st =
      (.error e, st.mismatchLog, st.clockReads) := by
  rw [processItems, h]

/-- The loop body for a compatible item: the record is appended to
`compatibleItems`; the log and the clock are untouched. -/
theorem loopStep_compatible (clock : Nat → Int) (userId : String) (item : Item)
    (matchResult : MatchResult) (st : LoopState) (h : matchResult.isCompatible = true) :
    (loopStep clock userId item matchResult st).results.compatibleItems =
        st.results.compatibleItems ++
          [{ item := item, matchConfidence := some matchResult.confidence,
             warnings := some matchResult.warnings }] ∧
      (loopStep clock userId item matchResult st).results.incompatibleItems =
        st.results.incompatibleItems ∧
      (loopStep clock userId item matchResult st).mismatchLog = st.mismatchLog ∧
      (loopStep clock userId item matchResult st).clockReads = st.clockReads := by
  simp only [loopStep, h, if_true]
  split <;> exact ⟨rfl, rfl, rfl, rfl⟩

/-- The loop body for an incompatible item: the record is appended to
`incompatibleItems` and one entry is logged at the next clock reading. -/
theorem loopStep_incompatible (clock : Nat → Int) (userId : String) (item : Item)
    (matchResult : MatchResult) (st : LoopState) (h : matchResult.isCompatible = false) :
    (loopStep clock userId item matchResult st).results.compatibleItems =
        st.results.compatibleItems ∧
      (loopStep clock userId item matchResult st).results.incompatibleItems =
        st.results.incompatibleItems ++
          [{ item := item, exclusionReason := matchResult.reason,
             severity := matchResult.severity,
             conflictingRestrictions := matchResult.conflictingRestrictions }] ∧
      (loopStep clock userId item matchResult st).mismatchLog =
        logMismatch (clock st.clockReads) userId item matchResult st.mismatchLog ∧
      (loopStep clock userId item matchResult st).clockReads = st.clockReads + 1 := by
  simp only [loopStep, h, Bool.false_eq_true, if_false]
  split <;> split <;> exact ⟨rfl, rfl, rfl, rfl⟩

/-- The effect of a successful loop on the log: with a log of at most 1000
entries before, the log after is the last 1000 of the log before followed by
one entry per record appended to `incompatibleItems`, in order. -/
theorem processItems_log (clock : Nat → Int) (userId : String)
    (userPreferences : List UserPreference) (items : List Item) (st : LoopState)
    (result : BatchResult) (log : List MismatchLogEntry) (reads : Nat)
    (hlen : st.mismatchLog.length ≤ 1000)
    (h : processItems clock userId userPreferences items st = (.ok result, log, reads)) :
    ∃ excluded, result.incompatibleItems = st.results.incompatibleItems ++ excluded ∧
      log = keepLast 1000
        (st.mismatchLog ++ excludedEntries clock userId st.clockReads excluded) ∧
      reads = st.clockReads + excluded.length := by
  induction items generalizing st with
  | nil =>
    rw [processItems] at h
    simp only [Prod.mk.injEq, Except.ok.injEq] at h
    obtain ⟨h1, h2, h3⟩ := h
    subst h1 h2 h3
    exact ⟨[], by simp, by simp [excludedEntries, keepLast_of_length_le 1000 _ hlen], rfl⟩
  | cons item rest ih =>
    cases hc : checkItemCompatibility item userPreferences with
    | error e =>
      rw [processItems_cons_error clock userId userPreferences item rest st e hc] at h
      simp at h
    | ok matchResult =>
      rw [processItems_cons_ok clock userId userPreferences item rest st matchResult hc] at h
      cases hcomp : matchResult.isCompatible with
      | true =>
        obtain ⟨-, hinc, hlog, hreads⟩ :=
          loopStep_compatible clock userId item matchResult st hcomp
        obtain ⟨excluded, h1, h2, h3⟩ := ih _ (by rw [hlog]; exact hlen) h
        rw [hinc] at h1
        rw [hlog, hreads] at h2
        rw [hreads] at h3
        exact ⟨excluded, h1, h2, h3⟩
      | false =>
        obtain ⟨-, hinc, hlog, hreads⟩ :=
          loopStep_incompatible clock userId item matchResult st hcomp
        obtain ⟨excluded, h1, h2, h3⟩ :=
          ih _ (by rw [hlog]; exact logMismatch_length_le _ _ _ _ _) h
        rw [hinc, List.append_assoc, List.singleton_append] at h1
        rw [hlog, hreads, logMismatch_eq, keepLast_append_keepLast, List.append_assoc,
          List.singleton_append] at h2
        rw [hreads] at h3
        refine ⟨_ :: excluded, h1, ?_, ?_⟩
        · rw [h2]
          rfl
        · rw [h3, List.length_cons]
          omega

/-- The entry pushed by `logMismatch` is the last entry of the log after the
call. -/
theorem logMismatch_getLast? (now : Int) (userId : String) (item : Item)
    (matchResult : MatchResult) (mismatchLog : List MismatchLogEntry) :
    (logMismatch now userId item matchResult mismatchLog).getLast? =
      some (LogCall.entry ⟨now, userId, item, matchResult⟩) := by
  rw [logMismatch_eq, keepLast, List.drop_append_of_le_length]
  · simp
  · simp only [List.length_append, List.length_singleton]
    omega

/-- The `results` object after the loop body does not depend on the clock, the
user identifier or the log. -/
theorem loopStep_results (clock₁ clock₂ : Nat → Int) (userId₁ userId₂ : String) (item : Item)
    (matchResult : MatchResult) (st₁ st₂ : LoopState) (h : st₁.results = st₂.results) :
    (loopStep clock₁ userId₁ item matchResult st₁).results =
      (loopStep clock₂ userId₂ item matchResult st₂).results := by
  simp only [loopStep, h]
  split <;> split <;> (try split) <;> rfl

/-- The outcome of the loop does not depend on the clock, the user identifier
or the log. -/
theorem processItems_outcome (clock₁ clock₂ : Nat → Int) (userId₁ userId₂ : String)
    (userPreferences : List UserPreference) (items : List Item) (st₁ st₂ : LoopState)
    (h : st₁.results = st₂.results) :
    (processItems clock₁ userId₁ userPreferences items st₁).1 =
      (processItems clock₂ userId₂ userPreferences items st₂).1 := by
  induction items generalizing st₁ st₂ with
  | nil => simp only [processItems, h]
  | cons item rest ih =>
    cases hc : checkItemCompatibility item userPreferences with
    | error e =>
      rw [processItems_cons_error _ _ _ _ _ _ e hc, processItems_cons_error _ _ _ _ _ _ e hc]
    | ok matchResult =>
      rw [processItems_cons_ok _ _ _ _ _ _ matchResult hc,
        processItems_cons_ok _ _ _ _ _ _ matchResult hc]
      exact ih _ _ (loopStep_results _ _ _ _ _ _ _ _ h)

/-- The records of a successful loop: the two lists grow by appending, and every
item of the batch is the `item` of a record appended to one of them. -/
theorem processItems_records (clock : Nat → Int) (userId : String)
    (userPreferences : List UserPreference) (items : List Item) (st : LoopState)
    (result : BatchResult) (log : List MismatchLogEntry) (reads : Nat)
    (h : processItems clock userId userPreferences items st = (.ok result, log, reads)) :
    ∃ compatible excluded,
      result.compatibleItems = st.results.compatibleItems ++ compatible ∧
      result.incompatibleItems = st.results.incompatibleItems ++ excluded ∧
      ∀ item ∈ items, (∃ c ∈ compatible, c.item = item) ∨ (∃ x ∈ excluded, x.item = item) := by
  induction items generalizing st with
  | nil =>
    rw [processItems] at h
    simp only [Prod.mk.injEq, Except.ok.injEq] at h
    obtain ⟨h1, -, -⟩ := h
    subst h1
    exact ⟨[], [], by simp, by simp, by simp⟩
  | cons item rest ih =>
    cases hc : checkItemCompatibility item userPreferences with
    | error e =>
      rw [processItems_cons_error clock userId userPreferences item rest st e hc] at h
      simp at h
    | ok matchResult =>
      rw [processItems_cons_ok clock userId userPreferences item rest st matchResult hc] at h
      obtain ⟨compatible, excluded, h1, h2, h3⟩ := ih _ h
      cases hcomp : matchResult.isCompatible with
      | true =>
        obtain ⟨hcmp, hinc, -, -⟩ :=
          loopStep_compatible clock userId item matchResult st hcomp
        rw [hcmp, List.append_assoc, List.singleton_append] at h1
        rw [hinc] at h2
        refine ⟨_ :: compatible, excluded, h1, h2, ?_⟩
        intro it hit
        rcases List.mem_cons.mp hit with rfl | hrest
        · exact Or.inl ⟨_, List.mem_cons_self _ _, rfl⟩
        · rcases h3 it hrest with ⟨c, hc', hci⟩ | hx
          · exact Or.inl ⟨c, List.mem_cons_of_mem _ hc', hci⟩
          · exact Or.inr hx
      | false =>
        obtain ⟨hcmp, hinc, -, -⟩ :=
          loopStep_incompatible clock userId item matchResult st hcomp
        rw [hcmp] at h1
        rw [hinc, List.append_assoc, List.singleton_append] at h2
        refine ⟨compatible, _ :: excluded, h1, h2, ?_⟩
        intro it hit
        rcases List.mem_cons.mp hit with rfl | hrest
        · exact Or.inr ⟨_, List.mem_cons_self _ _, rfl⟩
        · rcases h3 it hrest with hc' | ⟨x, hx, hxi⟩
          · exact Or.inl hc'
          · exact Or.inr ⟨x, List.mem_cons_of_mem _ hx, hxi⟩

/-- The loop returns a result when the check of every item of the batch
returns one. -/
theorem processItems_returns (clock : Nat → Int) (userId : String)
    (userPreferences : List UserPreference) (items : List Item) (st : LoopState)
    (hok : ∀ item ∈ items, ∃ matchResult,
      checkItemCompatibility item userPreferences = .ok matchResult) :
    ∃ result, (processItems clock userId userPreferences items st).1 = .ok result := by
  induction items generalizing st with
  | nil => exact ⟨st.results, rfl⟩
  | cons item rest ih =>
    obtain ⟨matchResult, hm⟩ := hok item (List.mem_cons_self item rest)
    rw [processItems_cons_ok clock userId userPreferences item rest st matchResult hm]
    exact ih _ fun it hit => hok it (List.mem_cons_of_mem item hit)

/-- The check of Ground Beef with fields of its own against Vegetarian/mild. -/
theorem groundBeefWithWarnings_check :
    checkItemCompatibility groundBeefWithWarnings [⟨some vegetarian, "mild"⟩] = .ok {
      isCompatible := true
      confidence := 0.7
      warnings := ["May not align with Vegetarian preference"]
      reason := none
      severity := none
      conflictingRestrictions := [] } := by
  have hc : checkForConflict groundBeefWithWarnings vegetarian = .ok true := by decide
  have hmin : min (1.0 : ℚ) 0.7 = 0.7 := by norm_num
  simp [checkItemCompatibility, checkItemCompatibilityLoop, hc, initialResult, hmin]
  simp [vegetarian]

/-! ## The branches of the preference loop -/

/-- An unresolved preference is skipped. -/
theorem loop_cons_unresolved (item : Item) (p : UserPreference) (rest : List UserPreference)
    (result : MatchResult) (hr : p.restrictionId = none) :
    checkItemCompatibilityLoop item (p :: rest) result =
      checkItemCompatibilityLoop item rest result := by
  rw [checkItemCompatibilityLoop, hr]

/-- A failing lookup leaves the loop with the error. -/
theorem loop_cons_error (item : Item) (p : UserPreference) (r : Restriction)
    (rest : List UserPreference) (result : MatchResult) (e : JsError)
    (hr : p.restrictionId = some r) (hc : checkForConflict item r = .error e) :
    checkItemCompatibilityLoop item (p :: rest) result = .error e := by
  rw [checkItemCompatibilityLoop, hr]
  simp only [hc]

/-- A preference without conflict leaves the result as it is. -/
theorem loop_cons_no_conflict (item : Item) (p : UserPreference) (r : Restriction)
    (rest : List UserPreference) (result : MatchResult)
    (hr : p.restrictionId = some r) (hc : checkForConflict item r = .ok false) :
    checkItemCompatibilityLoop item (p :: rest) result =
      checkItemCompatibilityLoop item rest result := by
  rw [checkItemCompatibilityLoop, hr]
  simp only [hc]

/-- A conflicting strict allergen returns at once. -/
theorem loop_cons_allergen_strict (item : Item) (p : UserPreference) (r : Restriction)
    (rest : List UserPreference) (result : MatchResult)
    (hr : p.restrictionId = some r) (hc : checkForConflict item r = .ok true)
    (ha : r.isAllergen = true) (hs : p.severity = "strict") :
    checkItemCompatibilityLoop item (p :: rest) result =
      .ok (excludeAsAllergen result r p.severity) := by
  rw [checkItemCompatibilityLoop, hr]
  simp only [hc, ha, hs, if_true, excludeAsAllergen]

/-- A conflicting allergen of another severity excludes and the loop goes on. -/
theorem loop_cons_allergen_other (item : Item) (p : UserPreference) (r : Restriction)
    (rest : List UserPreference) (result : MatchResult)
    (hr : p.restrictionId = some r) (hc : checkForConflict item r = .ok true)
    (ha : r.isAllergen = true) (hs : p.severity ≠ "strict") :
    checkItemCompatibilityLoop item (p :: rest) result =
      checkItemCompatibilityLoop item rest (excludeAsAllergen result r p.severity) := by
  rw [checkItemCompatibilityLoop, hr]
  simp only [hc, ha, hs, if_true, if_false, excludeAsAllergen]

/-- A conflicting strict non-allergen excludes and the loop goes on. -/
theorem loop_cons_strict (item : Item) (p : UserPreference) (r : Restriction)
    (rest : List UserPreference) (result : MatchResult)
    (hr : p.restrictionId = some r) (hc : checkForConflict item r = .ok true)
    (ha : r.isAllergen = false) (hs : p.severity = "strict") :
    checkItemCompatibilityLoop item (p :: rest) result =
      checkItemCompatibilityLoop item rest (excludeAsStrict result r p.severity) := by
  rw [checkItemCompatibilityLoop, hr]
  simp only [hc, ha, hs, if_true, excludeAsStrict]
  simp

/-- A conflicting mild non-allergen warns and the loop goes on. -/
theorem loop_cons_mild (item : Item) (p : UserPreference) (r : Restriction)
    (rest : List UserPreference) (result : MatchResult)
    (hr : p.restrictionId = some r) (hc : checkForConflict item r = .ok true)
    (ha : r.isAllergen = false) (hs : p.severity ≠ "strict") :
    checkItemCompatibilityLoop item (p :: rest) result =
      checkItemCompatibilityLoop item rest (warnAsMild result r) := by
  rw [checkItemCompatibilityLoop, hr]
  simp only [hc, ha, hs, if_false, warnAsMild]
  simp

/-- The one preference at the head of the list falls in exactly one branch. -/
theorem preference_cases (item : Item) (p : UserPreference) :
    p.restrictionId = none ∨
    (∃ r e, p.restrictionId = some r ∧ checkForConflict item r = .error e) ∨
    (∃ r, p.restrictionId = some r ∧ checkForConflict item r = .ok false) ∨
    (∃ r, p.restrictionId = some r ∧ checkForConflict item r = .ok true ∧
      r.isAllergen = true ∧ p.severity = "strict") ∨
    (∃ r, p.restrictionId = some r ∧ checkForConflict item r = .ok true ∧
      r.isAllergen = true ∧ p.severity ≠ "strict") ∨
    (∃ r, p.restrictionId = some r ∧ checkForConflict item r = .ok true ∧
      r.isAllergen = false ∧ p.severity = "strict") ∨
    (∃ r, p.restrictionId = some r ∧ checkForConflict item r = .ok true ∧
      r.isAllergen = false ∧ p.severity ≠ "strict") := by
  cases hr : p.restrictionId with
  | none => exact Or.inl rfl
  | some r =>
    right
    cases hc : checkForConflict item r with
    | error e => exact Or.inl ⟨r, e, rfl, hc⟩
    | ok b =>
      right
      cases b with
      | false => exact Or.inl ⟨r, rfl, hc⟩
      | true =>
        right
        cases ha : r.isAllergen <;> by_cases hs : p.severity = "strict"
        · exact Or.inr (Or.inr (Or.inl ⟨r, rfl, hc, ha, hs⟩))
        · exact Or.inr (Or.inr (Or.inr ⟨r, rfl, hc, ha, hs⟩))
        · exact Or.inl ⟨r, rfl, hc, ha, hs⟩
        · exact Or.inr (Or.inl ⟨r, rfl, hc, ha, hs⟩)

/-- Invariants of the loop: a property of `result` that the three updates
preserve holds of every result the loop returns. -/
theorem loop_invariant (item : Item) (P : MatchResult → Prop) (l : List UserPreference)
    (hallergen : ∀ p ∈ l, ∀ r result, p.restrictionId = some r →
      checkForConflict item r = .ok true → r.isAllergen = true → P result →
      P (excludeAsAllergen result r p.severity))
    (hstrict : ∀ p ∈ l, ∀ r result, p.restrictionId = some r →
      checkForConflict item r = .ok true → r.isAllergen = false → p.severity = "strict" →
      P result → P (excludeAsStrict result r p.severity))
    (hmild : ∀ p ∈ l, ∀ r result, p.restrictionId = some r →
      checkForConflict item r = .ok true → r.isAllergen = false → p.severity ≠ "strict" →
      P result → P (warnAsMild result r))
    (result final : MatchResult) (hres : P result)
    (h : checkItemCompatibilityLoop item l result = .ok final) : P final := by
  induction l generalizing result with
  | nil =>
    rw [checkItemCompatibilityLoop] at h
    cases h
    exact hres
  | cons p l ih =>
    have ih' := ih (fun q hq => hallergen q (List.mem_cons_of_mem p hq))
      (fun q hq => hstrict q (List.mem_cons_of_mem p hq))
      (fun q hq => hmild q (List.mem_cons_of_mem p hq))
    have hp := List.mem_cons_self p l
    rcases preference_cases item p with hr | ⟨r, e, hr, hc⟩ | ⟨r, hr, hc⟩ |
      ⟨r, hr, hc, ha, hs⟩ | ⟨r, hr, hc, ha, hs⟩ | ⟨r, hr, hc, ha, hs⟩ | ⟨r, hr, hc, ha, hs⟩
    · rw [loop_cons_unresolved item p l result hr] at h
      exact ih' result hres h
    · rw [loop_cons_error item p r l result e hr hc] at h
      cases h
    · rw [loop_cons_no_conflict item p r l result hr hc] at h
      exact ih' result hres h
    · rw [loop_cons_allergen_strict item p r l result hr hc ha hs] at h
      cases h
      exact hallergen p hp r result hr hc ha hres
    · rw [loop_cons_allergen_other item p r l result hr hc ha hs] at h
      exact ih' _ (hallergen p hp r result hr hc ha hres) h
    · rw [loop_cons_strict item p r l result hr hc ha hs] at h
      exact ih' _ (hstrict p hp r result hr hc ha hs hres) h
    · rw [loop_cons_mild item p r l result hr hc ha hs] at h
      exact ih' _ (hmild p hp r result hr hc ha hs hres) h

/-- The loop over a list followed by more preferences: the first part fails, or
returns at a conflicting strict allergen, or hands a result on to the rest. -/
theorem loop_append_cases (item : Item) (l : List UserPreference) (result : MatchResult) :
    (∃ e, ∀ rest, checkItemCompatibilityLoop item (l ++ rest) result = .error e) ∨
    (∃ q r final, q ∈ l ∧ q.restrictionId = some r ∧ r.isAllergen = true ∧
      q.severity = "strict" ∧ checkForConflict item r = .ok true ∧
      ∀ rest, checkItemCompatibilityLoop item (l ++ rest) result = .ok final) ∨
    (∃ handed, ∀ rest, checkItemCompatibilityLoop item (l ++ rest) result =
      checkItemCompatibilityLoop item rest handed) := by
  induction l generalizing result with
  | nil => exact Or.inr (Or.inr ⟨result, fun _ => rfl⟩)
  | cons p l ih =>
    have lift : ∀ handed : MatchResult,
        (∀ rest, checkItemCompatibilityLoop item (p :: (l ++ rest)) result =
          checkItemCompatibilityLoop item (l ++ rest) handed) →
        (∃ e, ∀ rest, checkItemCompatibilityLoop item (p :: l ++ rest) result = .error e) ∨
        (∃ q r final, q ∈ p :: l ∧ q.restrictionId = some r ∧ r.isAllergen = true ∧
          q.severity = "strict" ∧ checkForConflict item r = .ok true ∧
          ∀ rest, checkItemCompatibilityLoop item (p :: l ++ rest) result = .ok final) ∨
        (∃ handed, ∀ rest, checkItemCompatibilityLoop item (p :: l ++ rest) result =
          checkItemCompatibilityLoop item rest handed) := by
      intro handed hstep
      rcases ih handed with ⟨e, he⟩ | ⟨q, r, final, hq, hr, ha, hs, hc, hf⟩ | ⟨h', hh⟩
      · exact Or.inl ⟨e, fun rest => by rw [List.cons_append, hstep, he]⟩
      · exact Or.inr (Or.inl ⟨q, r, final, List.mem_cons_of_mem p hq, hr, ha, hs, hc,
          fun rest => by rw [List.cons_append, hstep, hf]⟩)
      · exact Or.inr (Or.inr ⟨h', fun rest => by rw [List.cons_append, hstep, hh]⟩)
    rcases preference_cases item p with hr | ⟨r, e, hr, hc⟩ | ⟨r, hr, hc⟩ |
      ⟨r, hr, hc, ha, hs⟩ | ⟨r, hr, hc, ha, hs⟩ | ⟨r, hr, hc, ha, hs⟩ | ⟨r, hr, hc, ha, hs⟩
    · exact lift result fun rest => loop_cons_unresolved item p _ result hr
    · exact Or.inl ⟨e, fun rest => by
        rw [List.cons_append, loop_cons_error item p r _ result e hr hc]⟩
    · exact lift result fun rest => loop_cons_no_conflict item p r _ result hr hc
    · exact Or.inr (Or.inl ⟨p, r, _, List.mem_cons_self p l, hr, ha, hs, hc, fun rest => by
        rw [List.cons_append, loop_cons_allergen_strict item p r _ result hr hc ha hs]⟩)
    · exact lift _ fun rest => loop_cons_allergen_other item p r _ result hr hc ha hs
    · exact lift _ fun rest => loop_cons_strict item p r _ result hr hc ha hs
    · exact lift _ fun rest => loop_cons_mild item p r _ result hr hc ha hs

/-! ## Lemmas on the evaluator without the early return -/

/-- Without the early return: an unresolved preference is skipped. -/
theorem loopWithoutEarlyReturn_cons_unresolved (item : Item) (p : UserPreference)
    (rest : List UserPreference) (result : MatchResult) (hr : p.restrictionId = none) :
    loopWithoutEarlyReturn item (p :: rest) result =
      loopWithoutEarlyReturn item rest result := by
  rw [loopWithoutEarlyReturn, hr]

/-- Without the early return: a failing lookup leaves the loop with the error. -/
theorem loopWithoutEarlyReturn_cons_error (item : Item) (p : UserPreference)
    (r : Restriction) (rest : List UserPreference) (result : MatchResult) (e : JsError)
    (hr : p.restrictionId = some r) (hc : checkForConflict item r = .error e) :
    loopWithoutEarlyReturn item (p :: rest) result = .error e := by
  rw [loopWithoutEarlyReturn, hr]
  simp only [hc]

/-- Without the early return: no conflict, no change. -/
theorem loopWithoutEarlyReturn_cons_no_conflict (item : Item) (p : UserPreference)
    (r : Restriction) (rest : List UserPreference) (result : MatchResult)
    (hr : p.restrictionId = some r) (hc : checkForConflict item r = .ok false) :
    loopWithoutEarlyReturn item (p :: rest) result =
      loopWithoutEarlyReturn item rest result := by
  rw [loopWithoutEarlyReturn, hr]
  simp only [hc]

/-- Without the early return: a conflicting allergen of any severity excludes
and the loop goes on. -/
theorem loopWithoutEarlyReturn_cons_allergen (item : Item) (p : UserPreference)
    (r : Restriction) (rest : List UserPreference) (result : MatchResult)
    (hr : p.restrictionId = some r) (hc : checkForConflict item r = .ok true)
    (ha : r.isAllergen = true) :
    loopWithoutEarlyReturn item (p :: rest) result =
      loopWithoutEarlyReturn item rest (excludeAsAllergen result r p.severity) := by
  rw [loopWithoutEarlyReturn, hr]
  simp only [hc, ha, if_true, excludeAsAllergen]

/-- Without the early return: a conflicting strict non-allergen excludes. -/
theorem loopWithoutEarlyReturn_cons_strict (item : Item) (p : UserPreference)
    (r : Restriction) (rest : List UserPreference) (result : MatchResult)
    (hr : p.restrictionId = some r) (hc : checkForConflict item r = .ok true)
    (ha : r.isAllergen = false) (hs : p.severity = "strict") :
    loopWithoutEarlyReturn item (p :: rest) result =
      loopWithoutEarlyReturn item rest (excludeAsStrict result r p.severity) := by
  rw [loopWithoutEarlyReturn, hr]
  simp only [hc, ha, hs, if_true, excludeAsStrict]
  simp

/-- Without the early return: a conflicting mild non-allergen warns. -/
theorem loopWithoutEarlyReturn_cons_mild (item : Item) (p : UserPreference)
    (r : Restriction) (rest : List UserPreference) (result : MatchResult)
    (hr : p.restrictionId = some r) (hc : checkForConflict item r = .ok true)
    (ha : r.isAllergen = false) (hs : p.severity ≠ "strict") :
    loopWithoutEarlyReturn item (p :: rest) result =
      loopWithoutEarlyReturn item rest (warnAsMild result r) := by
  rw [loopWithoutEarlyReturn, hr]
  simp only [hc, ha, hs, if_false, warnAsMild]
  simp

/-- The loop without the early return never sets `isCompatible` back to true. -/
theorem loopWithoutEarlyReturn_stays_incompatible (item : Item) (l : List UserPreference)
    (result final : MatchResult) (hres : result.isCompatible = false)
    (h : loopWithoutEarlyReturn item l result = .ok final) : final.isCompatible = false := by
  induction l generalizing result with
  | nil =>
    rw [loopWithoutEarlyReturn] at h
    cases h
    exact hres
  | cons p l ih =>
    rcases preference_cases item p with hr | ⟨r, e, hr, hc⟩ | ⟨r, hr, hc⟩ |
      ⟨r, hr, hc, ha, hs⟩ | ⟨r, hr, hc, ha, hs⟩ | ⟨r, hr, hc, ha, hs⟩ | ⟨r, hr, hc, ha, hs⟩
    · rw [loopWithoutEarlyReturn_cons_unresolved item p l result hr] at h
      exact ih result hres h
    · rw [loopWithoutEarlyReturn_cons_error item p r l result e hr hc] at h
      cases h
    · rw [loopWithoutEarlyReturn_cons_no_conflict item p r l result hr hc] at h
      exact ih result hres h
    · rw [loopWithoutEarlyReturn_cons_allergen item p r l result hr hc ha] at h
      exact ih _ rfl h
    · rw [loopWithoutEarlyReturn_cons_allergen item p r l result hr hc ha] at h
      exact ih _ rfl h
    · rw [loopWithoutEarlyReturn_cons_strict item p r l result hr hc ha hs] at h
      exact ih _ rfl h
    · rw [loopWithoutEarlyReturn_cons_mild item p r l result hr hc ha hs] at h
      exact ih (warnAsMild result r) hres h

/-- The loop without the early return returns a result when no lookup fails. -/
theorem loopWithoutEarlyReturn_ok_of_lookups_ok (item : Item) (l : List UserPreference)
    (result : MatchResult)
    (hok : ∀ q ∈ l, ∀ r, q.restrictionId = some r → ∃ b, checkForConflict item r = .ok b) :
    ∃ final, loopWithoutEarlyReturn item l result = .ok final := by
  induction l generalizing result with
  | nil => exact ⟨result, rfl⟩
  | cons p l ih =>
    have ih' := fun res => ih res fun q hq => hok q (List.mem_cons_of_mem p hq)
    rcases preference_cases item p with hr | ⟨r, e, hr, hc⟩ | ⟨r, hr, hc⟩ |
      ⟨r, hr, hc, ha, hs⟩ | ⟨r, hr, hc, ha, hs⟩ | ⟨r, hr, hc, ha, hs⟩ | ⟨r, hr, hc, ha, hs⟩
    · rw [loopWithoutEarlyReturn_cons_unresolved item p l result hr]
      exact ih' result
    · obtain ⟨b, hb⟩ := hok p (List.mem_cons_self p l) r hr
      rw [hc] at hb
      cases hb
    · rw [loopWithoutEarlyReturn_cons_no_conflict item p r l result hr hc]
      exact ih' result
    · rw [loopWithoutEarlyReturn_cons_allergen item p r l result hr hc ha]
      exact ih' _
    · rw [loopWithoutEarlyReturn_cons_allergen item p r l result hr hc ha]
      exact ih' _
    · rw [loopWithoutEarlyReturn_cons_strict item p r l result hr hc ha hs]
      exact ih' _
    · rw [loopWithoutEarlyReturn_cons_mild item p r l result hr hc ha hs]
      exact ih' _

/-- Where the loop without the early return returns a result, the loop with it
returns one with the same `isCompatible`. -/
theorem loop_agrees_with_loopWithoutEarlyReturn (item : Item) (l : List UserPreference)
    (result final : MatchResult) (h : loopWithoutEarlyReturn item l result = .ok final) :
    ∃ early, checkItemCompatibilityLoop item l result = .ok early ∧
      early.isCompatible = final.isCompatible := by
  induction l generalizing result with
  | nil =>
    rw [loopWithoutEarlyReturn] at h
    cases h
    exact ⟨_, rfl, rfl⟩
  | cons p l ih =>
    rcases preference_cases item p with hr | ⟨r, e, hr, hc⟩ | ⟨r, hr, hc⟩ |
      ⟨r, hr, hc, ha, hs⟩ | ⟨r, hr, hc, ha, hs⟩ | ⟨r, hr, hc, ha, hs⟩ | ⟨r, hr, hc, ha, hs⟩
    · rw [loopWithoutEarlyReturn_cons_unresolved item p l result hr] at h
      rw [loop_cons_unresolved item p l result hr]
      exact ih result h
    · rw [loopWithoutEarlyReturn_cons_error item p r l result e hr hc] at h
      cases h
    · rw [loopWithoutEarlyReturn_cons_no_conflict item p r l result hr hc] at h
      rw [loop_cons_no_conflict item p r l result hr hc]
      exact ih result h
    · rw [loopWithoutEarlyReturn_cons_allergen item p r l result hr hc ha] at h
      rw [loop_cons_allergen_strict item p r l result hr hc ha hs]
      refine ⟨_, rfl, ?_⟩
      rw [loopWithoutEarlyReturn_stays_incompatible item l _ final rfl h]
      rfl
    · rw [loopWithoutEarlyReturn_cons_allergen item p r l result hr hc ha] at h
      rw [loop_cons_allergen_other item p r l result hr hc ha hs]
      exact ih _ h
    · rw [loopWithoutEarlyReturn_cons_strict item p r l result hr hc ha hs] at h
      rw [loop_cons_strict item p r l result hr hc ha hs]
      exact ih _ h
    · rw [loopWithoutEarlyReturn_cons_mild item p r l result hr hc ha hs] at h
      rw [loop_cons_mild item p r l result hr hc ha hs]
      exact ih _ h

/-- When no lookup of the list fails, the evaluators with and without the early
return both return a result, with the same `isCompatible`. -/
theorem early_return_agrees_when_lookups_succeed (item : Item)
    (userPreferences : List UserPreference)
    (hok : ∀ q ∈ userPreferences, ∀ r, q.restrictionId = some r →
      ∃ b, checkForConflict item r = .ok b) :
    ∃ early full, checkItemCompatibility item userPreferences = .ok early ∧
      checkItemCompatibilityWithoutEarlyReturn item userPreferences = .ok full ∧
      early.isCompatible = full.isCompatible := by
  obtain ⟨full, hfull⟩ :=
    loopWithoutEarlyReturn_ok_of_lookups_ok item userPreferences initialResult hok
  obtain ⟨early, hearly, hsame⟩ :=
    loop_agrees_with_loopWithoutEarlyReturn item userPreferences initialResult full hfull
  exact ⟨early, full, hearly, hfull, hsame⟩

/-! ## Lemmas on the classification -/

/-- What `isExcluding` says of a resolved preference. -/
theorem isExcluding_iff (item : Item) (p : UserPreference) :
    isExcluding item p = true ↔
      ∃ r, p.restrictionId = some r ∧ checkForConflict item r = .ok true ∧
        (r.isAllergen = true ∨ p.severity = "strict") := by
  cases hr : p.restrictionId with
  | none => simp [isExcluding, hr]
  | some r => simp [isExcluding, hr]

/-- A result returned by the loop over a list with an excluding preference is
incompatible. -/
theorem loop_incompatible_of_returned (item : Item) (l : List UserPreference)
    (result final : MatchResult) (h : checkItemCompatibilityLoop item l result = .ok final)
    (hex : ∃ p ∈ l, isExcluding item p = true) : final.isCompatible = false := by
  induction l generalizing result with
  | nil =>
    obtain ⟨p, hp, -⟩ := hex
    cases hp
  | cons q l ih =>
    have tail : q.restrictionId = none ∨ (∃ r, q.restrictionId = some r ∧
        checkForConflict item r = .ok false) ∨ (∃ r, q.restrictionId = some r ∧
        checkForConflict item r = .ok true ∧ r.isAllergen = false ∧ q.severity ≠ "strict") →
        ∃ p ∈ l, isExcluding item p = true := by
      intro hq
      obtain ⟨p, hp, hpe⟩ := hex
      rcases List.mem_cons.mp hp with rfl | hpl
      · obtain ⟨r, hr, hc, hsev⟩ := (isExcluding_iff item p).mp hpe
        rcases hq with h0 | ⟨r', hr', hc'⟩ | ⟨r', hr', hc', ha', hs'⟩
        · rw [h0] at hr
          cases hr
        · rw [hr'] at hr
          cases hr
          rw [hc'] at hc
          cases hc
        · rw [hr'] at hr
          cases hr
          rcases hsev with hA | hS
          · rw [ha'] at hA
            cases hA
          · exact absurd hS hs'
      · exact ⟨p, hpl, hpe⟩
    rcases preference_cases item q with hr | ⟨r, e, hr, hc⟩ | ⟨r, hr, hc⟩ |
      ⟨r, hr, hc, ha, hs⟩ | ⟨r, hr, hc, ha, hs⟩ | ⟨r, hr, hc, ha, hs⟩ | ⟨r, hr, hc, ha, hs⟩
    · rw [loop_cons_unresolved item q l result hr] at h
      exact ih result h (tail (Or.inl hr))
    · rw [loop_cons_error item q r l result e hr hc] at h
      cases h
    · rw [loop_cons_no_conflict item q r l result hr hc] at h
      exact ih result h (tail (Or.inr (Or.inl ⟨r, hr, hc⟩)))
    · rw [loop_cons_allergen_strict item q r l result hr hc ha hs] at h
      cases h
      rfl
    · rw [loop_cons_allergen_other item q r l result hr hc ha hs] at h
      exact loop_stays_incompatible item l _ final rfl h
    · rw [loop_cons_strict item q r l result hr hc ha hs] at h
      exact loop_stays_incompatible item l _ final rfl h
    · rw [loop_cons_mild item q r l result hr hc ha hs] at h
      exact ih _ h (tail (Or.inr (Or.inr ⟨r, hr, hc, ha, hs⟩)))

/-- The classification rule for the results that are returned: a returned
result is incompatible exactly when the list has an excluding preference. -/
theorem classification_rule_of_returned (item : Item) (userPreferences : List UserPreference)
    (result : MatchResult) (h : checkItemCompatibility item userPreferences = .ok result) :
    result.isCompatible = false ↔ ∃ p ∈ userPreferences, isExcluding item p = true := by
  constructor
  · refine loop_invariant item
      (fun res => res.isCompatible = false → ∃ p ∈ userPreferences, isExcluding item p = true)
      userPreferences ?_ ?_ ?_ initialResult result (fun h0 => by cases h0) h
    · intro p hp r res hr hc ha _ _
      exact ⟨p, hp, (isExcluding_iff item p).mpr ⟨r, hr, hc, Or.inl ha⟩⟩
    · intro p hp r res hr hc _ hs _ _
      exact ⟨p, hp, (isExcluding_iff item p).mpr ⟨r, hr, hc, Or.inr hs⟩⟩
    · intro p _ r res _ _ _ _ hres h0
      exact hres h0
  · exact loop_incompatible_of_returned item userPreferences initialResult result h

/-- Unresolved preferences are skipped: the loop has the same outcome on the
list with them removed. -/
theorem loop_resolvedOnly (item : Item) (l : List UserPreference) (result : MatchResult) :
    checkItemCompatibilityLoop item l result =
      checkItemCompatibilityLoop item (resolvedOnly l) result := by
  induction l generalizing result with
  | nil => rfl
  | cons p l ih =>
    have hcons : ∀ r, p.restrictionId = some r → resolvedOnly (p :: l) = p :: resolvedOnly l := by
      intro r hr
      simp [resolvedOnly, hr]
    rcases preference_cases item p with hr | ⟨r, e, hr, hc⟩ | ⟨r, hr, hc⟩ |
      ⟨r, hr, hc, ha, hs⟩ | ⟨r, hr, hc, ha, hs⟩ | ⟨r, hr, hc, ha, hs⟩ | ⟨r, hr, hc, ha, hs⟩
    · have hskip : resolvedOnly (p :: l) = resolvedOnly l := by simp [resolvedOnly, hr]
      rw [loop_cons_unresolved item p l result hr, hskip]
      exact ih result
    · rw [hcons r hr, loop_cons_error item p r _ result e hr hc,
        loop_cons_error item p r _ result e hr hc]
    · rw [hcons r hr, loop_cons_no_conflict item p r _ result hr hc,
        loop_cons_no_conflict item p r _ result hr hc]
      exact ih result
    · rw [hcons r hr, loop_cons_allergen_strict item p r _ result hr hc ha hs,
        loop_cons_allergen_strict item p r _ result hr hc ha hs]
    · rw [hcons r hr, loop_cons_allergen_other item p r _ result hr hc ha hs,
        loop_cons_allergen_other item p r _ result hr hc ha hs]
      exact ih _
    · rw [hcons r hr, loop_cons_strict item p r _ result hr hc ha hs,
        loop_cons_strict item p r _ result hr hc ha hs]
      exact ih _
    · rw [hcons r hr, loop_cons_mild item p r _ result hr hc ha hs,
        loop_cons_mild item p r _ result hr hc ha hs]
      exact ih _

/-- Populate-miss for every list: `checkItemCompatibility` has the same outcome
(the same result or the same error) on the list with the unresolved preferences
removed, and a list of unresolved preferences only gives the initial result. -/
theorem unresolved_preferences_are_skipped (item : Item)
    (userPreferences : List UserPreference) :
    checkItemCompatibility item userPreferences =
        checkItemCompatibility item (resolvedOnly userPreferences) ∧
      ((∀ p ∈ userPreferences, p.restrictionId = none) →
        checkItemCompatibility item userPreferences = .ok initialResult) := by
  refine ⟨loop_resolvedOnly item userPreferences initialResult, fun hall => ?_⟩
  have h := loop_skip_nonconflicting item userPreferences [] initialResult
    (fun q hq r hr => by rw [hall q hq] at hr; cases hr)
  rw [List.append_nil] at h
  rw [checkItemCompatibility, h, checkItemCompatibilityLoop]

/-- Pork Chops against two mild non-allergen preferences that both conflict. -/
theorem two_mild_conflicts_result :
    checkItemCompatibility porkChops [⟨some vegan, "mild"⟩, ⟨some vegetarian, "mild"⟩] =
      .ok twoMildConflictsResult := by
  have hv : checkForConflict porkChops vegan = .ok true := by decide
  have hg : checkForConflict porkChops vegetarian = .ok true := by decide
  have hmin : min (1.0 : ℚ) 0.7 = 0.7 := by norm_num
  simp [checkItemCompatibility, checkItemCompatibilityLoop, hv, hg, initialResult, hmin,
    twoMildConflictsResult]
  simp [vegan, vegetarian]

/-- Peanut Pork Skewers against Kosher/strict, then the allergen Nut-Free/mild. -/
theorem skewers_result :
    checkItemCompatibility peanutPorkSkewers
        [⟨some kosher, "strict"⟩, ⟨some nutFree, "mild"⟩] = .ok skewersResult := by
  have hk : checkForConflict peanutPorkSkewers kosher = .ok true := by decide
  have hn : checkForConflict peanutPorkSkewers nutFree = .ok true := by decide
  simp [checkItemCompatibility, checkItemCompatibilityLoop, hk, hn, initialResult,
    skewersResult]
  simp [kosher, nutFree]

/-- Whole Milk against Dairy-Free/strict created without the allergen flag. -/
theorem whole_milk_result :
    checkItemCompatibility wholeMilk [⟨some dairyFreeUnflagged, "strict"⟩] =
      .ok wholeMilkResult := by
  have hd : checkForConflict wholeMilk dairyFreeUnflagged = .ok true := by decide
  simp [checkItemCompatibility, checkItemCompatibilityLoop, hd, initialResult,
    wholeMilkResult]
  simp [dairyFreeUnflagged]

/-- The last entry of `conflictingRestrictions` of an incompatible result comes
from the last preference that excluded: the entry, the severity and the reason
are those written in its branch. -/
theorem loop_last_excluding (item : Item) (userPreferences : List UserPreference)
    (result : MatchResult) (h : checkItemCompatibility item userPreferences = .ok result)
    (hinc : result.isCompatible = false) :
    ∃ p ∈ userPreferences, ∃ r, p.restrictionId = some r ∧
      checkForConflict item r = .ok true ∧
      result.conflictingRestrictions.getLast? =
        some ⟨r.name, p.severity, if r.isAllergen then "allergen" else r.category⟩ ∧
      result.severity = some p.severity ∧
      result.reason = some (if r.isAllergen then "Contains allergen: " ++ r.name
        else "Violates " ++ r.category ++ " restriction: " ++ r.name) := by
  refine loop_invariant item
    (fun res => res.isCompatible = false →
      ∃ p ∈ userPreferences, ∃ r, p.restrictionId = some r ∧
        checkForConflict item r = .ok true ∧
        res.conflictingRestrictions.getLast? =
          some ⟨r.name, p.severity, if r.isAllergen then "allergen" else r.category⟩ ∧
        res.severity = some p.severity ∧
        res.reason = some (if r.isAllergen then "Contains allergen: " ++ r.name
          else "Violates " ++ r.category ++ " restriction: " ++ r.name))
    userPreferences ?_ ?_ ?_ initialResult result (fun h0 => by cases h0) h hinc
  · intro p hp r res hr hc ha _ _
    exact ⟨p, hp, r, hr, hc, by simp [excludeAsAllergen, ha], rfl,
      by simp [excludeAsAllergen, ha]⟩
  · intro p hp r res hr hc ha _ _ _
    exact ⟨p, hp, r, hr, hc, by simp [excludeAsStrict, ha], rfl,
      by simp [excludeAsStrict, ha]⟩
  · intro p _ r res _ _ _ _ hres h0
    exact hres h0

/-! ## Lemmas on the batch result -/

/-- The `results` object after the loop body, field by field. -/
theorem loopStep_results_eq (clock : Nat → Int) (userId : String) (item : Item)
    (matchResult : MatchResult) (st : LoopState) :
    (loopStep clock userId item matchResult st).results = {
      compatibleItems := st.results.compatibleItems ++
        (if matchResult.isCompatible then [compatibleRecord item matchResult] else [])
      incompatibleItems := st.results.incompatibleItems ++
        (if matchResult.isCompatible then [] else [excludedRecord item matchResult])
      warnings := st.results.warnings ++ matchResult.warnings
      matchingTime := st.results.matchingTime
      totalProcessed := st.results.totalProcessed
      strictExclusions := st.results.strictExclusions.map
        (· + (if matchResult.isCompatible then 0
          else if matchResult.severity = some "strict" then 1 else 0))
      mildExclusions := st.results.mildExclusions.map
        (· + (if matchResult.isCompatible then 0
          else if matchResult.severity = some "strict" then 0 else 1)) } := by
  cases hc : matchResult.isCompatible <;> cases hwarn : matchResult.warnings <;>
    by_cases hs : matchResult.severity = some "strict" <;>
    simp [loopStep, hc, hs, hwarn, excludedRecord, compatibleRecord]

/-- A loop that returns has a match result for every item and is the loop body
applied to the items with these match results. -/
theorem processItems_eq_loopSteps (clock : Nat → Int) (userId : String)
    (userPreferences : List UserPreference) (items : List Item) (st : LoopState)
    (result : BatchResult)
    (h : (processItems clock userId userPreferences items st).1 = .ok result) :
    ∃ matchResults : List MatchResult,
      List.Forall₂ (fun item matchResult =>
        checkItemCompatibility item userPreferences = .ok matchResult) items matchResults ∧
      result = (loopSteps clock userId (items.zip matchResults) st).results := by
  induction items generalizing st with
  | nil =>
    rw [processItems] at h
    simp only [Except.ok.injEq] at h
    exact ⟨[], List.Forall₂.nil, by rw [← h]; rfl⟩
  | cons item rest ih =>
    cases hc : checkItemCompatibility item userPreferences with
    | error e =>
      rw [processItems_cons_error _ _ _ _ _ _ e hc] at h
      cases h
    | ok matchResult =>
      rw [processItems_cons_ok _ _ _ _ _ _ matchResult hc] at h
      obtain ⟨matchResults, hall, hres⟩ := ih _ h
      exact ⟨matchResult :: matchResults, List.Forall₂.cons hc hall, by rw [hres]; rfl⟩

/-- The number of excluded pairs with severity strict, and of the other
excluded pairs, add up to the number of excluded pairs. -/
theorem countP_excluded_split (pairs : List (Item × MatchResult)) :
    pairs.countP (fun p => !p.2.isCompatible && decide (p.2.severity = some "strict")) +
      pairs.countP (fun p => !p.2.isCompatible && !decide (p.2.severity = some "strict")) =
      (pairs.filter fun p => !p.2.isCompatible).length := by
  induction pairs with
  | nil => rfl
  | cons p rest ih =>
    cases hc : p.2.isCompatible <;> by_cases hs : p.2.severity = some "strict" <;>
      simp [List.countP_cons, List.filter_cons, hc, hs] <;> omega

/-- The loop body applied to items with known match results: the records of
the compatible pairs and of the excluded pairs are appended in order, every
pair's warnings are appended, and the counters count the excluded pairs. -/
theorem loopSteps_results (clock : Nat → Int) (userId : String)
    (pairs : List (Item × MatchResult)) (st : LoopState) :
    (loopSteps clock userId pairs st).results = {
      compatibleItems := st.results.compatibleItems ++
        (pairs.filter fun p => p.2.isCompatible).map fun p => compatibleRecord p.1 p.2
      incompatibleItems := st.results.incompatibleItems ++
        (pairs.filter fun p => !p.2.isCompatible).map fun p => excludedRecord p.1 p.2
      warnings := st.results.warnings ++ (pairs.map fun p => p.2.warnings).flatten
      matchingTime := st.results.matchingTime
      totalProcessed := st.results.totalProcessed
      strictExclusions := st.results.strictExclusions.map
        (· + pairs.countP fun p =>
          !p.2.isCompatible && decide (p.2.severity = some "strict"))
      mildExclusions := st.results.mildExclusions.map
        (· + pairs.countP fun p =>
          !p.2.isCompatible && !decide (p.2.severity = some "strict")) } := by
  induction pairs generalizing st with
  | nil =>
    obtain ⟨⟨c, x, w, t, n, s, m⟩, log, reads⟩ := st
    cases s <;> cases m <;> simp [loopSteps]
  | cons p rest ih =>
    obtain ⟨item, matchResult⟩ := p
    rw [loopSteps, ih, loopStep_results_eq]
    obtain ⟨⟨c, x, w, t, n, s, m⟩, log, reads⟩ := st
    cases s <;> cases m <;>
      cases hc : matchResult.isCompatible <;>
      by_cases hsev : matchResult.severity = some "strict" <;>
      simp [List.countP_cons, List.filter_cons, hc, hsev, Nat.add_assoc, Nat.add_comm]

/-- A call with at least one preference that returns: there is a match result
for every item, and the returned lists, warnings and counters are those of the
loop body applied to the items with these match results. -/
theorem batch_result_of_returned (clock : Nat → Int) (userId : String)
    (userPreferences : List UserPreference) (inventoryItems : List Item)
    (mismatchLog : List MismatchLogEntry) (result : BatchResult)
    (hprefs : userPreferences ≠ [])
    (h : (matchUserDietaryNeeds (.ok (some userPreferences)) clock userId inventoryItems
      mismatchLog).1 = .ok result) :
    ∃ matchResults : List MatchResult,
      List.Forall₂ (fun item matchResult =>
        checkItemCompatibility item userPreferences = .ok matchResult)
        inventoryItems matchResults ∧
      result.compatibleItems =
        ((inventoryItems.zip matchResults).filter fun p => p.2.isCompatible).map
          (fun p => compatibleRecord p.1 p.2) ∧
      result.incompatibleItems =
        ((inventoryItems.zip matchResults).filter fun p => !p.2.isCompatible).map
          (fun p => excludedRecord p.1 p.2) ∧
      result.warnings = (matchResults.map fun m => m.warnings).flatten ∧
      result.totalProcessed = inventoryItems.length ∧
      result.strictExclusions = some ((inventoryItems.zip matchResults).countP fun p =>
        !p.2.isCompatible && decide (p.2.severity = some "strict")) ∧
      result.mildExclusions = some ((inventoryItems.zip matchResults).countP fun p =>
        !p.2.isCompatible && !decide (p.2.severity = some "strict")) := by
  have hne : userPreferences.length ≠ 0 := fun h0 => hprefs (List.length_eq_zero.mp h0)
  simp only [matchUserDietaryNeeds, if_neg hne] at h
  generalize hloop : processItems clock userId userPreferences inventoryItems
    ⟨{ compatibleItems := [], incompatibleItems := [], warnings := [], matchingTime := 0,
       totalProcessed := inventoryItems.length, strictExclusions := some 0,
       mildExclusions := some 0 }, mismatchLog, 1⟩ = looped at h
  obtain ⟨out, log, reads⟩ := looped
  cases out with
  | error e => simp at h
  | ok r =>
    simp only [Except.ok.injEq] at h
    obtain ⟨matchResults, hall, hr⟩ := processItems_eq_loopSteps clock userId userPreferences
      inventoryItems _ r (by rw [hloop])
    rw [loopSteps_results] at hr
    have hsnd : (inventoryItems.zip matchResults).map Prod.snd = matchResults :=
      List.map_snd_zip _ _ (le_of_eq hall.length_eq.symm)
    have hwarn : ((inventoryItems.zip matchResults).map fun p => p.2.warnings) =
        matchResults.map fun m => m.warnings := by
      conv_rhs => rw [← hsnd]
      rw [List.map_map]
      rfl
    subst h
    subst hr
    refine ⟨matchResults, hall, ?_, ?_, ?_, ?_, ?_, ?_⟩ <;> simp [hwarn]

/-- The batch `[Pork Chops, White Rice]` for `[Kosher (strict), Vegan (mild)]`:
Pork Chops is excluded, its Vegan warning is in the aggregate warnings, White
Rice is compatible. -/
theorem kosher_vegan_batch :
    (matchUserDietaryNeeds (.ok (some [⟨some kosher, "strict"⟩, ⟨some vegan, "mild"⟩]))
      (fun k => k) "u1" [porkChops, whiteRice] []).1 = .ok kosherVeganBatch := by
  have hw : checkItemCompatibility whiteRice
      [⟨some kosher, "strict"⟩, ⟨some vegan, "mild"⟩] = .ok initialResult := rfl
  simp [matchUserDietaryNeeds, processItems, scenario_c_result, hw, kosherVeganBatch,
    compatibleRecord, excludedRecord, scenarioCResult, initialResult]

/-! ## Lemmas on the stock flag -/

/-- The pre-save hook establishes the invariant of the stock flag. -/
theorem preSave_flagAgrees (doc : Inventory) : doc.preSave.flagAgrees := by
  simp [Inventory.preSave, Inventory.flagAgrees]

/-- The method `updateStock` writes the quantity, leaves the minimum and
establishes the invariant of the stock flag, also for the quantity 0. -/
theorem updateStock_flagAgrees (doc : Inventory) (newQuantity : Nat) :
    (doc.updateStock newQuantity).quantity = newQuantity ∧
      (doc.updateStock newQuantity).minimum_stock_level = doc.minimum_stock_level ∧
      (doc.updateStock newQuantity).flagAgrees := by
  simp [Inventory.updateStock, Inventory.preSave, Inventory.flagAgrees]

/-- The examples of the tests: quantity 5 with minimum 10 is saved with the flag
set, quantity 25 with minimum 10 with the flag cleared. -/
theorem preSave_examples :
    (Inventory.preSave ⟨5, 10, false⟩).low_stock = true ∧
      (Inventory.preSave ⟨25, 10, true⟩).low_stock = false := by
  decide

/-- The pre-update hook establishes the invariant when the update sets both
the quantity and the minimum to numbers other than 0, whatever `this` holds. -/
theorem findOneAndUpdate_flagAgrees_of_both_set (thisQuantity thisMinimum : Option Nat)
    (doc : Inventory) (quantity minimum : Nat) (lowStock : Option Bool)
    (hq : 0 < quantity) (hm : 0 < minimum) :
    (Inventory.findOneAndUpdate thisQuantity thisMinimum doc
      ⟨some quantity, some minimum, lowStock⟩).flagAgrees := by
  obtain ⟨q, rfl⟩ := Nat.exists_eq_succ_of_ne_zero (Nat.pos_iff_ne_zero.mp hq)
  obtain ⟨m, rfl⟩ := Nat.exists_eq_succ_of_ne_zero (Nat.pos_iff_ne_zero.mp hm)
  simp [Inventory.findOneAndUpdate, Inventory.preUpdate, Inventory.apply, Inventory.flagAgrees,
    jsOr, jsLessEq]

/-- The pre-update hook in query middleware, where `this` has no `quantity` and
no `minimum_stock_level`: an update of the quantity to a number other than 0
compares the new quantity with 10, not with the stored minimum. -/
theorem findOneAndUpdate_quantity_only (doc : Inventory) (quantity : Nat) (hq : 0 < quantity) :
    Inventory.findOneAndUpdate none none doc ⟨some quantity, none, none⟩ =
      ⟨quantity, doc.minimum_stock_level, decide (quantity ≤ 10)⟩ := by
  obtain ⟨q, rfl⟩ := Nat.exists_eq_succ_of_ne_zero (Nat.pos_iff_ne_zero.mp hq)
  simp [Inventory.findOneAndUpdate, Inventory.preUpdate, Inventory.apply, jsOr, jsLessEq]

/-! ## Lemmas on the replacement of the stored preferences -/

/-- The document built for a submitted preference with truthy `restrictionId`
and `severity`. -/
theorem newPreferences_of_complete (userId : String) (preferences : List SubmittedPreference)
    (h : ∀ pref ∈ preferences,
      truthyString pref.restrictionId = true ∧ truthyString pref.severity = true) :
    newPreferences userId preferences = preferences.map fun pref =>
      ⟨userId, pref.asked.1, pref.asked.2.1, pref.asked.2.2, true⟩ := by
  induction preferences with
  | nil => rfl
  | cons pref rest ih =>
    obtain ⟨h1, h2⟩ := h pref (List.mem_cons_self pref rest)
    rw [newPreferences, ih fun q hq => h q (List.mem_cons_of_mem pref hq)]
    simp [h1, h2, SubmittedPreference.asked]

/-- Documents that clash neither with the store nor with each other are all
inserted, in order. -/
theorem insertOrdered_of_fresh (docs store : List PreferenceDoc)
    (hstore : ∀ doc ∈ docs, violatesUniqueIndex store doc = false)
    (hdocs : docs.Pairwise fun a b => ¬ (a.userId = b.userId ∧ a.restrictionId = b.restrictionId)) :
    insertOrdered docs store = (none, store ++ docs) := by
  induction docs generalizing store with
  | nil => simp [insertOrdered]
  | cons doc rest ih =>
    rw [List.pairwise_cons] at hdocs
    rw [insertOrdered, hstore doc (List.mem_cons_self doc rest)]
    simp only [Bool.false_eq_true, if_false]
    rw [ih (store ++ [doc]) ?_ hdocs.2, List.append_assoc, List.singleton_append]
    intro d hd
    have h1 := hstore d (List.mem_cons_of_mem doc hd)
    have h2 := hdocs.1 d hd
    simp only [violatesUniqueIndex, List.any_append, List.any_cons, List.any_nil,
      Bool.or_false, Bool.or_eq_false_iff, decide_eq_false_iff_not] at h1 ⊢
    exact ⟨h1, h2⟩

/-- After the deactivation the user has no active document. -/
theorem findActive_deactivateAll (userId : String) (store : List PreferenceDoc) :
    findActive userId (deactivateAll userId store) = [] := by
  simp only [findActive, deactivateAll, List.filter_eq_nil_iff, List.mem_map]
  rintro doc ⟨stored, -, rfl⟩
  by_cases hu : stored.userId = userId <;> simp [hu]

/-- The insertion ends with a duplicate-key error when one of the documents has
the pair of a stored document. -/
theorem insertOrdered_error_of_clash (docs store : List PreferenceDoc)
    (h : ∃ doc ∈ docs, violatesUniqueIndex store doc = true) :
    (insertOrdered docs store).1 = some StoreError.duplicateKey := by
  induction docs generalizing store with
  | nil =>
    obtain ⟨doc, hd, -⟩ := h
    cases hd
  | cons doc rest ih =>
    rw [insertOrdered]
    by_cases hv : violatesUniqueIndex store doc = true
    · rw [if_pos hv]
    · rw [if_neg hv]
      apply ih
      obtain ⟨d, hd, hclash⟩ := h
      rcases List.mem_cons.mp hd with rfl | hd
      · exact absurd hclash hv
      · refine ⟨d, hd, ?_⟩
        simp only [violatesUniqueIndex, List.any_append, Bool.or_eq_true] at hclash ⊢
        exact Or.inl hclash

/-- The replacement works for a user who has no stored document, active or
not, for any of the submitted restrictions: when the submitted preferences have
truthy and distinct `restrictionId`s, a severity of the enum and notes of at
most 500 code units, the request succeeds, the stored documents of the user are
deactivated and the active preferences of the user are the submitted ones. -/
theorem replace_all_when_fresh (userId : String) (preferences : List SubmittedPreference)
    (store : List PreferenceDoc)
    (hids : ∀ pref ∈ preferences, truthyString pref.restrictionId = true)
    (hsev : ∀ pref ∈ preferences, pref.severity = some "mild" ∨ pref.severity = some "strict")
    (hnotes : ∀ pref ∈ preferences, utf16Length pref.asked.2.2 ≤ 500)
    (hdistinct : (preferences.map fun pref => pref.restrictionId).Nodup)
    (hfresh : ∀ doc ∈ store, doc.userId = userId →
      ∀ pref ∈ preferences, pref.restrictionId ≠ some doc.restrictionId) :
    updateUserPreferences userId (some preferences) store =
        (UpdateResponse.success (newPreferences userId preferences),
          deactivateAll userId store ++ newPreferences userId preferences) ∧
      activePreferences userId (updateUserPreferences userId (some preferences) store).2 =
        preferences.map fun pref => pref.asked := by
  have hcomplete : ∀ pref ∈ preferences,
      truthyString pref.restrictionId = true ∧ truthyString pref.severity = true := by
    intro pref hp
    refine ⟨hids pref hp, ?_⟩
    rcases hsev pref hp with h | h <;> rw [h] <;> decide
  have hdocs := newPreferences_of_complete userId preferences hcomplete
  have hrid : ∀ pref ∈ preferences, pref.restrictionId = some pref.asked.1 := by
    intro pref hp
    have := hids pref hp
    cases hr : pref.restrictionId with
    | none => rw [hr] at this; cases this
    | some r => simp [SubmittedPreference.asked, hr]
  have hvalid : (newPreferences userId preferences).all validates = true := by
    rw [hdocs, List.all_eq_true]
    intro doc hd
    obtain ⟨pref, hp, rfl⟩ := List.mem_map.mp hd
    have h500 := hnotes pref hp
    rcases hsev pref hp with h | h <;>
      simp [validates, SubmittedPreference.asked, h] <;> simpa [SubmittedPreference.asked] using h500
  have hstore : ∀ doc ∈ newPreferences userId preferences,
      violatesUniqueIndex (deactivateAll userId store) doc = false := by
    rw [hdocs]
    intro doc hd
    obtain ⟨pref, hp, rfl⟩ := List.mem_map.mp hd
    simp only [violatesUniqueIndex, deactivateAll, List.any_map, List.any_eq_false,
      Function.comp, decide_eq_true_eq]
    rintro stored hs ⟨hu, hr⟩
    have hu2 : stored.userId = userId := by
      by_cases h : stored.userId = userId
      · exact h
      · simp [h] at hu
    have hr2 : stored.restrictionId = pref.asked.1 := by
      simpa [hu2] using hr
    exact hfresh stored hs hu2 pref hp (by rw [hrid pref hp, hr2])
  have hpair : (newPreferences userId preferences).Pairwise fun a b =>
      ¬ (a.userId = b.userId ∧ a.restrictionId = b.restrictionId) := by
    rw [hdocs, List.pairwise_map]
    rw [List.Nodup, List.pairwise_map] at hdistinct
    refine hdistinct.imp_of_mem ?_
    intro a b ha hb hab hclash
    exact hab (by rw [hrid a ha, hrid b hb]; exact congrArg some hclash.2)
  have hins := insertOrdered_of_fresh _ _ hstore hpair
  have hactive : findActive userId
      (deactivateAll userId store ++ newPreferences userId preferences) =
      newPreferences userId preferences := by
    have hall : findActive userId (newPreferences userId preferences) =
        newPreferences userId preferences := by
      rw [findActive, List.filter_eq_self, hdocs]
      intro doc hd
      obtain ⟨pref, -, rfl⟩ := List.mem_map.mp hd
      simp
    rw [findActive, List.filter_append]
    rw [findActive] at hall
    have hnil := findActive_deactivateAll userId store
    rw [findActive] at hnil
    rw [hnil, hall, List.nil_append]
  have hcall : updateUserPreferences userId (some preferences) store =
      (UpdateResponse.success (newPreferences userId preferences),
        deactivateAll userId store ++ newPreferences userId preferences) := by
    by_cases hlen : (newPreferences userId preferences).length > 0
    · simp only [updateUserPreferences, insertMany, hvalid, if_true, hins, hlen, hactive]
    · have hnil : newPreferences userId preferences = [] :=
        List.length_eq_zero.mp (Nat.eq_zero_of_not_pos hlen)
      simp [updateUserPreferences, hnil, findActive_deactivateAll]
  refine ⟨hcall, ?_⟩
  rw [hcall, activePreferences, hactive, hdocs, List.map_map]
  rfl

/-- The replacement fails for a user who holds a stored document, active or
not, for one of the submitted restrictions: the documents validate, one of
them has the pair of a stored document, and the response is the 500 of the
`catch`. -/
theorem replace_all_fails_when_held (userId : String) (preferences : List SubmittedPreference)
    (store : List PreferenceDoc)
    (hvalid : (newPreferences userId preferences).all validates = true)
    (hheld : ∃ doc ∈ newPreferences userId preferences, ∃ stored ∈ store,
      stored.userId = userId ∧ doc.userId = userId ∧
        stored.restrictionId = doc.restrictionId) :
    (updateUserPreferences userId (some preferences) store).1 = UpdateResponse.serverError := by
  obtain ⟨doc, hd, stored, hs, hu, hdu, hr⟩ := hheld
  have hclash : ∃ doc ∈ newPreferences userId preferences,
      violatesUniqueIndex (deactivateAll userId store) doc = true := by
    refine ⟨doc, hd, ?_⟩
    simp only [violatesUniqueIndex, deactivateAll, List.any_map, List.any_eq_true,
      Function.comp, decide_eq_true_eq]
    exact ⟨stored, hs, by simp [hu, hdu, hr]⟩
  have herr := insertOrdered_error_of_clash _ _ hclash
  have hlen : (newPreferences userId preferences).length > 0 :=
    List.length_pos_of_mem hd
  simp only [updateUserPreferences, insertMany, hvalid, if_true, hlen, herr]

/-! ## Lemmas on the conflict keywords of the table -/

/-- Every conflict keyword of an entry of the table contains a space or is
delimited by word characters, and matches no empty text. -/
theorem conflict_keywords_of_entry (key : String) (pattern : Pattern)
    (h : conflictPatterns key = some pattern) :
    ∀ k ∈ pattern.conflicts,
      (' ' ∈ k.data ∨ wordDelimited k.data = true) ∧ containsKeyword "" k = false := by
  unfold conflictPatterns at h
  split_ifs at h <;> cases h <;> decide

/-- A conflict keyword of the table matches the text of `x?.toLowerCase() || ''`
exactly when the property is there and the keyword matches its lowercase form
by the keyword rule. -/
theorem containsKeyword_lowerOrEmpty (key : String) (pattern : Pattern)
    (h : conflictPatterns key = some pattern) (k : String) (hk : k ∈ pattern.conflicts)
    (value : Option String) :
    containsKeyword (lowerOrEmpty value) k = true ↔
      ∃ text, value = some text ∧ keywordRule (toLowerCase text) k = true := by
  obtain ⟨hshape, hempty⟩ := conflict_keywords_of_entry key pattern h k hk
  cases value with
  | none => simp [lowerOrEmpty, hempty]
  | some text =>
    rw [lowerOrEmpty,
      containsKeyword_eq_keywordRule (toLowerCase text) k (toLowerCase_no_capital text) hshape]
    simp

/-! ## Lemmas on the fields of the emitted records -/

/-- Whenever `matchUserDietaryNeeds` returns a result, every input item is the
`item` of a record of `compatibleItems` or of `incompatibleItems`, and that
record has every field of the item with the same value, for every field name
other than the names written after the spread. -/
theorem item_fields_kept
    (fetch : Except JsError (Option (List UserPreference))) (clock : Nat → Int)
    (userId : String) (inventoryItems : List Item) (mismatchLog : List MismatchLogEntry)
    (result : BatchResult)
    (h : (matchUserDietaryNeeds fetch clock userId inventoryItems mismatchLog).1 =
      .ok result) :
    ∀ item ∈ inventoryItems,
      (∃ c ∈ result.compatibleItems, c.item = item ∧
        ∀ key, key ≠ "matchConfidence" → key ≠ "warnings" → c.get key = item.get key) ∨
      (∃ x ∈ result.incompatibleItems, x.item = item ∧
        ∀ key, key ≠ "exclusionReason" → key ≠ "severity" →
          key ≠ "conflictingRestrictions" → x.get key = item.get key) := by
  have hc : ∀ (c : CompatibleItem) (key : String), key ≠ "matchConfidence" →
      key ≠ "warnings" → c.get key = c.item.get key := by
    intro c key h1 h2
    simp [CompatibleItem.get, h1, h2]
  have hx : ∀ (x : IncompatibleItem) (key : String), key ≠ "exclusionReason" →
      key ≠ "severity" → key ≠ "conflictingRestrictions" → x.get key = x.item.get key := by
    intro x key h1 h2 h3
    simp [IncompatibleItem.get, h1, h2, h3]
  have fast : ∀ r : BatchResult,
      r.compatibleItems = inventoryItems.map (fun item => ⟨item, none, none⟩) →
      ∀ item ∈ inventoryItems,
        (∃ c ∈ r.compatibleItems, c.item = item ∧
          ∀ key, key ≠ "matchConfidence" → key ≠ "warnings" → c.get key = item.get key) ∨
        (∃ x ∈ r.incompatibleItems, x.item = item ∧
          ∀ key, key ≠ "exclusionReason" → key ≠ "severity" →
            key ≠ "conflictingRestrictions" → x.get key = item.get key) := by
    intro r hr item hitem
    refine Or.inl ⟨⟨item, none, none⟩, ?_, rfl, fun key h1 h2 => hc _ key h1 h2⟩
    rw [hr]
    exact List.mem_map.mpr ⟨item, hitem, rfl⟩
  rcases fetch with e | prefs
  · simp [matchUserDietaryNeeds] at h
  · cases prefs with
    | none =>
      simp only [matchUserDietaryNeeds, Except.ok.injEq] at h
      exact fast result (by rw [← h])
    | some userPreferences =>
      by_cases h0 : userPreferences.length = 0
      · simp only [matchUserDietaryNeeds, if_pos h0, Except.ok.injEq] at h
        exact fast result (by rw [← h])
      · simp only [matchUserDietaryNeeds, if_neg h0] at h
        generalize hloop : processItems clock userId userPreferences inventoryItems
          ⟨{ compatibleItems := [], incompatibleItems := [], warnings := [], matchingTime := 0,
             totalProcessed := inventoryItems.length, strictExclusions := some 0,
             mildExclusions := some 0 }, mismatchLog, 1⟩ = looped at h
        obtain ⟨out, log, reads⟩ := looped
        cases out with
        | error e => simp at h
        | ok r =>
          simp only [Except.ok.injEq] at h
          obtain ⟨compatible, excluded, h1, h2, h3⟩ :=
            processItems_records clock userId userPreferences inventoryItems _ r log reads hloop
          simp only [List.nil_append] at h1 h2
          subst h
          intro item hitem
          rcases h3 item hitem with ⟨c, hcm, hci⟩ | ⟨x, hxm, hxi⟩
          · refine Or.inl ⟨c, by simpa [h1] using hcm, hci, fun key k1 k2 => ?_⟩
            rw [hc c key k1 k2, hci]
          · refine Or.inr ⟨x, by simpa [h2] using hxm, hxi, fun key k1 k2 k3 => ?_⟩
            rw [hx x key k1 k2 k3, hxi]

/-! ## Lemmas on the mild conflict with a non-allergen -/

/-- The mild non-allergen rule for lists whose other lookups all return no
conflict. When one resolved `mild` preference on a non-allergen restriction `r`
conflicts with the item and `checkForConflict` returns false for every other
resolved preference, `checkItemCompatibility` returns a compatible result whose
warnings are exactly `["May not align with <r.name> preference"]` and whose
confidence is 0.7, and the loop of `matchUserDietaryNeeds` appends the item to
`compatibleItems` with that warning list and `matchConfidence` 0.7, leaving
`incompatibleItems`, the counters and the mismatch log as they are. -/
theorem mild_warning_when_no_other_lookup_conflicts (item : Item) (pre post : List UserPreference)
    (p : UserPreference) (r : Restriction)
    (hr : p.restrictionId = some r) (hs : p.severity = "mild") (ha : r.isAllergen = false)
    (hc : checkForConflict item r = .ok true)
    (hothers : ∀ q ∈ pre ++ post, ∀ r', q.restrictionId = some r' →
      checkForConflict item r' = .ok false) :
    checkItemCompatibility item (pre ++ p :: post) = .ok {
        isCompatible := true
        confidence := 0.7
        warnings := ["May not align with " ++ r.name ++ " preference"]
        reason := none
        severity := none
        conflictingRestrictions := [] } ∧
      (∀ (clock : Nat → Int) (userId : String) (rest : List Item) (st : LoopState),
        processItems clock userId (pre ++ p :: post) (item :: rest) st =
          processItems clock userId (pre ++ p :: post) rest
            { st with results := { st.results with
                compatibleItems := st.results.compatibleItems ++
                  [{ item := item, matchConfidence := some 0.7,
                     warnings := some ["May not align with " ++ r.name ++ " preference"] }]
                warnings := st.results.warnings ++
                  ["May not align with " ++ r.name ++ " preference"] } }) ∧
      ∀ (clock : Nat → Int) (userId : String) (mismatchLog : List MismatchLogEntry),
        matchUserDietaryNeeds (.ok (some (pre ++ p :: post))) clock userId [item] mismatchLog =
          (.ok {
            compatibleItems :=
              [{ item := item, matchConfidence := some 0.7,
                 warnings := some ["May not align with " ++ r.name ++ " preference"] }]
            incompatibleItems := []
            warnings := ["May not align with " ++ r.name ++ " preference"]
            matchingTime := clock 1 - clock 0
            totalProcessed := 1
            strictExclusions := some 0
            mildExclusions := some 0 }, mismatchLog) := by
  have hpre : ∀ q ∈ pre, ∀ r', q.restrictionId = some r' →
      checkForConflict item r' = .ok false :=
    fun q hq => hothers q (List.mem_append_left post hq)
  have hpost : ∀ q ∈ post, ∀ r', q.restrictionId = some r' →
      checkForConflict item r' = .ok false :=
    fun q hq => hothers q (List.mem_append_right pre hq)
  have hne : p.severity ≠ "strict" := by rw [hs]; decide
  have hmin : min (1.0 : ℚ) 0.7 = 0.7 := by norm_num
  have hcheck : checkItemCompatibility item (pre ++ p :: post) = .ok {
        isCompatible := true
        confidence := 0.7
        warnings := ["May not align with " ++ r.name ++ " preference"]
        reason := none
        severity := none
        conflictingRestrictions := [] } := by
    unfold checkItemCompatibility
    rw [loop_skip_nonconflicting item pre _ _ hpre,
      loop_mild_step item p r post _ hr hc ha hne]
    have h := loop_skip_nonconflicting item post [] { initialResult with
      warnings := initialResult.warnings ++ ["May not align with " ++ r.name ++ " preference"]
      confidence := min initialResult.confidence 0.7 } hpost
    rw [List.append_nil] at h
    rw [h, checkItemCompatibilityLoop]
    simp [initialResult, hmin]
  have hstep : ∀ (clock : Nat → Int) (userId : String) (rest : List Item) (st : LoopState),
      processItems clock userId (pre ++ p :: post) (item :: rest) st =
        processItems clock userId (pre ++ p :: post) rest
          { st with results := { st.results with
              compatibleItems := st.results.compatibleItems ++
                [{ item := item, matchConfidence := some 0.7,
                   warnings := some ["May not align with " ++ r.name ++ " preference"] }]
              warnings := st.results.warnings ++
                ["May not align with " ++ r.name ++ " preference"] } } := by
    intro clock userId rest st
    rw [processItems, hcheck]
    simp
  refine ⟨hcheck, hstep, ?_⟩
  intro clock userId mismatchLog
  have hlen : (pre ++ p :: post).length ≠ 0 := by simp
  simp only [matchUserDietaryNeeds, hstep, if_neg hlen]
  simp [processItems]

/-- Scenario B: the single preference Vegetarian/mild against Ground Beef in
the category Proteins. -/
theorem scenario_b_result :
    checkForConflict groundBeef vegetarian = .ok true ∧
      checkItemCompatibility groundBeef [⟨some vegetarian, "mild"⟩] = .ok {
        isCompatible := true
        confidence := 0.7
        warnings := ["May not align with Vegetarian preference"]
        reason := none
        severity := none
        conflictingRestrictions := [] } ∧
      ∀ (clock : Nat → Int) (userId : String) (mismatchLog : List MismatchLogEntry),
        matchUserDietaryNeeds (.ok (some [⟨some vegetarian, "mild"⟩])) clock userId
            [groundBeef] mismatchLog =
          (.ok {
            compatibleItems :=
              [{ item := groundBeef, matchConfidence := some 0.7,
                 warnings := some ["May not align with Vegetarian preference"] }]
            incompatibleItems := []
            warnings := ["May not align with Vegetarian preference"]
            matchingTime := clock 1 - clock 0
            totalProcessed := 1
            strictExclusions := some 0
            mildExclusions := some 0 }, mismatchLog) :=
  have h := mild_warning_when_no_other_lookup_conflicts groundBeef [] [] ⟨some vegetarian, "mild"⟩
    vegetarian rfl rfl rfl (by decide) (by simp)
  ⟨by decide, h.1, h.2.2⟩

/-! ## Lemmas on the early return -/

/-- A compatible result of the loop was reached without the early return, so
the loop without the early return reaches the same result. -/
theorem loopWithoutEarlyReturn_of_compatible (item : Item) (l : List UserPreference)
    (result final : MatchResult) (h : checkItemCompatibilityLoop item l result = .ok final)
    (hcompatible : final.isCompatible = true) :
    loopWithoutEarlyReturn item l result = .ok final := by
  induction l generalizing result with
  | nil =>
    rw [checkItemCompatibilityLoop] at h
    rw [loopWithoutEarlyReturn, h]
  | cons p l ih =>
    rcases preference_cases item p with hr | ⟨r, e, hr, hc⟩ | ⟨r, hr, hc⟩ |
      ⟨r, hr, hc, ha, hs⟩ | ⟨r, hr, hc, ha, hs⟩ | ⟨r, hr, hc, ha, hs⟩ | ⟨r, hr, hc, ha, hs⟩
    · rw [loop_cons_unresolved item p l result hr] at h
      rw [loopWithoutEarlyReturn_cons_unresolved item p l result hr]
      exact ih result h
    · rw [loop_cons_error item p r l result e hr hc] at h
      cases h
    · rw [loop_cons_no_conflict item p r l result hr hc] at h
      rw [loopWithoutEarlyReturn_cons_no_conflict item p r l result hr hc]
      exact ih result h
    · rw [loop_cons_allergen_strict item p r l result hr hc ha hs] at h
      cases h
      cases hcompatible
    · rw [loop_cons_allergen_other item p r l result hr hc ha hs] at h
      rw [loopWithoutEarlyReturn_cons_allergen item p r l result hr hc ha]
      exact ih _ h
    · rw [loop_cons_strict item p r l result hr hc ha hs] at h
      rw [loopWithoutEarlyReturn_cons_strict item p r l result hr hc ha hs]
      exact ih _ h
    · rw [loop_cons_mild item p r l result hr hc ha hs] at h
      rw [loopWithoutEarlyReturn_cons_mild item p r l result hr hc ha hs]
      exact ih _ h

/-- The evaluator without the early return on Peanut Pork Skewers against
Nut-Free/strict and Kosher/strict. -/
theorem skewers_full_result :
    checkItemCompatibilityWithoutEarlyReturn peanutPorkSkewers
        [⟨some nutFree, "strict"⟩, ⟨some kosher, "strict"⟩] = .ok skewersFullResult := by
  have hk : checkForConflict peanutPorkSkewers kosher = .ok true := by decide
  have hn : checkForConflict peanutPorkSkewers nutFree = .ok true := by decide
  simp [checkItemCompatibilityWithoutEarlyReturn, loopWithoutEarlyReturn, hk, hn,
    initialResult, skewersFullResult]
  simp [kosher, nutFree]

/-! ## The claims -/

/-- C1. Allergen supremacy, evaluated where the code breaks it. Peanut Butter
conflicts with the allergen Nut-Free, yet for the preference list
`[constructor (mild), Nut-Free (strict)]` the property read
`conflictPatterns['constructor']` finds `Object.prototype.constructor`,
`pattern.safe.some` throws, `checkItemCompatibility` fails and
`matchUserDietaryNeeds` throws instead of placing the item in
`incompatibleItems`. -/
theorem allergen_supremacy_inherited_key_failure :
    checkForConflict peanutButter nutFree = .ok true ∧
      checkItemCompatibility peanutButter
        [⟨some constructorRestriction, "mild"⟩, ⟨some nutFree, "strict"⟩] =
          .error safeUndefinedError ∧
      ∀ (clock : Nat → Int) (userId : String) (mismatchLog : List MismatchLogEntry),
        matchUserDietaryNeeds
          (.ok (some [⟨some constructorRestriction, "mild"⟩, ⟨some nutFree, "strict"⟩]))
          clock userId [peanutButter] mismatchLog = (.error processingError, mismatchLog) := by
  refine ⟨by decide, by decide, ?_⟩
  intro clock userId mismatchLog
  rfl

/-- C2. Strict non-allergen exclusion, evaluated where the code breaks it. Pork
Chops conflict with the strict, non-allergen preference Kosher, yet for the
preference list `[constructor (mild), Kosher (strict)]` the lookup of the
inherited key `constructor` makes `checkItemCompatibility` fail, and
`matchUserDietaryNeeds` throws instead of placing the item in
`incompatibleItems`. -/
theorem strict_exclusion_inherited_key_failure :
    checkForConflict porkChops kosher = .ok true ∧
      checkItemCompatibility porkChops
        [⟨some constructorRestriction, "mild"⟩, ⟨some kosher, "strict"⟩] =
          .error safeUndefinedError ∧
      ∀ (clock : Nat → Int) (userId : String) (mismatchLog : List MismatchLogEntry),
        matchUserDietaryNeeds
          (.ok (some [⟨some constructorRestriction, "mild"⟩, ⟨some kosher, "strict"⟩]))
          clock userId [porkChops] mismatchLog = (.error processingError, mismatchLog) := by
  refine ⟨by decide, by decide, ?_⟩
  intro clock userId mismatchLog
  rfl

/-- C3, evaluated where the code breaks it. Ground Beef in the category Proteins
against `[Vegetarian (mild), constructor (mild)]`: Vegetarian, resolved, mild
and no allergen, is the only preference that conflicts with the item, since the
check of the preference named `constructor` reports no conflict: it throws, the
property read `conflictPatterns['constructor']` finding
`Object.prototype.constructor`. So `checkItemCompatibility` fails after the
Vegetarian warning was added and `matchUserDietaryNeeds` throws: the item is
not placed in `compatibleItems`. With Vegetarian alone the item is kept with
the one warning and `matchConfidence` 0.7. -/
theorem mild_non_allergen_inherited_key_failure :
    checkForConflict groundBeef vegetarian = .ok true ∧
      checkForConflict groundBeef constructorRestriction = .error safeUndefinedError ∧
      checkItemCompatibility groundBeef
        [⟨some vegetarian, "mild"⟩, ⟨some constructorRestriction, "mild"⟩] =
          .error safeUndefinedError ∧
      (∀ (clock : Nat → Int) (userId : String) (mismatchLog : List MismatchLogEntry),
        matchUserDietaryNeeds
          (.ok (some [⟨some vegetarian, "mild"⟩, ⟨some constructorRestriction, "mild"⟩]))
          clock userId [groundBeef] mismatchLog = (.error processingError, mismatchLog)) ∧
      ∀ (clock : Nat → Int) (userId : String) (mismatchLog : List MismatchLogEntry),
        (matchUserDietaryNeeds (.ok (some [⟨some vegetarian, "mild"⟩])) clock userId
            [groundBeef] mismatchLog).1.map (fun r => r.compatibleItems) =
          .ok [{ item := groundBeef, matchConfidence := some 0.7,
                 warnings := some ["May not align with Vegetarian preference"] }] := by
  refine ⟨by decide, by decide, rfl, fun clock userId mismatchLog => rfl, ?_⟩
  intro clock userId mismatchLog
  rw [(scenario_b_result).2.2 clock userId mismatchLog]
  rfl

/-- C4. No-restriction pass-through. When the preference fetch returns nothing
or an empty list, `matchUserDietaryNeeds` returns the input items, untouched and
in the same order, as `compatibleItems`, with no incompatible item, no warning
and `totalProcessed` equal to the number of items, and the mismatch log is
unchanged. -/
theorem no_restriction_pass_through (clock : Nat → Int) (userId : String)
    (inventoryItems : List Item) (mismatchLog : List MismatchLogEntry)
    (fetched : Option (List UserPreference)) (hf : fetched = none ∨ fetched = some []) :
    ∃ result : BatchResult,
      matchUserDietaryNeeds (.ok fetched) clock userId inventoryItems mismatchLog =
        (.ok result, mismatchLog) ∧
      result.compatibleItems = inventoryItems.map (fun item => ⟨item, none, none⟩) ∧
      result.compatibleItems.map (fun c => c.item) = inventoryItems ∧
      result.incompatibleItems = [] ∧
      result.warnings = [] ∧
      result.totalProcessed = inventoryItems.length := by
  rcases hf with rfl | rfl <;>
    exact ⟨_, rfl, rfl, by simp [Function.comp_def], rfl, rfl, rfl⟩

/-- C4, witness: a user whose fetch gives the empty list and the batch of
scenario A. -/
theorem no_restriction_pass_through_witness :
    ∃ result : BatchResult,
      matchUserDietaryNeeds (.ok (some [])) (fun _ => 0) "u1" [peanutButter, whiteRice] [] =
        (.ok result, []) ∧
      result.compatibleItems =
        [peanutButter, whiteRice].map (fun item => ⟨item, none, none⟩) ∧
      result.compatibleItems.map (fun c => c.item) = [peanutButter, whiteRice] ∧
      result.incompatibleItems = [] ∧
      result.warnings = [] ∧
      result.totalProcessed = [peanutButter, whiteRice].length :=
  no_restriction_pass_through (fun _ => 0) "u1" [peanutButter, whiteRice] [] (some [])
    (Or.inr rfl)

/-- C5. Unknown restriction, evaluated where the code breaks it. The name
`constructor` is none of the seven keys of the pattern table, yet
`checkForConflict` does not return false for it: for every item the call fails
with a `TypeError`, because the property read finds the inherited
`Object.prototype.constructor`. The same holds for `Constructor` and
`__proto__`. -/
theorem unknown_restriction_inherited_key_failure (item : Item) :
    toLowerCase "constructor" ∉ patternKeys ∧
      checkForConflict item constructorRestriction = .error safeUndefinedError ∧
      checkForConflict item ⟨"Constructor", "lifestyle", false⟩ = .error safeUndefinedError ∧
      checkForConflict item ⟨"__proto__", "lifestyle", false⟩ = .error safeUndefinedError :=
  ⟨by decide, rfl, rfl, rfl⟩

/-- C6. `Mixed Nuts`, evaluated: no conflict keyword of `nut-free` (peanut,
almond, walnut, cashew, pistachio, hazelnut, pecan, tree nut) occurs in
`mixed nuts` or in `snacks`, so `checkForConflict` returns false for the item
`Mixed Nuts` of the category `Snacks` against Nut-Free. -/
theorem mixed_nuts_not_detected :
    checkForConflict mixedNuts nutFree = .ok false := by
  decide

/-- C7, as the code has it. Keyword matching rule. For every lowercased text
and every keyword `k` of the pattern table other than `gf-`, `containsKeyword`
is true iff `k` contains a space and is a substring of the text, or `k`
contains no space and occurs in the text not directly preceded and not directly
followed by a letter, digit or underscore. For `gf-`, which ends with a
character that is no word character, the closing `\b` asks for the opposite:
`containsKeyword` is true iff `gf-` occurs not directly preceded by a letter,
digit or underscore and directly followed by one. Consequently `Nutmeg Cookies`
does not conflict with Nut-Free, `peanut` does not match the text `peanuts`,
and `tree nut` matches `tree nuts`. -/
theorem keyword_matching_rule (u k : String) (hk : k ∈ tableKeywords) :
    (k ≠ "gf-" →
      containsKeyword (toLowerCase u) k = keywordRule (toLowerCase u) k ∧
      (containsKeyword (toLowerCase u) k = true ↔
        (' ' ∈ k.data ∧ k.data <:+: (toLowerCase u).data) ∨
        (' ' ∉ k.data ∧ ∃ pre post, (toLowerCase u).data = pre ++ k.data ++ post ∧
          isWordAt pre.getLast? = false ∧ isWordAt post.head? = false))) ∧
      (k = "gf-" →
        containsKeyword (toLowerCase u) k = occursBeforeWord k.data none (toLowerCase u).data) ∧
      checkForConflict nutmegCookies nutFree = .ok false ∧
      containsKeyword "peanuts" "peanut" = false ∧
      containsKeyword "tree nuts" "tree nut" = true := by
  have ht := toLowerCase_no_capital u
  have hall : ∀ k ∈ tableKeywords, k ≠ "gf-" → wordDelimited k.data = true := by decide
  refine ⟨fun hne => ?_, fun hgf => ?_, by decide, by decide, by decide⟩
  · have hrule := containsKeyword_eq_keywordRule (toLowerCase u) k ht (Or.inr (hall k hk hne))
    refine ⟨hrule, ?_⟩
    rw [hrule, keywordRule]
    by_cases hs : ' ' ∈ k.data
    · simp [hs]
    · simp only [hs, if_false, false_and, false_or, not_false_eq_true, true_and]
      rw [occursAsWholeWord_iff]
      simp only [lastOr_none_eq_getLast?]
  · subst hgf
    have hs : ¬ includes "gf-" " " = true := by decide
    rw [containsKeyword, if_neg hs]
    exact regexTest_eq_occursBeforeWord "gf-".data none (toLowerCase u).data (by decide)
      (by decide) (by decide) (by decide) ht

/-- C7, witness: the keyword `peanut` of the table against the lowercased text
of `Peanut Butter`. -/
theorem keyword_matching_rule_witness :
    "peanut" ∈ tableKeywords ∧ "peanut" ≠ "gf-" ∧
      containsKeyword (toLowerCase "Peanut Butter") "peanut" =
        keywordRule (toLowerCase "Peanut Butter") "peanut" :=
  ⟨by decide, by decide,
    ((keyword_matching_rule "Peanut Butter" "peanut" (by decide)).1 (by decide)).1⟩

/-- C7, counterexample: `gf-` is a keyword of the table (a safe keyword of
`gluten-free`) for which the rule as stated fails. In the lowercased text
`gf-bread` it is directly followed by a letter and `containsKeyword` is true;
in `gf- bread` it is neither preceded nor followed by a letter, digit or
underscore and `containsKeyword` is false. -/
theorem keyword_rule_fails_for_gf :
    "gf-" ∈ tableKeywords ∧
      toLowerCase "GF-Bread" = "gf-bread" ∧
      ¬ (containsKeyword "gf-bread" "gf-" = true ↔ keywordRule "gf-bread" "gf-" = true) ∧
      containsKeyword "gf-bread" "gf-" = true ∧ keywordRule "gf-bread" "gf-" = false ∧
      containsKeyword "gf- bread" "gf-" = false ∧ keywordRule "gf- bread" "gf-" = true := by
  decide

/-- C8. Scenario A. For the single preference Nut-Free (strict, allergen) and
the batch `[Peanut Butter (Spreads), White Rice (Grains)]`,
`matchUserDietaryNeeds` returns Peanut Butter in `incompatibleItems` with
`exclusionReason` "Contains allergen: Nut-Free" and White Rice in
`compatibleItems` with `matchConfidence` 1.0 and no warnings, whatever the
clock, the user and the log before the call. -/
theorem scenario_a (clock : Nat → Int) (userId : String)
    (mismatchLog : List MismatchLogEntry) :
    (matchUserDietaryNeeds (.ok (some [⟨some nutFree, "strict"⟩])) clock userId
        [peanutButter, whiteRice] mismatchLog).1 = .ok {
      compatibleItems :=
        [{ item := whiteRice, matchConfidence := some 1.0, warnings := some [] }]
      incompatibleItems :=
        [{ item := peanutButter, exclusionReason := some "Contains allergen: Nut-Free",
           severity := some "strict",
           conflictingRestrictions := [⟨"Nut-Free", "strict", "allergen"⟩] }]
      warnings := []
      matchingTime := clock 2 - clock 0
      totalProcessed := 2
      strictExclusions := some 1
      mildExclusions := some 0 } := by
  have hp : checkItemCompatibility peanutButter [⟨some nutFree, "strict"⟩] = .ok {
      isCompatible := false
      confidence := 1.0
      warnings := []
      reason := some "Contains allergen: Nut-Free"
      severity := some "strict"
      conflictingRestrictions := [⟨"Nut-Free", "strict", "allergen"⟩] } := rfl
  have hw : checkItemCompatibility whiteRice [⟨some nutFree, "strict"⟩] = .ok initialResult :=
    rfl
  simp [matchUserDietaryNeeds, processItems, hp, hw, initialResult]

/-- C9, as the code has it. Scenario C: for `[Kosher (strict, religious), Vegan
(mild)]` and Pork Chops in the category Meat, both checks conflict and
`checkItemCompatibility` returns an incompatible result with the reason
"Violates religious restriction: Kosher" and severity strict; the Vegan
conflict, being mild and not an allergen, only adds the warning "May not align
with Vegan preference" and lowers the confidence to 0.7, and
`conflictingRestrictions` holds Kosher alone. -/
theorem scenario_c_kosher_only :
    checkForConflict porkChops kosher = .ok true ∧
      checkForConflict porkChops vegan = .ok true ∧
      checkItemCompatibility porkChops [⟨some kosher, "strict"⟩, ⟨some vegan, "mild"⟩] = .ok {
        isCompatible := false
        confidence := 0.7
        warnings := ["May not align with Vegan preference"]
        reason := some "Violates religious restriction: Kosher"
        severity := some "strict"
        conflictingRestrictions := [⟨"Kosher", "strict", "religious"⟩] } :=
  ⟨by decide, by decide, scenario_c_result⟩

/-- C9, counterexample: on scenario C no result of `checkItemCompatibility`
lists both Kosher and Vegan in `conflictingRestrictions`. -/
theorem scenario_c_vegan_not_listed :
    ¬ ∃ result : MatchResult,
      checkItemCompatibility porkChops [⟨some kosher, "strict"⟩, ⟨some vegan, "mild"⟩] =
        .ok result ∧
      result.isCompatible = false ∧
      (∃ c ∈ result.conflictingRestrictions, c.name = "Kosher") ∧
      (∃ c ∈ result.conflictingRestrictions, c.name = "Vegan") := by
  rintro ⟨result, hres, -, -, c, hc, hname⟩
  rw [scenario_c_result] at hres
  cases hres
  simp at hc
  rw [hc] at hname
  exact absurd hname (by decide)

/-- C10. Safe keywords are inert. For a restriction whose lowercased name is a
key of the pattern table, `checkForConflict` returns, and it returns true
exactly when some keyword of the entry's `conflicts` list matches, by the
keyword rule, the lowercase form of the item name or of the category (a missing
name or category matches nothing); the `safe` list has no part in this, and
replacing it by any other list leaves the evaluation of the entry unchanged on
every pair of texts. -/
theorem safe_keywords_are_inert (item : Item) (restriction : Restriction) (pattern : Pattern)
    (hkey : conflictPatterns (toLowerCase restriction.name) = some pattern) :
    (∃ b, checkForConflict item restriction = .ok b) ∧
      (checkForConflict item restriction = .ok true ↔
        ∃ k ∈ pattern.conflicts,
          (∃ name, item.item_name = some name ∧
            keywordRule (toLowerCase name) k = true) ∨
          (∃ category, item.category = some category ∧
            keywordRule (toLowerCase category) k = true)) ∧
      ∀ (safe : List String) (itemName itemCategory : String),
        evalPattern { conflicts := pattern.conflicts, safe := safe } itemName itemCategory =
          evalPattern pattern itemName itemCategory := by
  have hcall : checkForConflict item restriction =
      .ok (evalPattern pattern (lowerOrEmpty item.item_name) (lowerOrEmpty item.category)) := by
    simp only [checkForConflict, lookupPattern, hkey]
  refine ⟨⟨_, hcall⟩, ?_, fun _ _ _ => rfl⟩
  rw [hcall]
  simp only [Except.ok.injEq, evalPattern, List.any_eq_true, Bool.or_eq_true]
  constructor
  · rintro ⟨k, hk, hmatch⟩
    refine ⟨k, hk, hmatch.imp ?_ ?_⟩ <;>
      exact (containsKeyword_lowerOrEmpty _ pattern hkey k hk _).mp
  · rintro ⟨k, hk, hmatch⟩
    refine ⟨k, hk, hmatch.imp ?_ ?_⟩ <;>
      exact (containsKeyword_lowerOrEmpty _ pattern hkey k hk _).mpr

/-- C10, witness: the entry `nut-free` against the item `Trail Mix` of the
category `Tree Nuts`, whose lowercase form holds the keyword `tree nut`; the
call returns true. So does `Almond Milk` against Dairy-Free through the
conflict keyword `milk`, although `almond milk` is a safe keyword, `Gluten-Free
Cookies` against Gluten-Free, and a name written with the Kelvin sign U+212A,
which the lowercase conversion turns into `k`. -/
theorem safe_keywords_are_inert_witness :
    conflictPatterns (toLowerCase "Nut-Free") = some
        ⟨["peanut", "almond", "walnut", "cashew", "pistachio", "hazelnut", "pecan",
          "tree nut"], ["nut-free", "nut free"]⟩ ∧
      (checkForConflict { item_name := some "Trail Mix", category := some "Tree Nuts" }
          ⟨"Nut-Free", "allergen", true⟩ = .ok true ↔
        ∃ k ∈ ["peanut", "almond", "walnut", "cashew", "pistachio", "hazelnut", "pecan",
            "tree nut"],
          (∃ name, some "Trail Mix" = some name ∧
            keywordRule (toLowerCase name) k = true) ∨
          (∃ category, some "Tree Nuts" = some category ∧
            keywordRule (toLowerCase category) k = true)) ∧
      toLowerCase "Tree Nuts" = "tree nuts" ∧
      keywordRule "tree nuts" "tree nut" = true ∧
      keywordRule "Tree Nuts" "tree nut" = false ∧
      checkForConflict { item_name := some "Trail Mix", category := some "Tree Nuts" }
        ⟨"Nut-Free", "allergen", true⟩ = .ok true ∧
      checkForConflict { item_name := some "Almond Milk", category := none }
        ⟨"Dairy-Free", "allergen", true⟩ = .ok true ∧
      checkForConflict { item_name := some "Gluten-Free Cookies", category := none }
        ⟨"Gluten-Free", "medical", false⟩ = .ok true ∧
      checkForConflict { item_name := some "Oat MIL\u212A", category := none }
        ⟨"Dairy-Free", "allergen", true⟩ = .ok true :=
  ⟨by decide,
    (safe_keywords_are_inert { item_name := some "Trail Mix", category := some "Tree Nuts" }
      ⟨"Nut-Free", "allergen", true⟩
      ⟨["peanut", "almond", "walnut", "cashew", "pistachio", "hazelnut", "pecan", "tree nut"],
        ["nut-free", "nut free"]⟩
      (by decide)).2.1,
    by decide, by decide, by decide, by decide, by decide, by decide, by decide⟩

/-- C11. The audit log is bounded and FIFO. Starting from the empty log, after
any sequence of calls of `logMismatch` the log is the last `min(n, 1000)` of
the `n` entries logged, in insertion order, so it has exactly `min(n, 1000)`
entries and never more than 1000; a single call leaves at most 1000 entries
whatever the log was; and after 1001 calls the log is the 1000 entries logged
after the first one. -/
theorem audit_log_bounded_fifo (calls : List LogCall) :
    logMismatchAll calls [] = (calls.map LogCall.entry).drop (calls.length - 1000) ∧
      (logMismatchAll calls []).length = min calls.length 1000 ∧
      (logMismatchAll calls []).length ≤ 1000 ∧
      (∀ (c : LogCall) (mismatchLog : List MismatchLogEntry),
        (logMismatch c.now c.userId c.item c.matchResult mismatchLog).length ≤ 1000) ∧
      (∀ first : LogCall, calls.length = 1000 →
        logMismatchAll (first :: calls) [] = calls.map LogCall.entry ∧
        (logMismatchAll (first :: calls) []).length = 1000) := by
  have h := logMismatchAll_of_length_le calls [] (Nat.zero_le _)
  rw [List.nil_append] at h
  have hlen : (logMismatchAll calls []).length = min calls.length 1000 := by
    rw [h, keepLast_length, List.length_map]
  refine ⟨?_, hlen, ?_, fun c log => logMismatch_length_le _ _ _ _ _, ?_⟩
  · rw [h, keepLast, List.length_map]
  · rw [hlen]
    exact Nat.min_le_right _ _
  · intro first hcalls
    have h1 := logMismatchAll_of_length_le (first :: calls) [] (Nat.zero_le _)
    rw [List.nil_append] at h1
    have h2 : logMismatchAll (first :: calls) [] = calls.map LogCall.entry := by
      rw [h1, keepLast, List.length_map, List.length_cons, hcalls, List.map_cons]
      rfl
    exact ⟨h2, by rw [h2, List.length_map, hcalls]⟩

/-- C11, witness: 1001 calls, the first at time 0 and a thousand at time 1;
the log is then the thousand entries of time 1. -/
theorem audit_log_bounded_fifo_witness :
    logMismatchAll
        (⟨0, "u1", peanutButter, initialResult⟩ ::
          List.replicate 1000 ⟨1, "u1", whiteRice, initialResult⟩) [] =
      (List.replicate 1000 (⟨1, "u1", whiteRice, initialResult⟩ : LogCall)).map LogCall.entry :=
  ((audit_log_bounded_fifo (List.replicate 1000 ⟨1, "u1", whiteRice, initialResult⟩)).2.2.2.2
    ⟨0, "u1", peanutButter, initialResult⟩ (List.length_replicate 1000 _)).1

/-- C12, as the code has it. `getMismatchLogs(filters)` returns exactly the log
entries that satisfy every filter given with a value other than the empty
string (userId equal as strings, severity equal, timestamp not before
`startDate`, timestamp not after `endDate`), each entry as often as it is in
the log, ordered newest first (timestamps non-increasing); a `userId` or
`severity` filter given as the empty string filters nothing; with no filters
every entry of the log is returned. For filters without an empty string this is
the claim read literally. -/
theorem mismatch_logs_filtered_newest_first (filters : Filters)
    (mismatchLog : List MismatchLogEntry) :
    (getMismatchLogs filters mismatchLog).Perm (mismatchLog.filter filters.satisfiedBy) ∧
      (∀ entry, entry ∈ getMismatchLogs filters mismatchLog ↔
        entry ∈ mismatchLog ∧
        (∀ userId, filters.userId = some userId → userId ≠ "" → entry.userId = userId) ∧
        (∀ severity, filters.severity = some severity → severity ≠ "" →
          entry.severity = some severity) ∧
        (∀ startDate, filters.startDate = some startDate → startDate ≤ entry.timestamp) ∧
        (∀ endDate, filters.endDate = some endDate → entry.timestamp ≤ endDate)) ∧
      (getMismatchLogs filters mismatchLog).Pairwise
        (fun a b => b.timestamp ≤ a.timestamp) ∧
      (getMismatchLogs {} mismatchLog).Perm mismatchLog ∧
      (filters.userId ≠ some "" ∧ filters.severity ≠ some "" →
        (getMismatchLogs filters mismatchLog).Perm
          (mismatchLog.filter filters.satisfiedAsGiven)) := by
  haveI : IsTotal MismatchLogEntry newestFirst := ⟨fun a b => le_total b.timestamp a.timestamp⟩
  haveI : IsTrans MismatchLogEntry newestFirst :=
    ⟨fun a b c hab hbc => le_trans (α := Int) hbc hab⟩
  have hperm : (getMismatchLogs filters mismatchLog).Perm
      (mismatchLog.filter filters.satisfiedBy) := by
    rw [getMismatchLogs_eq]
    exact List.perm_insertionSort _ _
  refine ⟨hperm, ?_, ?_, ?_, ?_⟩
  · intro entry
    rw [hperm.mem_iff, List.mem_filter]
    obtain ⟨userId, severity, startDate, endDate⟩ := filters
    cases userId <;> cases severity <;> cases startDate <;> cases endDate <;>
      simp [Filters.satisfiedBy, or_iff_not_imp_left, and_assoc]
  · rw [getMismatchLogs_eq]
    exact List.sorted_insertionSort newestFirst _
  · rw [getMismatchLogs_eq]
    refine (List.perm_insertionSort _ _).trans ?_
    rw [List.filter_eq_self.mpr]
    intro entry _
    rfl
  · rintro ⟨hu, hs⟩
    refine hperm.trans (List.Perm.of_eq ?_)
    apply List.filter_congr
    intro entry _
    obtain ⟨userId, severity, startDate, endDate⟩ := filters
    have hu1 : ∀ u, userId = some u → (u == "") = false := by
      intro u h
      rw [beq_eq_false_iff_ne]
      exact fun e => hu (by simp [h, e])
    have hs1 : ∀ v, severity = some v → (v == "") = false := by
      intro v h
      rw [beq_eq_false_iff_ne]
      exact fun e => hs (by simp [h, e])
    cases userId with
    | none =>
      cases severity with
      | none => rfl
      | some v => simp only [Filters.satisfiedBy, Filters.satisfiedAsGiven, hs1 v rfl,
          Bool.false_or]
    | some u =>
      cases severity with
      | none => simp only [Filters.satisfiedBy, Filters.satisfiedAsGiven, hu1 u rfl,
          Bool.false_or]
      | some v => simp only [Filters.satisfiedBy, Filters.satisfiedAsGiven, hu1 u rfl,
          hs1 v rfl, Bool.false_or]

/-- C12, witness: a log of three entries filtered by the user `u1`; the two
entries of `u1` are returned, the newer one first. -/
theorem mismatch_logs_filtered_newest_first_witness :
    getMismatchLogs { userId := some "u1" }
        [loggedAt 1 "u1" "strict", loggedAt 2 "u2" "mild", loggedAt 3 "u1" "mild"] =
      [loggedAt 3 "u1" "mild", loggedAt 1 "u1" "strict"] ∧
    (getMismatchLogs { userId := some "u1" }
        [loggedAt 1 "u1" "strict", loggedAt 2 "u2" "mild", loggedAt 3 "u1" "mild"]).Perm
      ([loggedAt 1 "u1" "strict", loggedAt 2 "u2" "mild", loggedAt 3 "u1" "mild"].filter
        (Filters.satisfiedAsGiven { userId := some "u1" })) :=
  ⟨by decide,
    (mismatch_logs_filtered_newest_first { userId := some "u1" }
      [loggedAt 1 "u1" "strict", loggedAt 2 "u2" "mild", loggedAt 3 "u1" "mild"]).2.2.2.2
      ⟨by decide, by decide⟩⟩

/-- C12, counterexample: the filter `userId` given as the empty string. The
entry of the user `u1` does not satisfy it, yet `getMismatchLogs` returns the
entry: the guard `if (filters.userId)` takes the empty string for no filter.
The same holds for `severity`. -/
theorem empty_string_filter_is_ignored :
    Filters.satisfiedAsGiven { userId := some "" } (loggedAt 1 "u1" "strict") = false ∧
      getMismatchLogs { userId := some "" } [loggedAt 1 "u1" "strict"] =
        [loggedAt 1 "u1" "strict"] ∧
      Filters.satisfiedAsGiven { severity := some "" } (loggedAt 1 "u1" "strict") = false ∧
      getMismatchLogs { severity := some "" } [loggedAt 1 "u1" "strict"] =
        [loggedAt 1 "u1" "strict"] := by
  decide

/-- C13. `matchUserDietaryNeeds` appends exactly one mismatch log entry per
excluded item and none for a compatible item. For a user with at least one
preference, a log of the service (at most 1000 entries, as every log reached
from the empty one has) and any batch, when the call returns a result the log
after the call is the last 1000 entries of the log before followed by one entry
per element of `incompatibleItems`, in item order. -/
theorem one_log_entry_per_excluded_item (clock : Nat → Int) (userId : String)
    (userPreferences : List UserPreference) (inventoryItems : List Item)
    (mismatchLog : List MismatchLogEntry) (result : BatchResult)
    (hprefs : userPreferences ≠ []) (hlen : mismatchLog.length ≤ 1000)
    (h : (matchUserDietaryNeeds (.ok (some userPreferences)) clock userId inventoryItems
      mismatchLog).1 = .ok result) :
    (matchUserDietaryNeeds (.ok (some userPreferences)) clock userId inventoryItems
        mismatchLog).2 =
      keepLast 1000
        (mismatchLog ++ excludedEntries clock userId 1 result.incompatibleItems) := by
  have hne : userPreferences.length ≠ 0 := fun h0 => hprefs (List.length_eq_zero.mp h0)
  simp only [matchUserDietaryNeeds, if_neg hne] at h ⊢
  generalize hloop : processItems clock userId userPreferences inventoryItems
    ⟨{ compatibleItems := [], incompatibleItems := [], warnings := [], matchingTime := 0,
       totalProcessed := inventoryItems.length, strictExclusions := some 0,
       mildExclusions := some 0 }, mismatchLog, 1⟩ = looped at h ⊢
  obtain ⟨out, log, reads⟩ := looped
  cases out with
  | error e => simp at h
  | ok r =>
    simp only [Except.ok.injEq] at h
    obtain ⟨excluded, h1, h2, -⟩ :=
      processItems_log clock userId userPreferences inventoryItems _ r log reads hlen hloop
    simp only [List.nil_append] at h1
    subst h
    simp only [h2, h1]

/-- C13, witness: scenario A from the empty log; Peanut Butter is excluded and
logged at the clock reading 1, White Rice is not logged. -/
theorem one_log_entry_per_excluded_item_witness :
    (matchUserDietaryNeeds (.ok (some [⟨some nutFree, "strict"⟩])) (fun k => k) "u1"
        [peanutButter, whiteRice] []).2 =
      keepLast 1000 ([] ++ excludedEntries (fun k => k) "u1" 1
        [{ item := peanutButter, exclusionReason := some "Contains allergen: Nut-Free",
           severity := some "strict",
           conflictingRestrictions := [⟨"Nut-Free", "strict", "allergen"⟩] }]) :=
  one_log_entry_per_excluded_item (fun k => k) "u1" [⟨some nutFree, "strict"⟩]
    [peanutButter, whiteRice] []
    { compatibleItems :=
        [{ item := whiteRice, matchConfidence := some 1.0, warnings := some [] }]
      incompatibleItems :=
        [{ item := peanutButter, exclusionReason := some "Contains allergen: Nut-Free",
           severity := some "strict",
           conflictingRestrictions := [⟨"Nut-Free", "strict", "allergen"⟩] }]
      warnings := []
      matchingTime := 2
      totalProcessed := 2
      strictExclusions := some 1
      mildExclusions := some 0 }
    (by simp) (by simp)
    (by
      have hp : checkItemCompatibility peanutButter [⟨some nutFree, "strict"⟩] = .ok {
          isCompatible := false
          confidence := 1.0
          warnings := []
          reason := some "Contains allergen: Nut-Free"
          severity := some "strict"
          conflictingRestrictions := [⟨"Nut-Free", "strict", "allergen"⟩] } := rfl
      have hw : checkItemCompatibility whiteRice [⟨some nutFree, "strict"⟩] =
          .ok initialResult := rfl
      simp [matchUserDietaryNeeds, processItems, hp, hw, initialResult])

/-- C14, as the code has it. The entry appended by `logMismatch` is the last
entry of the log after the call; it records `itemId` equal to the item's
property `_id` (undefined when the item has none), `itemName` equal to its
`item_name`, the caller's `userId`, and `reason`, `severity` and
`conflictingRestrictions` equal to those of the match result. -/
theorem log_entry_records_underscore_id (now : Int) (userId : String) (item : Item)
    (matchResult : MatchResult) (mismatchLog : List MismatchLogEntry) :
    (logMismatch now userId item matchResult mismatchLog).getLast? = some {
      timestamp := now
      userId := userId
      itemId := item.field "_id"
      itemName := item.item_name
      reason := matchResult.reason
      severity := matchResult.severity
      conflictingRestrictions := matchResult.conflictingRestrictions } :=
  logMismatch_getLast? now userId item matchResult mismatchLog

/-- C14, counterexample: the item `{id: "42", item_name: "Peanut Butter",
category: "Spreads"}` is in the documented input shape; the entry logged for it
has an undefined `itemId`, not the item's `id`. -/
theorem log_entry_misses_id :
    peanutButterWithId.field "id" = some (.str "42") ∧
      (logMismatch 0 "u1" peanutButterWithId
          { initialResult with
            isCompatible := false
            reason := some "Contains allergen: Nut-Free"
            severity := some "strict"
            conflictingRestrictions := [⟨"Nut-Free", "strict", "allergen"⟩] }
          []).map (fun entry => entry.itemId) = [none] ∧
      (logMismatch 0 "u1" peanutButterWithId
          { initialResult with
            isCompatible := false
            reason := some "Contains allergen: Nut-Free"
            severity := some "strict"
            conflictingRestrictions := [⟨"Nut-Free", "strict", "allergen"⟩] }
          []).map (fun entry => entry.itemId) ≠ [peanutButterWithId.field "id"] := by
  refine ⟨by decide, ?_, ?_⟩ <;> simp [logMismatch, peanutButterWithId, Item.field]

/-- C15. A failing preference fetch is never turned into a result. When
`getUserDietaryPreferences` fails, `matchUserDietaryNeeds` fails with an error
for every user, clock, batch and log: it returns no `BatchResult` (so never the
fast-path result) and the mismatch log is unchanged; the same holds whatever
the second argument is. -/
theorem fetch_failure_is_not_a_result (e : JsError) (clock : Nat → Int) (userId : String)
    (inventoryItems : List Item) (mismatchLog : List MismatchLogEntry) :
    (∃ error, (matchUserDietaryNeeds (.error e) clock userId inventoryItems mismatchLog).1 =
        .error error) ∧
      (∀ result, (matchUserDietaryNeeds (.error e) clock userId inventoryItems mismatchLog).1 ≠
        .ok result) ∧
      (matchUserDietaryNeeds (.error e) clock userId inventoryItems mismatchLog).2 =
        mismatchLog ∧
      ∀ arg : ItemsArg, ∃ error,
        matchUserDietaryNeedsArg (.error e) clock userId arg mismatchLog =
          (.threw error, mismatchLog) :=
  ⟨⟨processingError, rfl⟩, fun _ h => by simp [matchUserDietaryNeeds] at h, rfl,
    fun _ => ⟨processingError, rfl⟩⟩

/-- C16, as the code has it. When `getUserDietaryPreferences` fails with an
error `e`, the `catch` block replaces it: `matchUserDietaryNeeds` fails with a
new `Error` whose message is "Failed to process dietary matching", the same for
every upstream error, and the log is unchanged. -/
theorem fetch_error_is_replaced (e e' : JsError) (clock : Nat → Int) (userId : String)
    (inventoryItems : List Item) (mismatchLog : List MismatchLogEntry) :
    matchUserDietaryNeeds (.error e) clock userId inventoryItems mismatchLog =
        (.error ⟨"Error", "Failed to process dietary matching"⟩, mismatchLog) ∧
      matchUserDietaryNeeds (.error e) clock userId inventoryItems mismatchLog =
        matchUserDietaryNeeds (.error e') clock userId inventoryItems mismatchLog :=
  ⟨rfl, rfl⟩

/-- C16, counterexample: the upstream error `MongoNetworkError: connection
timed out` does not reach the caller; the call fails with another error. -/
theorem fetch_error_not_propagated :
    (matchUserDietaryNeeds (.error ⟨"MongoNetworkError", "connection timed out"⟩)
        (fun _ => 0) "u1" [peanutButter] []).1 ≠
      .error ⟨"MongoNetworkError", "connection timed out"⟩ := by
  decide

/-- C17, as the code has it. When the items argument is missing (`undefined`)
or `null`, `matchUserDietaryNeeds` fails with the error "Failed to process
dietary matching" for every user and every preference state, returns no result
and appends nothing to the log; a plain object fails in the same way when the
user has at least one preference. -/
theorem missing_items_argument_fails
    (fetch : Except JsError (Option (List UserPreference))) (clock : Nat → Int)
    (userId : String) (mismatchLog : List MismatchLogEntry) :
    matchUserDietaryNeedsArg fetch clock userId .undefined mismatchLog =
        (.threw processingError, mismatchLog) ∧
      matchUserDietaryNeedsArg fetch clock userId .null mismatchLog =
        (.threw processingError, mismatchLog) ∧
      ∀ (p : UserPreference) (ps : List UserPreference),
        matchUserDietaryNeedsArg (.ok (some (p :: ps))) clock userId .object mismatchLog =
          (.threw processingError, mismatchLog) := by
  refine ⟨?_, ?_, fun p ps => rfl⟩ <;>
    · rcases fetch with e | prefs
      · rfl
      · rfl

/-- C17, counterexample: a string is not a list, yet the call returns. With no
preferences the string `ab` itself comes back as `compatibleItems` with
`totalProcessed` 2; with the preference Vegetarian/mild its two characters are
processed as items and a `BatchResult` with two compatible records comes back;
and a plain object comes back on the fast path. -/
theorem string_argument_is_processed :
    matchUserDietaryNeedsArg (.ok (some [])) (fun _ => 0) "u1" (.str "ab") [] =
        (.returnedArgument (.str "ab") 0 (some 2), []) ∧
      matchUserDietaryNeedsArg (.ok none) (fun _ => 0) "u1" .object [] =
        (.returnedArgument .object 0 none, []) ∧
      matchUserDietaryNeedsArg (.ok (some [⟨some vegetarian, "mild"⟩])) (fun _ => 0) "u1"
          (.str "ab") [] =
        (.returned {
          compatibleItems :=
            [{ item := charItem 'a', matchConfidence := some 1.0, warnings := some [] },
             { item := charItem 'b', matchConfidence := some 1.0, warnings := some [] }]
          incompatibleItems := []
          warnings := []
          matchingTime := 0
          totalProcessed := 2
          strictExclusions := some 0
          mildExclusions := some 0 }, []) := by
  refine ⟨by decide, by decide, ?_⟩
  have ha : checkItemCompatibility (charItem 'a') [⟨some vegetarian, "mild"⟩] =
      .ok initialResult := rfl
  have hb : checkItemCompatibility (charItem 'b') [⟨some vegetarian, "mild"⟩] =
      .ok initialResult := rfl
  have hdata : "ab".data = ['a', 'b'] := rfl
  have hlen : utf16Length "ab" = 2 := by decide
  simp [matchUserDietaryNeedsArg, matchUserDietaryNeeds, noPreferences, processItems, hdata,
    ha, hb, hlen, initialResult]

/-- C18, evaluated on the fast path. For a user with zero active preferences
(the fetch gives nothing or an empty list) the returned object has no
`strictExclusions` and no `mildExclusions` property: they are undefined, not 0.
The main path initialises both to 0: with the preference Nut-Free and the batch
`[White Rice]`, where nothing is excluded, both counters are 0. -/
theorem fast_path_has_no_exclusion_counts (clock : Nat → Int) (userId : String)
    (inventoryItems : List Item) (mismatchLog : List MismatchLogEntry) :
    (∃ result, (matchUserDietaryNeeds (.ok (some [])) clock userId inventoryItems
        mismatchLog).1 = .ok result ∧
      result.strictExclusions = none ∧ result.mildExclusions = none) ∧
    (∃ result, (matchUserDietaryNeeds (.ok none) clock userId inventoryItems
        mismatchLog).1 = .ok result ∧
      result.strictExclusions = none ∧ result.mildExclusions = none) ∧
    (∃ result, (matchUserDietaryNeeds (.ok (some [⟨some nutFree, "strict"⟩])) clock userId
        [whiteRice] mismatchLog).1 = .ok result ∧
      result.strictExclusions = some 0 ∧ result.mildExclusions = some 0) := by
  refine ⟨⟨_, rfl, rfl, rfl⟩, ⟨_, rfl, rfl, rfl⟩, ?_⟩
  have hw : checkItemCompatibility whiteRice [⟨some nutFree, "strict"⟩] =
      .ok initialResult := rfl
  simp [matchUserDietaryNeeds, processItems, hw, initialResult]

/-- C19, as the code has it. Item fields are preserved except, for a user with
preferences, under the names the engine sets. Whenever `matchUserDietaryNeeds`
returns a result, every input item is the `item` of a record of
`compatibleItems` or of `incompatibleItems`, and that record has every field of
the item with the same value, for every field name other than `matchConfidence`
and `warnings` (compatible record) or `exclusionReason`, `severity` and
`conflictingRestrictions` (incompatible record). For a user with at least one
preference every record holds under those names the values of the item's match
result, whatever the item held there. For a user without preferences the
records hold every field of the input items, those names included. -/
theorem item_fields_preserved_except_set_names
    (fetch : Except JsError (Option (List UserPreference))) (clock : Nat → Int)
    (userId : String) (inventoryItems : List Item) (mismatchLog : List MismatchLogEntry)
    (result : BatchResult)
    (h : (matchUserDietaryNeeds fetch clock userId inventoryItems mismatchLog).1 =
      .ok result) :
    (∀ item ∈ inventoryItems,
      (∃ c ∈ result.compatibleItems, c.item = item ∧
        ∀ key, key ≠ "matchConfidence" → key ≠ "warnings" → c.get key = item.get key) ∨
      (∃ x ∈ result.incompatibleItems, x.item = item ∧
        ∀ key, key ≠ "exclusionReason" → key ≠ "severity" →
          key ≠ "conflictingRestrictions" → x.get key = item.get key)) ∧
    (∀ userPreferences, fetch = .ok (some userPreferences) → userPreferences ≠ [] →
      (∀ c ∈ result.compatibleItems, ∃ matchResult,
        checkItemCompatibility c.item userPreferences = .ok matchResult ∧
        c.get "matchConfidence" = some (.number matchResult.confidence) ∧
        c.get "warnings" = some (.strings matchResult.warnings)) ∧
      (∀ x ∈ result.incompatibleItems, ∃ matchResult,
        checkItemCompatibility x.item userPreferences = .ok matchResult ∧
        x.get "exclusionReason" = some (.nullable matchResult.reason) ∧
        x.get "severity" = some (.nullable matchResult.severity) ∧
        x.get "conflictingRestrictions" =
          some (.restrictions matchResult.conflictingRestrictions))) ∧
    (fetch = .ok none ∨ fetch = .ok (some []) →
      result.incompatibleItems = [] ∧
      (result.compatibleItems.map fun c => c.item) = inventoryItems ∧
      ∀ c ∈ result.compatibleItems, ∀ key, c.get key = c.item.get key) := by
  refine ⟨item_fields_kept fetch clock userId inventoryItems mismatchLog result h, ?_, ?_⟩
  · intro userPreferences hfetch hprefs
    subst hfetch
    obtain ⟨matchResults, hall, hcompat, hexcl, -⟩ :=
      batch_result_of_returned clock userId userPreferences inventoryItems mismatchLog result
        hprefs h
    constructor
    · intro c hc
      rw [hcompat] at hc
      obtain ⟨p, hp, rfl⟩ := List.mem_map.mp hc
      have hzip := List.forall₂_zip hall (List.mem_filter.mp hp).1
      exact ⟨p.2, hzip, rfl, rfl⟩
    · intro x hx
      rw [hexcl] at hx
      obtain ⟨p, hp, rfl⟩ := List.mem_map.mp hx
      have hzip := List.forall₂_zip hall (List.mem_filter.mp hp).1
      exact ⟨p.2, hzip, rfl, rfl, rfl⟩
  · intro hfetch
    have hres : result.incompatibleItems = [] ∧
        result.compatibleItems = inventoryItems.map fun item => ⟨item, none, none⟩ := by
      rcases hfetch with hf | hf <;> subst hf <;>
        simp only [matchUserDietaryNeeds, List.length_nil, if_true, Except.ok.injEq] at h <;>
        subst h <;> exact ⟨rfl, rfl⟩
    refine ⟨hres.1, ?_, ?_⟩
    · rw [hres.2, List.map_map]
      exact List.map_id _
    · intro c hc key
      rw [hres.2] at hc
      obtain ⟨item, -, rfl⟩ := List.mem_map.mp hc
      simp only [CompatibleItem.get]
      split_ifs <;> rfl

/-- C19, witness: Ground Beef with the fields `quantity` and `warnings` of its
own, against the preference Vegetarian/mild; the field `quantity` of the
emitted record is the item's. -/
theorem item_fields_preserved_except_set_names_witness :
    (∃ c ∈ [({ item := groundBeefWithWarnings, matchConfidence := some 0.7,
                warnings := some ["May not align with Vegetarian preference"] } :
              CompatibleItem)],
        c.item = groundBeefWithWarnings ∧
        ∀ key, key ≠ "matchConfidence" → key ≠ "warnings" →
          c.get key = groundBeefWithWarnings.get key) ∨
      (∃ x ∈ ([] : List IncompatibleItem), x.item = groundBeefWithWarnings ∧
        ∀ key, key ≠ "exclusionReason" → key ≠ "severity" →
          key ≠ "conflictingRestrictions" → x.get key = groundBeefWithWarnings.get key) :=
  (item_fields_preserved_except_set_names (.ok (some [⟨some vegetarian, "mild"⟩]))
    (fun _ => 0) "u1" [groundBeefWithWarnings] []
    { compatibleItems :=
        [{ item := groundBeefWithWarnings, matchConfidence := some 0.7,
           warnings := some ["May not align with Vegetarian preference"] }]
      incompatibleItems := []
      warnings := ["May not align with Vegetarian preference"]
      matchingTime := 0
      totalProcessed := 1
      strictExclusions := some 0
      mildExclusions := some 0 }
    (by simp [matchUserDietaryNeeds, processItems, groundBeefWithWarnings_check])).1
    groundBeefWithWarnings (List.mem_singleton.mpr rfl)

/-- C19, counterexample: the item Ground Beef carries a field `warnings` with
the value "keep frozen"; the record emitted for it in `compatibleItems` has,
under `warnings`, the engine's warning list and not the item's value. -/
theorem item_field_warnings_overwritten :
    groundBeefWithWarnings.get "warnings" = some (.field (.str "keep frozen")) ∧
      (∃ c : CompatibleItem,
        (matchUserDietaryNeeds (.ok (some [⟨some vegetarian, "mild"⟩])) (fun _ => 0) "u1"
          [groundBeefWithWarnings] []).1.map (fun r => r.compatibleItems) = .ok [c] ∧
        c.item = groundBeefWithWarnings ∧
        c.get "warnings" = some (.strings ["May not align with Vegetarian preference"]) ∧
        c.get "warnings" ≠ groundBeefWithWarnings.get "warnings") := by
  have hcheck := groundBeefWithWarnings_check
  refine ⟨by decide, ⟨groundBeefWithWarnings, some 0.7,
    some ["May not align with Vegetarian preference"]⟩, ?_, rfl, rfl, ?_⟩
  · simp [matchUserDietaryNeeds, processItems, hcheck, Except.map]
  · simp [CompatibleItem.get, Item.get, Item.field, groundBeefWithWarnings]

/-- C20. Idempotent classification. For the same preference fetch and the same
batch, two calls of `matchUserDietaryNeeds` made at any times, with any content
of the mismatch log (in particular a second call on the log the first one left)
have the same outcome up to `matchingTime`: the same `compatibleItems` and
`incompatibleItems`, records in the same order with the same `matchConfidence`,
`warnings`, `exclusionReason`, `severity` and `conflictingRestrictions`. -/
theorem classification_is_idempotent
    (fetch : Except JsError (Option (List UserPreference))) (clock₁ clock₂ : Nat → Int)
    (userId : String) (inventoryItems : List Item) (log₁ log₂ : List MismatchLogEntry) :
    ((matchUserDietaryNeeds fetch clock₁ userId inventoryItems log₁).1.map
        fun r => ({ r with matchingTime := 0 } : BatchResult)) =
      ((matchUserDietaryNeeds fetch clock₂ userId inventoryItems log₂).1.map
        fun r => ({ r with matchingTime := 0 } : BatchResult)) ∧
    ((matchUserDietaryNeeds fetch clock₁ userId inventoryItems log₁).1.map
        fun r => (r.compatibleItems, r.incompatibleItems)) =
      ((matchUserDietaryNeeds fetch clock₂ userId inventoryItems log₂).1.map
        fun r => (r.compatibleItems, r.incompatibleItems)) ∧
    ((matchUserDietaryNeeds fetch clock₁ userId inventoryItems log₁).1.map
        fun r => (r.compatibleItems, r.incompatibleItems)) =
      ((matchUserDietaryNeeds fetch clock₂ userId inventoryItems
          (matchUserDietaryNeeds fetch clock₁ userId inventoryItems log₁).2).1.map
        fun r => (r.compatibleItems, r.incompatibleItems)) := by
  have key : ∀ (c₁ c₂ : Nat → Int) (l₁ l₂ : List MismatchLogEntry),
      ((matchUserDietaryNeeds fetch c₁ userId inventoryItems l₁).1.map
          fun r => ({ r with matchingTime := 0 } : BatchResult)) =
        ((matchUserDietaryNeeds fetch c₂ userId inventoryItems l₂).1.map
          fun r => ({ r with matchingTime := 0 } : BatchResult)) := by
    intro c₁ c₂ l₁ l₂
    rcases fetch with e | prefs
    · rfl
    · cases prefs with
      | none => rfl
      | some userPreferences =>
        by_cases h0 : userPreferences.length = 0
        · simp only [matchUserDietaryNeeds, if_pos h0]
          rfl
        · simp only [matchUserDietaryNeeds, if_neg h0]
          have hout := processItems_outcome c₁ c₂ userId userId userPreferences inventoryItems
            ⟨{ compatibleItems := [], incompatibleItems := [], warnings := [],
               matchingTime := 0, totalProcessed := inventoryItems.length,
               strictExclusions := some 0, mildExclusions := some 0 }, l₁, 1⟩
            ⟨{ compatibleItems := [], incompatibleItems := [], warnings := [],
               matchingTime := 0, totalProcessed := inventoryItems.length,
               strictExclusions := some 0, mildExclusions := some 0 }, l₂, 1⟩ rfl
          rw [hout]
          cases (processItems c₂ userId userPreferences inventoryItems
            ⟨{ compatibleItems := [], incompatibleItems := [], warnings := [],
               matchingTime := 0, totalProcessed := inventoryItems.length,
               strictExclusions := some 0, mildExclusions := some 0 }, l₂, 1⟩).1 <;> rfl
  have proj : ∀ (c₁ c₂ : Nat → Int) (l₁ l₂ : List MismatchLogEntry),
      ((matchUserDietaryNeeds fetch c₁ userId inventoryItems l₁).1.map
          fun r => (r.compatibleItems, r.incompatibleItems)) =
        ((matchUserDietaryNeeds fetch c₂ userId inventoryItems l₂).1.map
          fun r => (r.compatibleItems, r.incompatibleItems)) := by
    intro c₁ c₂ l₁ l₂
    have h := congrArg (Except.map fun r : BatchResult =>
      (r.compatibleItems, r.incompatibleItems)) (key c₁ c₂ l₁ l₂)
    cases h1 : (matchUserDietaryNeeds fetch c₁ userId inventoryItems l₁).1 <;>
      cases h2 : (matchUserDietaryNeeds fetch c₂ userId inventoryItems l₂).1 <;>
      simp only [h1, h2, Except.map] at h ⊢ <;> exact h
  exact ⟨key _ _ _ _, proj _ _ _ _, proj _ _ _ _⟩

/-- C21, evaluated where the replacement fails. The user `u1` holds the active
preference `(r1, mild)` and submits `[(r1, strict)]`. `updateMany` deactivates
the stored document and keeps it, so `insertMany` of the new document for
`(u1, r1)` is rejected by the unique index on `(userId, restrictionId)`; the
`catch` answers 500, and afterwards the user has no active preference at all
instead of `(r1, strict, '')`. Submitting the held preference `(r1, mild)`
again ends the same way. -/
theorem replace_all_rejected_by_unique_index :
    updateUserPreferences "u1" (some [⟨some "r1", some "strict", none⟩])
        [⟨"u1", "r1", "mild", "", true⟩] =
      (UpdateResponse.serverError, [⟨"u1", "r1", "mild", "", false⟩]) ∧
    activePreferences "u1" (updateUserPreferences "u1"
        (some [⟨some "r1", some "strict", none⟩]) [⟨"u1", "r1", "mild", "", true⟩]).2 = [] ∧
    ([⟨some "r1", some "strict", none⟩] : List SubmittedPreference).map
        (fun pref => pref.asked) = [("r1", "strict", "")] ∧
    updateUserPreferences "u1" (some [⟨some "r1", some "mild", none⟩])
        [⟨"u1", "r1", "mild", "", true⟩] =
      (UpdateResponse.serverError, [⟨"u1", "r1", "mild", "", false⟩]) := by
  decide

/-- C22, evaluated where the code breaks the invariant. The stored document has
quantity 15 and minimum 10 and `findOneAndUpdate` sets the quantity to 0. In
the pre-update hook `update.quantity || this.quantity` discards the 0; in query
middleware `this.quantity` is undefined, `undefined <= 10` is false, and the
document is stored with quantity 0, minimum 10 and `low_stock` false although
0 <= 10. Were `this` the stored document the hook would compare the old
quantity 15 with 10 and store the same. The pre-save hook and `updateStock`
set the flag for the same document and quantity. -/
theorem low_stock_cleared_on_update_to_zero :
    Inventory.findOneAndUpdate none none ⟨15, 10, false⟩ ⟨some 0, none, none⟩ =
        ⟨0, 10, false⟩ ∧
      ¬ (Inventory.findOneAndUpdate none none ⟨15, 10, false⟩ ⟨some 0, none, none⟩).flagAgrees ∧
      Inventory.findOneAndUpdate (some 15) (some 10) ⟨15, 10, false⟩ ⟨some 0, none, none⟩ =
        ⟨0, 10, false⟩ ∧
      Inventory.preSave ⟨0, 10, false⟩ = ⟨0, 10, true⟩ ∧
      Inventory.updateStock ⟨15, 10, false⟩ 0 = ⟨0, 10, true⟩ := by
  decide

/-- C23. Strict-allergen short-circuit. For a preference list
`pre ++ [p] ++ post` where `p` is a resolved `strict` preference on an allergen
that conflicts with the item and no preference of `pre` is a conflicting strict
allergen, `checkItemCompatibility` on the whole list equals
`checkItemCompatibility` on `pre ++ [p]`, so nothing of `post` contributes; every
result it returns is incompatible with the reason "Contains allergen: <name of
p's restriction>" and the severity `strict`; and it returns a result whenever
the lookups of `pre` succeed. -/
theorem strict_allergen_short_circuit (item : Item) (pre post : List UserPreference)
    (p : UserPreference) (r : Restriction)
    (hr : p.restrictionId = some r) (ha : r.isAllergen = true) (hs : p.severity = "strict")
    (hc : checkForConflict item r = .ok true)
    (hpre : ∀ q ∈ pre, ∀ rq, q.restrictionId = some rq → rq.isAllergen = true →
      q.severity = "strict" → checkForConflict item rq ≠ .ok true) :
    checkItemCompatibility item (pre ++ [p] ++ post) =
        checkItemCompatibility item (pre ++ [p]) ∧
      (∀ result, checkItemCompatibility item (pre ++ [p] ++ post) = .ok result →
        result.isCompatible = false ∧
        result.reason = some ("Contains allergen: " ++ r.name) ∧
        result.severity = some "strict") ∧
      ((∀ q ∈ pre, ∀ rq, q.restrictionId = some rq → ∃ b, checkForConflict item rq = .ok b) →
        ∃ result, checkItemCompatibility item (pre ++ [p] ++ post) = .ok result) := by
  unfold checkItemCompatibility
  rw [List.append_assoc]
  rcases loop_append_cases item pre initialResult with
    ⟨e, he⟩ | ⟨q, rq, final, hq, hrq, haq, hsq, hcq, -⟩ | ⟨handed, hh⟩
  · refine ⟨by rw [he, he], fun result h => ?_, fun hok => ?_⟩
    · rw [he] at h
      cases h
    · obtain ⟨final, hfinal⟩ := loop_ok_of_lookups_ok item pre initialResult hok
      have h0 := he []
      rw [List.append_nil, hfinal] at h0
      cases h0
  · exact absurd hcq (hpre q hq rq hrq haq hsq)
  · have h1 : checkItemCompatibilityLoop item (pre ++ ([p] ++ post)) initialResult =
        .ok (excludeAsAllergen handed r p.severity) := by
      rw [hh, List.singleton_append, loop_cons_allergen_strict item p r post handed hr hc ha hs]
    have h2 : checkItemCompatibilityLoop item (pre ++ [p]) initialResult =
        .ok (excludeAsAllergen handed r p.severity) := by
      rw [hh, loop_cons_allergen_strict item p r [] handed hr hc ha hs]
    refine ⟨by rw [h1, h2], fun result h => ?_, fun _ => ⟨_, h1⟩⟩
    rw [h1] at h
    cases h
    exact ⟨rfl, rfl, by rw [← hs]; rfl⟩

/-- C23, witness: Peanut Butter against `[Vegetarian (mild), Nut-Free (strict),
constructor (mild)]`; the preference after the strict allergen is never looked
up. -/
theorem strict_allergen_short_circuit_witness :
    checkItemCompatibility peanutButter
        ([⟨some vegetarian, "mild"⟩] ++ [⟨some nutFree, "strict"⟩] ++
          [⟨some constructorRestriction, "mild"⟩]) =
      checkItemCompatibility peanutButter
        ([⟨some vegetarian, "mild"⟩] ++ [⟨some nutFree, "strict"⟩]) :=
  (strict_allergen_short_circuit peanutButter [⟨some vegetarian, "mild"⟩]
    [⟨some constructorRestriction, "mild"⟩] ⟨some nutFree, "strict"⟩ nutFree
    rfl rfl rfl (by decide) (by decide)).1

/-- C24, as the code has it. The strict-allergen early return does not change
the classification wherever the evaluator without it produces one. For every
item and preference list: when the evaluator without the early return returns a
result, `checkItemCompatibility` returns a result with the same `isCompatible`;
when `checkItemCompatibility` returns `isCompatible = true`, the evaluator
without the early return returns the very same result; two results returned for
the same list never differ in `isCompatible`; when every conflict check of the
list returns, both evaluators return; and no step of either loop sets
`isCompatible` back to true once it is false. -/
theorem early_return_keeps_classification (item : Item)
    (userPreferences : List UserPreference) :
    (∀ full, checkItemCompatibilityWithoutEarlyReturn item userPreferences = .ok full →
      ∃ early, checkItemCompatibility item userPreferences = .ok early ∧
        early.isCompatible = full.isCompatible) ∧
    (∀ early, checkItemCompatibility item userPreferences = .ok early →
      early.isCompatible = true →
      checkItemCompatibilityWithoutEarlyReturn item userPreferences = .ok early) ∧
    (∀ early full, checkItemCompatibility item userPreferences = .ok early →
      checkItemCompatibilityWithoutEarlyReturn item userPreferences = .ok full →
      early.isCompatible = full.isCompatible) ∧
    ((∀ q ∈ userPreferences, ∀ r, q.restrictionId = some r →
        ∃ b, checkForConflict item r = .ok b) →
      ∃ early full, checkItemCompatibility item userPreferences = .ok early ∧
        checkItemCompatibilityWithoutEarlyReturn item userPreferences = .ok full ∧
        early.isCompatible = full.isCompatible) ∧
    (∀ (l : List UserPreference) (result final : MatchResult),
      result.isCompatible = false →
      (checkItemCompatibilityLoop item l result = .ok final ∨
        loopWithoutEarlyReturn item l result = .ok final) →
      final.isCompatible = false) := by
  have hfull : ∀ full, checkItemCompatibilityWithoutEarlyReturn item userPreferences =
      .ok full → ∃ early, checkItemCompatibility item userPreferences = .ok early ∧
        early.isCompatible = full.isCompatible :=
    fun full h => loop_agrees_with_loopWithoutEarlyReturn item userPreferences _ full h
  refine ⟨hfull, ?_, ?_, early_return_agrees_when_lookups_succeed item userPreferences, ?_⟩
  · intro early h hcompatible
    exact loopWithoutEarlyReturn_of_compatible item userPreferences _ early h hcompatible
  · intro early full h hf
    obtain ⟨early', h', heq⟩ := hfull full hf
    rw [h] at h'
    cases h'
    exact heq
  · intro l result final hres h
    rcases h with h | h
    · exact loop_stays_incompatible item l result final hres h
    · exact loopWithoutEarlyReturn_stays_incompatible item l result final hres h

/-- C24, witness: Peanut Pork Skewers against `[Nut-Free (strict), Kosher
(strict)]`. The evaluator without the early return goes on to Kosher and
returns an incompatible result; `checkItemCompatibility` returns at Nut-Free,
with the same `isCompatible`. -/
theorem early_return_keeps_classification_witness :
    checkItemCompatibilityWithoutEarlyReturn peanutPorkSkewers
        [⟨some nutFree, "strict"⟩, ⟨some kosher, "strict"⟩] = .ok skewersFullResult ∧
      ∃ early, checkItemCompatibility peanutPorkSkewers
          [⟨some nutFree, "strict"⟩, ⟨some kosher, "strict"⟩] = .ok early ∧
        early.isCompatible = skewersFullResult.isCompatible :=
  ⟨skewers_full_result,
    (early_return_keeps_classification peanutPorkSkewers
      [⟨some nutFree, "strict"⟩, ⟨some kosher, "strict"⟩]).1 skewersFullResult
      skewers_full_result⟩

/-- C24, counterexample: Peanut Butter against `[Nut-Free (strict), constructor
(mild)]`. `checkItemCompatibility` returns at the strict allergen with
`isCompatible = false`, while the same evaluator without the early return goes
on to the preference named `constructor`, whose lookup throws, and produces no
classification. -/
theorem early_return_masks_failing_lookup :
    (∃ early, checkItemCompatibility peanutButter
        [⟨some nutFree, "strict"⟩, ⟨some constructorRestriction, "mild"⟩] = .ok early ∧
      early.isCompatible = false) ∧
    checkItemCompatibilityWithoutEarlyReturn peanutButter
        [⟨some nutFree, "strict"⟩, ⟨some constructorRestriction, "mild"⟩] =
      .error safeUndefinedError :=
  ⟨⟨_, rfl, rfl⟩, rfl⟩

/-- C25. Confidence is a floor-tracking minimum. Every result that
`checkItemCompatibility` returns has confidence 1.0 or 0.7, within [0, 1], and
0.7 exactly when its warnings list is not empty, however many mild conflicts
were hit; and a result returned for an extended preference list never has a
higher confidence. -/
theorem confidence_is_floor_tracking (item : Item) (userPreferences : List UserPreference)
    (result : MatchResult) (h : checkItemCompatibility item userPreferences = .ok result) :
    (result.confidence = 1.0 ∨ result.confidence = 0.7) ∧
      0 ≤ result.confidence ∧ result.confidence ≤ 1 ∧
      (result.confidence = 0.7 ↔ result.warnings ≠ []) ∧
      ∀ (extension : List UserPreference) (extended : MatchResult),
        checkItemCompatibility item (userPreferences ++ extension) = .ok extended →
        extended.confidence ≤ result.confidence := by
  have hmin1 : min (1.0 : ℚ) 0.7 = 0.7 := by norm_num
  have hne : (1.0 : ℚ) ≠ 0.7 := by norm_num
  have hinv : (result.confidence = 1.0 ∧ result.warnings = []) ∨
      (result.confidence = 0.7 ∧ result.warnings ≠ []) := by
    refine loop_invariant item
      (fun res => (res.confidence = 1.0 ∧ res.warnings = []) ∨
        (res.confidence = 0.7 ∧ res.warnings ≠ []))
      userPreferences ?_ ?_ ?_ initialResult result (Or.inl ⟨rfl, rfl⟩) h
    · intro p _ r res _ _ _ hres
      exact hres
    · intro p _ r res _ _ _ _ hres
      exact hres
    · intro p _ r res _ _ _ _ hres
      right
      rcases hres with ⟨hc, -⟩ | ⟨hc, -⟩
      · exact ⟨by simp [warnAsMild, hc, hmin1], by simp [warnAsMild]⟩
      · exact ⟨by simp [warnAsMild, hc], by simp [warnAsMild]⟩
  refine ⟨hinv.imp And.left And.left, ?_, ?_, ?_, ?_⟩
  · rcases hinv with ⟨hc, -⟩ | ⟨hc, -⟩ <;> rw [hc] <;> norm_num
  · rcases hinv with ⟨hc, -⟩ | ⟨hc, -⟩ <;> rw [hc] <;> norm_num
  · rcases hinv with ⟨hc, hw⟩ | ⟨hc, hw⟩
    · rw [hc, hw]
      exact ⟨fun h0 => absurd h0 hne, fun h0 => absurd rfl h0⟩
    · exact ⟨fun _ => hw, fun _ => hc⟩
  · intro extension extended hext
    unfold checkItemCompatibility at h hext
    rcases loop_append_cases item userPreferences initialResult with
      ⟨e, he⟩ | ⟨q, r, final, -, -, -, -, -, hf⟩ | ⟨handed, hh⟩
    · have h0 := he []
      rw [List.append_nil, h] at h0
      cases h0
    · have h0 := hf []
      rw [List.append_nil, h] at h0
      rw [hf extension] at hext
      cases h0
      cases hext
      exact le_refl _
    · have h0 := hh []
      rw [List.append_nil, h, checkItemCompatibilityLoop] at h0
      cases h0
      rw [hh extension] at hext
      refine loop_invariant item (fun res => res.confidence ≤ result.confidence)
        extension ?_ ?_ ?_ result extended (le_refl _) hext
      · intro p _ r res _ _ _ hres
        exact hres
      · intro p _ r res _ _ _ _ hres
        exact hres
      · intro p _ r res _ _ _ _ hres
        exact le_trans (min_le_left _ _) hres

/-- C25, witness: Pork Chops against Vegan/mild and Vegetarian/mild; two mild
conflicts are hit and the confidence is 0.7. -/
theorem confidence_is_floor_tracking_witness :
    checkItemCompatibility porkChops [⟨some vegan, "mild"⟩, ⟨some vegetarian, "mild"⟩] =
        .ok twoMildConflictsResult ∧
      (twoMildConflictsResult.confidence = 1.0 ∨ twoMildConflictsResult.confidence = 0.7) ∧
      (twoMildConflictsResult.confidence = 0.7 ↔ twoMildConflictsResult.warnings ≠ []) :=
  have h := confidence_is_floor_tracking porkChops
    [⟨some vegan, "mild"⟩, ⟨some vegetarian, "mild"⟩] twoMildConflictsResult
    two_mild_conflicts_result
  ⟨two_mild_conflicts_result, h.1, h.2.2.2.1⟩

/-- C26. MatchResult consistency. Every result that `checkItemCompatibility`
returns satisfies: `isCompatible` is true iff `reason` is null iff `severity`
is null iff `conflictingRestrictions` is empty; so reason and severity are set
only when the item is incompatible, and an incompatible result lists at least
one conflicting restriction. -/
theorem match_result_consistency (item : Item) (userPreferences : List UserPreference)
    (result : MatchResult) (h : checkItemCompatibility item userPreferences = .ok result) :
    (result.isCompatible = true ↔ result.reason = none) ∧
      (result.reason = none ↔ result.severity = none) ∧
      (result.severity = none ↔ result.conflictingRestrictions = []) ∧
      (result.isCompatible = false → result.conflictingRestrictions ≠ []) := by
  have hinv : (result.isCompatible = true ∧ result.reason = none ∧ result.severity = none ∧
        result.conflictingRestrictions = []) ∨
      (result.isCompatible = false ∧ result.reason ≠ none ∧ result.severity ≠ none ∧
        result.conflictingRestrictions ≠ []) := by
    refine loop_invariant item
      (fun res => (res.isCompatible = true ∧ res.reason = none ∧ res.severity = none ∧
          res.conflictingRestrictions = []) ∨
        (res.isCompatible = false ∧ res.reason ≠ none ∧ res.severity ≠ none ∧
          res.conflictingRestrictions ≠ []))
      userPreferences ?_ ?_ ?_ initialResult result (Or.inl ⟨rfl, rfl, rfl, rfl⟩) h
    · intro p _ r res _ _ _ _
      exact Or.inr ⟨rfl, by simp [excludeAsAllergen], by simp [excludeAsAllergen],
        by simp [excludeAsAllergen]⟩
    · intro p _ r res _ _ _ _ _
      exact Or.inr ⟨rfl, by simp [excludeAsStrict], by simp [excludeAsStrict],
        by simp [excludeAsStrict]⟩
    · intro p _ r res _ _ _ _ hres
      exact hres
  rcases hinv with ⟨h1, h2, h3, h4⟩ | ⟨h1, h2, h3, h4⟩
  · simp [h1, h2, h3, h4]
  · simp [h1, h2, h3, h4]

/-- C26, witness: scenario C, an incompatible result with reason, severity and
one conflicting restriction. -/
theorem match_result_consistency_witness :
    checkItemCompatibility porkChops [⟨some kosher, "strict"⟩, ⟨some vegan, "mild"⟩] =
        .ok scenarioCResult ∧
      (scenarioCResult.isCompatible = true ↔ scenarioCResult.reason = none) ∧
      (scenarioCResult.reason = none ↔ scenarioCResult.severity = none) ∧
      (scenarioCResult.severity = none ↔ scenarioCResult.conflictingRestrictions = []) ∧
      (scenarioCResult.isCompatible = false → scenarioCResult.conflictingRestrictions ≠ []) :=
  ⟨scenario_c_result,
    match_result_consistency porkChops [⟨some kosher, "strict"⟩, ⟨some vegan, "mild"⟩]
      scenarioCResult scenario_c_result⟩

/-- C27, evaluated where the call does not succeed. For White Rice and the list
`[unresolved, constructor (mild)]` the unresolved preference is skipped, but
`checkItemCompatibility` fails on the preference named `constructor`, on the
list with the unresolved preference removed as well. -/
theorem populate_miss_list_fails_on_inherited_key :
    checkItemCompatibility whiteRice
        [⟨none, "mild"⟩, ⟨some constructorRestriction, "mild"⟩] =
      .error safeUndefinedError ∧
    checkItemCompatibility whiteRice
        (resolvedOnly [⟨none, "mild"⟩, ⟨some constructorRestriction, "mild"⟩]) =
      .error safeUndefinedError :=
  ⟨rfl, rfl⟩

/-- C28, evaluated where the rule fails. For Peanut Butter and the list
`[Nut-Free (mild, allergen), constructor (mild)]` the first preference is
resolved, conflicts and is on an allergen, yet `checkItemCompatibility` does not
return `isCompatible = false`: after the mild allergen the loop goes on and
fails on the preference named `constructor`. -/
theorem excluding_preference_without_result :
    isExcluding peanutButter ⟨some nutFree, "mild"⟩ = true ∧
      checkItemCompatibility peanutButter
          [⟨some nutFree, "mild"⟩, ⟨some constructorRestriction, "mild"⟩] =
        .error safeUndefinedError ∧
      ∀ result : MatchResult, checkItemCompatibility peanutButter
          [⟨some nutFree, "mild"⟩, ⟨some constructorRestriction, "mild"⟩] ≠ .ok result := by
  refine ⟨by decide, rfl, fun result h => ?_⟩
  have h' : checkItemCompatibility peanutButter
      [⟨some nutFree, "mild"⟩, ⟨some constructorRestriction, "mild"⟩] =
        .error safeUndefinedError := rfl
  rw [h'] at h
  cases h

/-- C29, as the code has it. Last excluding preference wins. For every result
with `isCompatible = false` that `checkItemCompatibility` returns, the last
entry of `conflictingRestrictions` comes from a conflicting preference of the
list, the returned severity is the severity of that entry, and the returned
reason names that entry's restriction: "Contains allergen: <name>" when the
restriction is flagged `isAllergen` (the entry then has the type `allergen`),
otherwise "Violates <type> restriction: <name>" with the restriction's category
as type. When no non-allergen restriction of the list has the category
`allergen`, this is the rule by the entry's type. With `[Kosher (strict), Nut-Free
(mild, allergen)]` and an item that conflicts with both, the reason and the
severity are the allergen's (`mild`) and `matchUserDietaryNeeds` counts the item
under `mildExclusions`. -/
theorem last_excluding_preference_wins (item : Item) (userPreferences : List UserPreference)
    (result : MatchResult) (h : checkItemCompatibility item userPreferences = .ok result)
    (hinc : result.isCompatible = false) :
    (∃ last, result.conflictingRestrictions.getLast? = some last ∧
      result.severity = some last.severity ∧
      (∃ p ∈ userPreferences, ∃ r, p.restrictionId = some r ∧
        last.name = r.name ∧ last.severity = p.severity ∧
        (r.isAllergen = true → last.type = "allergen" ∧
          result.reason = some ("Contains allergen: " ++ last.name)) ∧
        (r.isAllergen = false → last.type = r.category ∧
          result.reason = some ("Violates " ++ last.type ++ " restriction: " ++ last.name))) ∧
      ((∀ p ∈ userPreferences, ∀ r, p.restrictionId = some r → r.isAllergen = false →
          r.category ≠ "allergen") →
        result.reason = some (reasonByType last))) ∧
    (checkItemCompatibility peanutPorkSkewers
        [⟨some kosher, "strict"⟩, ⟨some nutFree, "mild"⟩] = .ok skewersResult ∧
      skewersResult.reason = some "Contains allergen: Nut-Free" ∧
      skewersResult.severity = some "mild" ∧
      ∀ (clock : Nat → Int) (userId : String) (mismatchLog : List MismatchLogEntry),
        (matchUserDietaryNeeds (.ok (some [⟨some kosher, "strict"⟩, ⟨some nutFree, "mild"⟩]))
          clock userId [peanutPorkSkewers] mismatchLog).1.map
            (fun r => (r.strictExclusions, r.mildExclusions)) = .ok (some 0, some 1)) := by
  constructor
  · obtain ⟨p, hp, r, hr, _, hlast, hsev, hreason⟩ :=
      loop_last_excluding item userPreferences result h hinc
    refine ⟨_, hlast, hsev, ⟨p, hp, r, hr, rfl, rfl, fun ha => ?_, fun ha => ?_⟩, fun hdata => ?_⟩
    · simp [ha, hreason]
    · simp [ha, hreason]
    · rw [hreason, reasonByType]
      cases ha : r.isAllergen
      · have hcat := hdata p hp r hr ha
        simp [hcat]
      · simp
  · refine ⟨skewers_result, rfl, rfl, fun clock userId mismatchLog => ?_⟩
    simp [matchUserDietaryNeeds, processItems, skewers_result, skewersResult, Except.map]

/-- C29, witness: Peanut Pork Skewers against `[Kosher (strict), Nut-Free (mild,
allergen)]`; the last entry is Nut-Free's and the reason follows its type. -/
theorem last_excluding_preference_wins_witness :
    ∃ last, skewersResult.conflictingRestrictions.getLast? = some last ∧
      skewersResult.severity = some last.severity ∧
      (∃ p ∈ [(⟨some kosher, "strict"⟩ : UserPreference), ⟨some nutFree, "mild"⟩],
        ∃ r, p.restrictionId = some r ∧
        last.name = r.name ∧ last.severity = p.severity ∧
        (r.isAllergen = true → last.type = "allergen" ∧
          skewersResult.reason = some ("Contains allergen: " ++ last.name)) ∧
        (r.isAllergen = false → last.type = r.category ∧
          skewersResult.reason =
            some ("Violates " ++ last.type ++ " restriction: " ++ last.name))) ∧
      ((∀ p ∈ [(⟨some kosher, "strict"⟩ : UserPreference), ⟨some nutFree, "mild"⟩],
          ∀ r, p.restrictionId = some r → r.isAllergen = false → r.category ≠ "allergen") →
        skewersResult.reason = some (reasonByType last)) :=
  (last_excluding_preference_wins peanutPorkSkewers
    [⟨some kosher, "strict"⟩, ⟨some nutFree, "mild"⟩] skewersResult skewers_result rfl).1

/-- C29, counterexample: the restriction Dairy-Free created with the category
`allergen` but without the flag `isAllergen`, taken `strict`, against Whole
Milk. The result is incompatible, its last entry has the type `allergen`, and
the reason is "Violates allergen restriction: Dairy-Free", not "Contains
allergen: Dairy-Free". -/
theorem reason_does_not_follow_type :
    checkItemCompatibility wholeMilk [⟨some dairyFreeUnflagged, "strict"⟩] =
        .ok wholeMilkResult ∧
      wholeMilkResult.isCompatible = false ∧
      wholeMilkResult.conflictingRestrictions.getLast? =
        some ⟨"Dairy-Free", "strict", "allergen"⟩ ∧
      reasonByType ⟨"Dairy-Free", "strict", "allergen"⟩ = "Contains allergen: Dairy-Free" ∧
      wholeMilkResult.reason = some "Violates allergen restriction: Dairy-Free" ∧
      wholeMilkResult.reason ≠ some (reasonByType ⟨"Dairy-Free", "strict", "allergen"⟩) :=
  ⟨whole_milk_result, rfl, rfl, by decide, rfl, by decide⟩

/-- C30. Batch partition and statistics invariant. For a user with at least
one preference and any batch, when `matchUserDietaryNeeds` returns a result
there is a match result of `checkItemCompatibility` for every input item, and:
`compatibleItems` holds, in input order, the records of the items whose
`isCompatible` is true and `incompatibleItems` those of the other items, so
both are subsequences of the input and together a rearrangement of it (each
input item once); their lengths add up to `totalProcessed`, the number of
input items; `strictExclusions` is the number of excluded items with severity
strict and `strictExclusions + mildExclusions` the number of excluded items;
and the aggregate `warnings` is the concatenation, in item order, of the
warnings of every item, excluded ones included. -/
theorem batch_partition_and_statistics (clock : Nat → Int) (userId : String)
    (userPreferences : List UserPreference) (inventoryItems : List Item)
    (mismatchLog : List MismatchLogEntry) (result : BatchResult)
    (hprefs : userPreferences ≠ [])
    (h : (matchUserDietaryNeeds (.ok (some userPreferences)) clock userId inventoryItems
      mismatchLog).1 = .ok result) :
    ∃ matchResults : List MatchResult,
      List.Forall₂ (fun item matchResult =>
        checkItemCompatibility item userPreferences = .ok matchResult)
        inventoryItems matchResults ∧
      result.compatibleItems =
        ((inventoryItems.zip matchResults).filter fun p => p.2.isCompatible).map
          (fun p => compatibleRecord p.1 p.2) ∧
      result.incompatibleItems =
        ((inventoryItems.zip matchResults).filter fun p => !p.2.isCompatible).map
          (fun p => excludedRecord p.1 p.2) ∧
      (result.compatibleItems.map fun c => c.item).Sublist inventoryItems ∧
      (result.incompatibleItems.map fun x => x.item).Sublist inventoryItems ∧
      ((result.compatibleItems.map fun c => c.item) ++
        (result.incompatibleItems.map fun x => x.item)).Perm inventoryItems ∧
      result.compatibleItems.length + result.incompatibleItems.length =
        result.totalProcessed ∧
      result.totalProcessed = inventoryItems.length ∧
      (∃ strict mild, result.strictExclusions = some strict ∧
        result.mildExclusions = some mild ∧
        strict = result.incompatibleItems.countP (fun x => x.severity = some "strict") ∧
        strict + mild = result.incompatibleItems.length) ∧
      result.warnings = (matchResults.map fun m => m.warnings).flatten := by
  obtain ⟨matchResults, hall, hcompat, hexcl, hwarn, htotal, hstrict, hmild⟩ :=
    batch_result_of_returned clock userId userPreferences inventoryItems mismatchLog result
      hprefs h
  have hfst : (inventoryItems.zip matchResults).map Prod.fst = inventoryItems :=
    List.map_fst_zip _ _ (le_of_eq hall.length_eq)
  have hc : (result.compatibleItems.map fun c => c.item) =
      ((inventoryItems.zip matchResults).filter fun p => p.2.isCompatible).map Prod.fst := by
    rw [hcompat, List.map_map]
    rfl
  have hx : (result.incompatibleItems.map fun x => x.item) =
      ((inventoryItems.zip matchResults).filter fun p => !p.2.isCompatible).map Prod.fst := by
    rw [hexcl, List.map_map]
    rfl
  have hperm : ((result.compatibleItems.map fun c => c.item) ++
      (result.incompatibleItems.map fun x => x.item)).Perm inventoryItems := by
    rw [hc, hx, ← List.map_append]
    conv_rhs => rw [← hfst]
    exact (List.filter_append_perm _ _).map _
  have hlen : result.compatibleItems.length + result.incompatibleItems.length =
      inventoryItems.length := by
    have := hperm.length_eq
    simpa using this
  have hcount : (inventoryItems.zip matchResults).countP (fun p =>
        !p.2.isCompatible && decide (p.2.severity = some "strict")) =
      result.incompatibleItems.countP (fun x => x.severity = some "strict") := by
    rw [hexcl, List.countP_map, List.countP_filter]
    apply List.countP_congr
    intro p _
    simp [excludedRecord, Bool.and_comm]
  have hsum := countP_excluded_split (inventoryItems.zip matchResults)
  refine ⟨matchResults, hall, hcompat, hexcl, ?_, ?_, hperm, by rw [hlen, htotal], htotal,
    ⟨_, _, hstrict, hmild, hcount, ?_⟩, hwarn⟩
  · rw [hc]
    conv_rhs => rw [← hfst]
    exact (List.filter_sublist _).map _
  · rw [hx]
    conv_rhs => rw [← hfst]
    exact (List.filter_sublist _).map _
  · rw [hsum, hexcl, List.length_map]

/-- C30, witness: the batch `[Pork Chops, White Rice]` for `[Kosher (strict),
Vegan (mild)]`. Pork Chops is excluded with severity strict and still
contributes its Vegan warning to the aggregate warnings; White Rice is
compatible. -/
theorem batch_partition_and_statistics_witness :
    ([⟨some kosher, "strict"⟩, ⟨some vegan, "mild"⟩] : List UserPreference) ≠ [] ∧
    (matchUserDietaryNeeds (.ok (some [⟨some kosher, "strict"⟩, ⟨some vegan, "mild"⟩]))
      (fun k => k) "u1" [porkChops, whiteRice] []).1 = .ok kosherVeganBatch ∧
    (∃ matchResults : List MatchResult,
      List.Forall₂ (fun item matchResult =>
        checkItemCompatibility item [⟨some kosher, "strict"⟩, ⟨some vegan, "mild"⟩] = .ok matchResult)
        [porkChops, whiteRice] matchResults ∧
      kosherVeganBatch.compatibleItems =
        (([porkChops, whiteRice].zip matchResults).filter fun p => p.2.isCompatible).map
          (fun p => compatibleRecord p.1 p.2) ∧
      kosherVeganBatch.incompatibleItems =
        (([porkChops, whiteRice].zip matchResults).filter fun p => !p.2.isCompatible).map
          (fun p => excludedRecord p.1 p.2) ∧
      (kosherVeganBatch.compatibleItems.map fun c => c.item).Sublist [porkChops, whiteRice] ∧
      (kosherVeganBatch.incompatibleItems.map fun x => x.item).Sublist [porkChops, whiteRice] ∧
      ((kosherVeganBatch.compatibleItems.map fun c => c.item) ++
        (kosherVeganBatch.incompatibleItems.map fun x => x.item)).Perm [porkChops, whiteRice] ∧
      kosherVeganBatch.compatibleItems.length + kosherVeganBatch.incompatibleItems.length =
        kosherVeganBatch.totalProcessed ∧
      kosherVeganBatch.totalProcessed = [porkChops, whiteRice].length ∧
      (∃ strict mild, kosherVeganBatch.strictExclusions = some strict ∧
        kosherVeganBatch.mildExclusions = some mild ∧
        strict = kosherVeganBatch.incompatibleItems.countP (fun x => x.severity = some "strict") ∧
        strict + mild = kosherVeganBatch.incompatibleItems.length) ∧
      kosherVeganBatch.warnings = (matchResults.map fun m => m.warnings).flatten) :=
  ⟨by simp, kosher_vegan_batch,
    batch_partition_and_statistics (fun k => k) "u1"
      [⟨some kosher, "strict"⟩, ⟨some vegan, "mild"⟩] [porkChops, whiteRice] []
      kosherVeganBatch (by simp) kosher_vegan_batch⟩

end DietaryMatching
